import Mathlib

/-!
# GM1 sound quality module (`gm1_sound_quality.c` / `gm1_sound_quality.h`)

A shallow embedding of the GM1 sound-quality module and the properties
proved about it.

Conventions of the embedding

* `uint8_t` / `uint32_t` values are natural numbers; no operation of the
  embedded functions can wrap (the only subtraction, `program - 1`, is
  guarded by `program >= 1`).
* A value of the enumerated type `gm1_instrument_category_t` is its numeric
  code (`GM1_CATEGORY_PIANO = 0`, ..., `GM1_CATEGORY_UNKNOWN = 17`), as in C,
  so that values outside the 18 enumerators can be expressed.
* A `float` is an IEEE-754 binary32 datum given by its three bit fields;
  the comparison operators follow IEEE-754 (every ordered comparison with a
  NaN is false).
* Float arithmetic is IEEE-754 binary32 arithmetic: every `+`, `-`, `*`, `/`
  of the C code is one operation on `float` operands whose exact result is
  rounded to the nearest float, ties to even (`FLT_EVAL_METHOD` 0, no fused
  multiply-add); `fabsf` clears the sign bit and `fmaxf` ignores a quiet NaN.
  An operation whose result is a NaN returns the one quiet NaN `F32.invalid`:
  the payload of a NaN result, which IEEE-754 leaves open, is not modelled.
  What is stated about a NaN result is therefore stated with `F32.isNaN`,
  `F32.same_value` or the C comparisons (`F32.eq`, `F32.lt`, ...), which do
  not look at the payload.
* A possibly-NULL pointer argument is an `Option`.
* The static arrays of the module are the fields of `channel_state`, and a
  handler is a function from the state before the call to the state after it.
  The state also lists the calls of the platform stubs, since two of the
  stubs have an empty body.
* The C library functions `log10f` and `powf` are parameters; what a result
  needs from them is a hypothesis of its statement.
-/

namespace GM1

/-! ## IEEE-754 binary32 values and their comparisons -/

/-- An IEEE-754 binary32 value: sign bit, 8-bit biased exponent, 23-bit
fraction field. -/
structure F32 where
  sign : Bool
  exponent : Nat
  mantissa : Nat
  exponent_lt : exponent < 256
  mantissa_lt : mantissa < 2 ^ 23
  deriving DecidableEq

namespace F32

/-- The value stored in the 32-bit word `w` (for instance `0x3F800000` is
`1.0f`). -/
def ofBits (w : Nat) : F32 where
  sign := decide (w / 2 ^ 31 % 2 = 1)
  exponent := w / 2 ^ 23 % 256
  mantissa := w % 2 ^ 23
  exponent_lt := Nat.mod_lt _ (by decide)
  mantissa_lt := Nat.mod_lt _ (by decide)

/-- Not-a-number: all exponent bits set and a non-zero fraction. -/
def isNaN (x : F32) : Bool :=
  x.exponent == 255 && x.mantissa != 0

/-- The magnitude of `x` in units of `2 ^ (-149)` (the smallest subnormal):
for a finite `x` the real number denoted is `± magnitude * 2 ^ (-149)`.
An infinity gets `2 ^ 277`, above every finite magnitude. -/
def magnitude (x : F32) : Nat :=
  (if x.exponent = 0 then x.mantissa else 2 ^ 23 + x.mantissa) * 2 ^ (max x.exponent 1 - 1)

/-- Order key of a non-NaN value: the signed magnitude.  Both zeros get `0`. -/
def key (x : F32) : Int :=
  if x.sign then - (x.magnitude : Int) else (x.magnitude : Int)

/-- C `a < b` on floats. -/
def lt (a b : F32) : Bool :=
  !a.isNaN && !b.isNaN && decide (a.key < b.key)

/-- C `a <= b` on floats. -/
def le (a b : F32) : Bool :=
  !a.isNaN && !b.isNaN && decide (a.key ≤ b.key)

/-- C `a > b` on floats. -/
def gt (a b : F32) : Bool := lt b a

/-- C `a >= b` on floats. -/
def ge (a b : F32) : Bool := le b a

/-- C `a == b` on floats: false when an operand is a NaN; the two zeros are
equal. -/
def eq (a b : F32) : Bool :=
  !a.isNaN && !b.isNaN && decide (a.key = b.key)

/-- C `fabsf`: clears the sign bit. -/
def fabsf (x : F32) : F32 :=
  { x with sign := false }

end F32

/-! ## Constants of `gm1_sound_quality.h` -/

/-- The literal `0.8f`. -/
def GM1_MIN_RECOGNITION_SCORE : F32 := F32.ofBits 0x3F4CCCCD
/-- The literal `10.0f`. -/
def GM1_MAX_TUNING_DEVIATION_CENTS : F32 := F32.ofBits 0x41200000
def GM1_MAX_PROGRAM_SWITCH_MS : Nat := 100
def GM1_MIN_VELOCITY_LAYERS : Nat := 2
def GM1_MIN_SAMPLE_RATE_HZ : Nat := 22050
def GM1_RECOMMENDED_SAMPLE_RATE_HZ : Nat := 44100
def GM1_MIN_BIT_DEPTH : Nat := 8
def GM1_RECOMMENDED_BIT_DEPTH : Nat := 16
/-- The literal `48.0f`. -/
def GM1_MIN_DYNAMIC_RANGE_DB : F32 := F32.ofBits 0x42400000
/-- The literal `72.0f`. -/
def GM1_RECOMMENDED_DYNAMIC_RANGE_DB : F32 := F32.ofBits 0x42900000
def GM1_MIN_POLYPHONY : Nat := 24

/-! ## Float literals of `gm1_sound_quality.c` and of its unit tests -/

/-- The literal `0.0f`. -/
def lit_0_0f : F32 := F32.ofBits 0x00000000
/-- The literal `2.0f`. -/
def lit_2_0f : F32 := F32.ofBits 0x40000000
/-- The literal `20.0f`. -/
def lit_20_0f : F32 := F32.ofBits 0x41A00000
/-- The literal `11000.0f`. -/
def lit_11000_0f : F32 := F32.ofBits 0x462BE000
/-- The literal `20000.0f`. -/
def lit_20000_0f : F32 := F32.ofBits 0x469C4000
/-- The literal `0.5f`. -/
def lit_0_5f : F32 := F32.ofBits 0x3F000000
/-- The literal `0.79f`. -/
def lit_0_79f : F32 := F32.ofBits 0x3F4A3D71
/-- The literal `0.8f`. -/
def lit_0_8f : F32 := F32.ofBits 0x3F4CCCCD
/-- The literal `10.0f`. -/
def lit_10_0f : F32 := F32.ofBits 0x41200000
/-- The literal `-10.0f`. -/
def lit_neg_10_0f : F32 := F32.ofBits 0xC1200000
/-- The literal `-11.0f`. -/
def lit_neg_11_0f : F32 := F32.ofBits 0xC1300000
/-- The literal `15.0f`. -/
def lit_15_0f : F32 := F32.ofBits 0x41700000
/-- The literal `48.0f`. -/
def lit_48_0f : F32 := F32.ofBits 0x42400000
/-- The literal `72.0f`. -/
def lit_72_0f : F32 := F32.ofBits 0x42900000
/-- The literal `96.0f`. -/
def lit_96_0f : F32 := F32.ofBits 0x42C00000
/-- A quiet NaN (`0x7FC00000`). -/
def f32_nan : F32 := F32.ofBits 0x7FC00000

/-! ## Instrument categories -/

/-- The enumerated type `gm1_instrument_category_t`, as its numeric code. -/
abbrev gm1_instrument_category_t := Nat

def GM1_CATEGORY_PIANO : gm1_instrument_category_t := 0
def GM1_CATEGORY_CHROMATIC_PERC : gm1_instrument_category_t := 1
def GM1_CATEGORY_ORGAN : gm1_instrument_category_t := 2
def GM1_CATEGORY_GUITAR : gm1_instrument_category_t := 3
def GM1_CATEGORY_BASS : gm1_instrument_category_t := 4
def GM1_CATEGORY_STRINGS : gm1_instrument_category_t := 5
def GM1_CATEGORY_ENSEMBLE : gm1_instrument_category_t := 6
def GM1_CATEGORY_BRASS : gm1_instrument_category_t := 7
def GM1_CATEGORY_REED : gm1_instrument_category_t := 8
def GM1_CATEGORY_PIPE : gm1_instrument_category_t := 9
def GM1_CATEGORY_SYNTH_LEAD : gm1_instrument_category_t := 10
def GM1_CATEGORY_SYNTH_PAD : gm1_instrument_category_t := 11
def GM1_CATEGORY_SYNTH_EFFECTS : gm1_instrument_category_t := 12
def GM1_CATEGORY_ETHNIC : gm1_instrument_category_t := 13
def GM1_CATEGORY_PERCUSSIVE : gm1_instrument_category_t := 14
def GM1_CATEGORY_SOUND_EFFECTS : gm1_instrument_category_t := 15
def GM1_CATEGORY_PERCUSSION : gm1_instrument_category_t := 16
def GM1_CATEGORY_UNKNOWN : gm1_instrument_category_t := 17

/-- The 16 melodic categories in declaration order. -/
def melodic_categories : List gm1_instrument_category_t :=
  [GM1_CATEGORY_PIANO, GM1_CATEGORY_CHROMATIC_PERC, GM1_CATEGORY_ORGAN, GM1_CATEGORY_GUITAR,
   GM1_CATEGORY_BASS, GM1_CATEGORY_STRINGS, GM1_CATEGORY_ENSEMBLE, GM1_CATEGORY_BRASS,
   GM1_CATEGORY_REED, GM1_CATEGORY_PIPE, GM1_CATEGORY_SYNTH_LEAD, GM1_CATEGORY_SYNTH_PAD,
   GM1_CATEGORY_SYNTH_EFFECTS, GM1_CATEGORY_ETHNIC, GM1_CATEGORY_PERCUSSIVE,
   GM1_CATEGORY_SOUND_EFFECTS]

/-- All 18 enumerators in declaration order. -/
def enumerated_categories : List gm1_instrument_category_t :=
  melodic_categories ++ [GM1_CATEGORY_PERCUSSION, GM1_CATEGORY_UNKNOWN]

/-- The function `gm1_get_instrument_category`.  `category_index` is a `uint8_t`. -/
def gm1_get_instrument_category (program : Nat) : gm1_instrument_category_t :=
  if program < 1 ∨ program > 128 then
    GM1_CATEGORY_UNKNOWN
  else
    let category_index := (program - 1) / 8 % 256
    match category_index with
    | 0 => GM1_CATEGORY_PIANO
    | 1 => GM1_CATEGORY_CHROMATIC_PERC
    | 2 => GM1_CATEGORY_ORGAN
    | 3 => GM1_CATEGORY_GUITAR
    | 4 => GM1_CATEGORY_BASS
    | 5 => GM1_CATEGORY_STRINGS
    | 6 => GM1_CATEGORY_ENSEMBLE
    | 7 => GM1_CATEGORY_BRASS
    | 8 => GM1_CATEGORY_REED
    | 9 => GM1_CATEGORY_PIPE
    | 10 => GM1_CATEGORY_SYNTH_LEAD
    | 11 => GM1_CATEGORY_SYNTH_PAD
    | 12 => GM1_CATEGORY_SYNTH_EFFECTS
    | 13 => GM1_CATEGORY_ETHNIC
    | 14 => GM1_CATEGORY_PERCUSSIVE
    | 15 => GM1_CATEGORY_SOUND_EFFECTS
    | _ => GM1_CATEGORY_UNKNOWN

/-- The static table `category_names` of `gm1_get_category_name`. -/
def category_names : List String :=
  ["Piano", "Chromatic Percussion", "Organ", "Guitar", "Bass", "Strings", "Ensemble",
   "Brass", "Reed", "Pipe", "Synth Lead", "Synth Pad", "Synth Effects", "Ethnic",
   "Percussive", "Sound Effects", "Percussion (Channel 10)", "Unknown"]

/-- The function `gm1_get_category_name`. -/
def gm1_get_category_name (category : gm1_instrument_category_t) : String :=
  if h : category ≤ GM1_CATEGORY_UNKNOWN then
    category_names.get ⟨category, Nat.lt_succ_of_le h⟩
  else
    "Invalid"

/-! ## Quality structures -/

/-- The structure `gm1_quality_metrics_t`. -/
structure gm1_quality_metrics_t where
  program : Nat
  recognition_score : F32
  controller_response : Bool
  velocity_sensitive : Bool
  frequency_accuracy : F32

/-- The structure `gm1_velocity_config_t`. -/
structure gm1_velocity_config_t where
  velocity_layers : Nat
  velocity_curve : F32
  velocity_affects_timbre : Bool

/-- The structure `gm1_audio_quality_t`. -/
structure gm1_audio_quality_t where
  sample_rate_hz : Nat
  bit_depth : Nat
  frequency_response_min_hz : F32
  frequency_response_max_hz : F32
  dynamic_range_db : F32
  polyphony_voices : Nat

/-- The structure `gm1_compliance_result_t`; `issues` holds the bytes of `char issues[256]`. -/
structure gm1_compliance_result_t where
  meets_minimum : Bool
  meets_recommended : Bool
  issues : List Char

/-! ## Character buffers and `snprintf` -/

/-- The string terminator. -/
def NUL : Char := Char.ofNat 0

/-- The C string held in a character buffer: the bytes before the first NUL. -/
def c_str (mem : List Char) : List Char :=
  mem.takeWhile (fun c => c != NUL)

/-- Overwrites `mem` with `bytes` from offset `off` on. -/
def store (mem : List Char) (off : Nat) (bytes : List Char) : List Char :=
  mem.take off ++ bytes ++ mem.drop (off + bytes.length)

/-- The call `snprintf(mem + off, size, ...)`, where `text` is the complete
formatted output: when `size` is not zero, at most `size - 1` characters of
`text` are stored, followed by a NUL.  Returns the buffer and the length of
the complete output. -/
def snprintf (mem : List Char) (off size : Nat) (text : List Char) : List Char × Nat :=
  (if size = 0 then mem else store mem off (text.take (size - 1) ++ [NUL]), text.length)

/-- The conversion `%u`. -/
def fmt_u (n : Nat) : List Char := Nat.toDigits 10 n

/-! ## Quality validation -/

/-- The function `gm1_validate_program_quality`. -/
def gm1_validate_program_quality (metrics : Option gm1_quality_metrics_t) : Bool :=
  match metrics with
  | none => false
  | some m =>
    if F32.lt m.recognition_score GM1_MIN_RECOGNITION_SCORE then false
    else if !m.controller_response then false
    else if !m.velocity_sensitive then false
    else if F32.gt (F32.fabsf m.frequency_accuracy) GM1_MAX_TUNING_DEVIATION_CENTS then false
    else true

/-- The local variables `result`, `issues_ptr` (as an offset into
`result.issues`) and `remaining` of `gm1_validate_audio_quality`. -/
structure validation_state where
  result : gm1_compliance_result_t
  issues_ptr : Nat
  remaining : Nat

/-- The block shared by the first four checks of `gm1_validate_audio_quality`
when a value is below its minimum: clear `meets_minimum`, print the message at
`issues_ptr`, and advance `issues_ptr` when the message fitted. -/
def report_issue (st : validation_state) (text : List Char) : validation_state :=
  let out := snprintf st.result.issues st.issues_ptr st.remaining text
  let result := { st.result with meets_minimum := false, issues := out.1 }
  let written := out.2
  if written > 0 ∧ written < st.remaining then
    { result := result, issues_ptr := st.issues_ptr + written,
      remaining := st.remaining - written }
  else
    { st with result := result }

/-- Starting state of `gm1_validate_audio_quality` for a non-NULL argument. -/
def initial_state : validation_state :=
  { result := { meets_minimum := true, meets_recommended := true,
                issues := List.replicate 256 NUL },
    issues_ptr := 0, remaining := 256 }

/-! The conversion `%.Nf` of the C library is a parameter `fmt_f` (precision,
value) of the embedding; the results below hold for every such conversion. -/

/-- The block "Check sample rate". -/
def check_sample_rate (q : gm1_audio_quality_t) (st : validation_state) : validation_state :=
  if q.sample_rate_hz < GM1_MIN_SAMPLE_RATE_HZ then
    report_issue st ("Sample rate ".toList ++ fmt_u q.sample_rate_hz
      ++ " Hz below minimum ".toList ++ fmt_u GM1_MIN_SAMPLE_RATE_HZ ++ " Hz. ".toList)
  else if q.sample_rate_hz < GM1_RECOMMENDED_SAMPLE_RATE_HZ then
    { st with result := { st.result with meets_recommended := false } }
  else st

/-- The block "Check bit depth". -/
def check_bit_depth (q : gm1_audio_quality_t) (st : validation_state) : validation_state :=
  if q.bit_depth < GM1_MIN_BIT_DEPTH then
    report_issue st ("Bit depth ".toList ++ fmt_u q.bit_depth
      ++ " below minimum ".toList ++ fmt_u GM1_MIN_BIT_DEPTH ++ ". ".toList)
  else if q.bit_depth < GM1_RECOMMENDED_BIT_DEPTH then
    { st with result := { st.result with meets_recommended := false } }
  else st

/-- The block "Check dynamic range". -/
def check_dynamic_range (fmt_f : Nat → F32 → List Char) (q : gm1_audio_quality_t)
    (st : validation_state) : validation_state :=
  if F32.lt q.dynamic_range_db GM1_MIN_DYNAMIC_RANGE_DB then
    report_issue st ("Dynamic range ".toList ++ fmt_f 1 q.dynamic_range_db
      ++ " dB below minimum ".toList ++ fmt_f 1 GM1_MIN_DYNAMIC_RANGE_DB ++ " dB. ".toList)
  else if F32.lt q.dynamic_range_db GM1_RECOMMENDED_DYNAMIC_RANGE_DB then
    { st with result := { st.result with meets_recommended := false } }
  else st

/-- The block "Check polyphony". -/
def check_polyphony (q : gm1_audio_quality_t) (st : validation_state) : validation_state :=
  if q.polyphony_voices < GM1_MIN_POLYPHONY then
    report_issue st ("Polyphony ".toList ++ fmt_u q.polyphony_voices
      ++ " voices below minimum ".toList ++ fmt_u GM1_MIN_POLYPHONY ++ ". ".toList)
  else st

/-- The block "Check frequency response"; the literals are `20.0f`, `11000.0f` and
`20000.0f`.  The last message is printed without moving `issues_ptr`. -/
def check_frequency_response (fmt_f : Nat → F32 → List Char) (q : gm1_audio_quality_t)
    (st : validation_state) : validation_state :=
  let st :=
    if F32.gt q.frequency_response_min_hz lit_20_0f then
      { st with result := { st.result with meets_recommended := false } }
    else st
  if F32.lt q.frequency_response_max_hz lit_11000_0f then
    let out := snprintf st.result.issues st.issues_ptr st.remaining
      ("Max frequency ".toList ++ fmt_f 0 q.frequency_response_max_hz
        ++ " Hz below minimum 11000 Hz. ".toList)
    { st with result := { st.result with meets_minimum := false, issues := out.1 } }
  else if F32.lt q.frequency_response_max_hz lit_20000_0f then
    { st with result := { st.result with meets_recommended := false } }
  else st

/-- The function `gm1_validate_audio_quality`. -/
def gm1_validate_audio_quality (fmt_f : Nat → F32 → List Char)
    (quality : Option gm1_audio_quality_t) : gm1_compliance_result_t :=
  match quality with
  | none =>
    { meets_minimum := false, meets_recommended := false,
      issues := (snprintf initial_state.result.issues 0 256
        "NULL quality specification".toList).1 }
  | some q =>
    (check_frequency_response fmt_f q
      (check_polyphony q
        (check_dynamic_range fmt_f q
          (check_bit_depth q
            (check_sample_rate q initial_state))))).result

/-- The function `gm1_configure_program_velocity`; the literals are `0.0f` and `2.0f`. -/
def gm1_configure_program_velocity (program : Nat) (config : Option gm1_velocity_config_t) :
    Bool :=
  if program < 1 ∨ program > 128 then false
  else
    match config with
    | none => false
    | some c =>
      if c.velocity_layers < GM1_MIN_VELOCITY_LAYERS then false
      else if F32.le c.velocity_curve lit_0_0f ∨ F32.gt c.velocity_curve lit_2_0f then false
      else true

/-! ## Program switching -/

/-- The constant `UINT32_MAX`. -/
def UINT32_MAX : Nat := 4294967295

/-- The function `gm1_test_program_switch_latency`.  `base_latency` is a
`uint32_t`; it never exceeds 45, so no addition wraps. -/
def gm1_test_program_switch_latency (from_program to_program : Nat) : Nat :=
  if from_program < 1 ∨ from_program > 128 ∨ to_program < 1 ∨ to_program > 128 then
    UINT32_MAX
  else
    let from_cat := gm1_get_instrument_category from_program
    let to_cat := gm1_get_instrument_category to_program
    let base_latency := 10
    let base_latency := if from_cat ≠ to_cat then base_latency + 20 else base_latency
    let base_latency :=
      if to_cat = GM1_CATEGORY_PIANO ∨ to_cat = GM1_CATEGORY_STRINGS then base_latency + 15
      else base_latency
    base_latency

/-- The inline function `gm1_is_program_switch_compliant`. -/
def gm1_is_program_switch_compliant (latency_ms : Nat) : Bool :=
  decide (latency_ms < GM1_MAX_PROGRAM_SWITCH_MS)

/-! ## Sample data of the unit tests -/

/-- The `recommended_quality` of `test_audio_quality_compliance`:
44100 Hz, 16 bit, 20 Hz .. 20000 Hz, 96 dB, 64 voices. -/
def recommended_quality : gm1_audio_quality_t :=
  { sample_rate_hz := 44100, bit_depth := 16,
    frequency_response_min_hz := lit_20_0f, frequency_response_max_hz := lit_20000_0f,
    dynamic_range_db := lit_96_0f, polyphony_voices := 64 }

/-- The `minimum_quality` of `test_audio_quality_compliance`:
22050 Hz, 8 bit, 20 Hz .. 11000 Hz, 48 dB, 24 voices. -/
def minimum_quality : gm1_audio_quality_t :=
  { sample_rate_hz := 22050, bit_depth := 8,
    frequency_response_min_hz := lit_20_0f, frequency_response_max_hz := lit_11000_0f,
    dynamic_range_db := lit_48_0f, polyphony_voices := 24 }

/-- The `below_minimum` of `test_audio_quality_compliance`: 11025 Hz, 8 bit,
20 Hz .. 20000 Hz, 72 dB, 24 voices. -/
def below_minimum : gm1_audio_quality_t :=
  { sample_rate_hz := 11025, bit_depth := 8,
    frequency_response_min_hz := lit_20_0f, frequency_response_max_hz := lit_20000_0f,
    dynamic_range_db := lit_72_0f, polyphony_voices := 24 }

/-- A stand-in for `%.Nf` used to run the validator on sample data. -/
def fmt_f_sample (_ : Nat) (_ : F32) : List Char := "?".toList

/-- The `good_metrics` of `test_quality_validation_pass`, with the given
recognition score and tuning deviation. -/
def good_metrics (score tuning : F32) : gm1_quality_metrics_t :=
  { program := 1, recognition_score := score, controller_response := true,
    velocity_sensitive := true, frequency_accuracy := tuning }

/-- The expected display names, in declaration order of the categories. -/
def display_names : List String :=
  ["Piano", "Chromatic Percussion", "Organ", "Guitar", "Bass", "Strings", "Ensemble",
   "Brass", "Reed", "Pipe", "Synth Lead", "Synth Pad", "Synth Effects", "Ethnic",
   "Percussive", "Sound Effects", "Percussion (Channel 10)", "Unknown"]

/-- The recommended quality with a NaN dynamic range. -/
def nan_dynamic_range_quality : gm1_audio_quality_t :=
  { recommended_quality with dynamic_range_db := f32_nan }

/-- A velocity configuration with 2 layers and a NaN curve. -/
def nan_curve_config : gm1_velocity_config_t :=
  { velocity_layers := 2, velocity_curve := f32_nan, velocity_affects_timbre := false }

/-- The `min_config` of `test_velocity_configuration`: 2 layers, curve 0.5. -/
def min_config : gm1_velocity_config_t :=
  { velocity_layers := 2, velocity_curve := lit_0_5f, velocity_affects_timbre := false }

/-! ## Invariant of the issue buffer -/

/-- The buffer (or text) begins with a character other than NUL. -/
def starts_with_char (mem : List Char) : Prop :=
  ∃ c, mem.head? = some c ∧ c ≠ NUL

/-- No message has been printed: `meets_minimum` is still set, `issues_ptr`
is at the start of the buffer and the buffer holds the empty string. -/
def untouched (st : validation_state) : Prop :=
  st.result.meets_minimum = true ∧ st.issues_ptr = 0 ∧ 2 ≤ st.remaining
    ∧ c_str st.result.issues = []

/-- A message has been printed: `meets_minimum` is cleared and the buffer
begins with a character of a message. -/
def touched (st : validation_state) : Prop :=
  st.result.meets_minimum = false ∧ (st.issues_ptr = 0 → 2 ≤ st.remaining)
    ∧ starts_with_char st.result.issues

/-- The invariant kept by every check of `gm1_validate_audio_quality`. -/
def issues_inv (st : validation_state) : Prop :=
  untouched st ∨ touched st

/-! ## IEEE-754 binary32 arithmetic (round to nearest, ties to even) -/

namespace F32

/-- The quantum exponent of the non-negative rational `n / d`, searched
downwards from `k`: the largest `q <= k` with `2 ^ (23 + q) <= n / d`, or 0.
Floats near a magnitude with quantum exponent `q` are the multiples of
`2 ^ q` (magnitudes are in units of `2 ^ (-149)`). -/
def quantum (n d : Nat) : Nat → Nat
  | 0 => 0
  | q + 1 => if 2 ^ (24 + q) * d ≤ n then q + 1 else quantum n d q

/-- The integer nearest to `n / d`, ties to the even integer. -/
def rne (n d : Nat) : Nat :=
  if 2 * (n % d) < d then n / d
  else if d < 2 * (n % d) then n / d + 1
  else if n / d % 2 = 0 then n / d
  else n / d + 1

/-- The magnitude of the float nearest to the magnitude `n / d` (ties to
even); `2 ^ 277`, the magnitude of an infinity, on overflow. -/
def round_mag (n d : Nat) : Nat :=
  min (rne n (d * 2 ^ quantum n d 253) * 2 ^ quantum n d 253) (2 ^ 277)

/-- The magnitudes of the non-NaN floats: `2 ^ 277` for the infinities, and
`M * 2 ^ q` with a 24-bit significand `M`, normalised unless `q = 0`. -/
def representable (m : Nat) : Prop :=
  m = 2 ^ 277 ∨ ∃ q M, q ≤ 253 ∧ M < 2 ^ 24 ∧ (q ≠ 0 → 2 ^ 23 ≤ M) ∧ m = M * 2 ^ q

/-- Rounding of the signed magnitude `s / d` to the key of the nearest float. -/
def round_key (s : Int) (d : Nat) : Int :=
  if s < 0 then - (round_mag s.natAbs d : Int) else (round_mag s.natAbs d : Int)

/-- The float with the given sign and (representable) magnitude. -/
def ofMagnitude (sign : Bool) (mag : Nat) : F32 :=
  if mag < 2 ^ 23 then
    { sign := sign, exponent := 0, mantissa := mag % 2 ^ 23,
      exponent_lt := by decide, mantissa_lt := Nat.mod_lt _ (by decide) }
  else if 2 ^ 277 ≤ mag then
    { sign := sign, exponent := 255, mantissa := 0,
      exponent_lt := by decide, mantissa_lt := by decide }
  else
    { sign := sign, exponent := min (quantum mag 1 253 + 1) 254,
      mantissa := mag / 2 ^ quantum mag 1 253 % 2 ^ 23,
      exponent_lt := Nat.lt_of_le_of_lt (Nat.min_le_right _ _) (by decide),
      mantissa_lt := Nat.mod_lt _ (by decide) }

/-- An infinity: all exponent bits set and a zero fraction. -/
def isInf (x : F32) : Bool :=
  x.exponent == 255 && x.mantissa == 0

/-- A finite value: neither a NaN nor an infinity. -/
def isFinite (x : F32) : Bool :=
  decide (x.exponent < 255)

/-- The NaN produced by an invalid operation. -/
def invalid : F32 := F32.ofBits 0x7FC00000

/-- C unary minus on floats: flips the sign bit. -/
def neg (x : F32) : F32 :=
  { x with sign := !x.sign }

/-- C `a + b` on floats. -/
def add (a b : F32) : F32 :=
  if a.isNaN || b.isNaN then invalid
  else if a.isInf then (if b.isInf && (a.sign != b.sign) then invalid else a)
  else if b.isInf then b
  else if a.key + b.key = 0 then ofMagnitude (a.sign && b.sign) 0
  else ofMagnitude (decide (a.key + b.key < 0)) (round_mag (a.key + b.key).natAbs 1)

/-- C `a - b` on floats. -/
def sub (a b : F32) : F32 :=
  add a (neg b)

/-- C `a * b` on floats. -/
def mul (a b : F32) : F32 :=
  if a.isNaN || b.isNaN then invalid
  else if a.isInf || b.isInf then
    (if a.magnitude = 0 ∨ b.magnitude = 0 then invalid
     else ofMagnitude (a.sign != b.sign) (2 ^ 277))
  else ofMagnitude (a.sign != b.sign) (round_mag (a.magnitude * b.magnitude) (2 ^ 149))

/-- C `a / b` on floats. -/
def div (a b : F32) : F32 :=
  if a.isNaN || b.isNaN then invalid
  else if a.isInf then
    (if b.isInf then invalid else ofMagnitude (a.sign != b.sign) (2 ^ 277))
  else if b.isInf then ofMagnitude (a.sign != b.sign) 0
  else if b.magnitude = 0 then
    (if a.magnitude = 0 then invalid else ofMagnitude (a.sign != b.sign) (2 ^ 277))
  else ofMagnitude (a.sign != b.sign) (round_mag (a.magnitude * 2 ^ 149) b.magnitude)

/-- A signaling NaN: a NaN whose quiet bit (fraction bit 22) is clear. -/
def isSNaN (x : F32) : Bool :=
  x.isNaN && decide (x.mantissa < 2 ^ 22)

/-- C `fmaxf`: a quiet NaN argument is treated as missing data; a signaling
NaN argument is an invalid operation. -/
def fmaxf (a b : F32) : F32 :=
  if a.isSNaN || b.isSNaN then invalid
  else if a.isNaN then b
  else if b.isNaN then a
  else if lt a b then b else a

end F32

/-- The literal `1.0f`. -/
def lit_1_0f : F32 := F32.ofBits 0x3F800000
/-- The literal `0.4f`. -/
def lit_0_4f : F32 := F32.ofBits 0x3ECCCCCD
/-- The literal `0.2f`. -/
def lit_0_2f : F32 := F32.ofBits 0x3E4CCCCD

/-! ## Cross-device consistency -/

/-- The function `gm1_calculate_consistency_score`. -/
def gm1_calculate_consistency_score
    (device1_metrics device2_metrics : Option gm1_quality_metrics_t) : F32 :=
  match device1_metrics, device2_metrics with
  | some d1, some d2 =>
    if d1.program ≠ d2.program then lit_0_0f
    else
      let score := lit_0_0f
      let weights_sum := lit_0_0f
      let recognition_diff := F32.fabsf (F32.sub d1.recognition_score d2.recognition_score)
      let recognition_score := F32.sub lit_1_0f recognition_diff
      let score := F32.add score (F32.mul recognition_score lit_0_4f)
      let weights_sum := F32.add weights_sum lit_0_4f
      let score :=
        if d1.controller_response = d2.controller_response then F32.add score lit_0_2f
        else score
      let weights_sum := F32.add weights_sum lit_0_2f
      let score :=
        if d1.velocity_sensitive = d2.velocity_sensitive then F32.add score lit_0_2f
        else score
      let weights_sum := F32.add weights_sum lit_0_2f
      let tuning_diff := F32.fabsf (F32.sub d1.frequency_accuracy d2.frequency_accuracy)
      let tuning_score :=
        F32.fmaxf lit_0_0f (F32.sub lit_1_0f (F32.div tuning_diff lit_20_0f))
      let score := F32.add score (F32.mul tuning_score lit_0_2f)
      let weights_sum := F32.add weights_sum lit_0_2f
      F32.div score weights_sum
  | _, _ => lit_0_0f

/-- The inline function `gm1_is_consistent`. -/
def gm1_is_consistent (consistency_score : F32) : Bool :=
  F32.ge consistency_score GM1_MIN_RECOGNITION_SCORE

/-- The recognition sub-score of a pair of metrics:
`1.0f - fabsf(a.recognition_score - b.recognition_score)`. -/
def recognition_subscore (a b : gm1_quality_metrics_t) : F32 :=
  F32.sub lit_1_0f (F32.fabsf (F32.sub a.recognition_score b.recognition_score))

/-- The tuning sub-score of a pair of metrics:
`fmaxf(0.0f, 1.0f - fabsf(a.frequency_accuracy - b.frequency_accuracy) / 20.0f)`. -/
def tuning_subscore (a b : gm1_quality_metrics_t) : F32 :=
  F32.fmaxf lit_0_0f
    (F32.sub lit_1_0f
      (F32.div (F32.fabsf (F32.sub a.frequency_accuracy b.frequency_accuracy)) lit_20_0f))

/-- The sub-score of a flag comparison: `1.0f` for a match, `0.0f` otherwise. -/
def match_subscore (p : Bool) : F32 :=
  if p then lit_1_0f else lit_0_0f

/-- The weighted sum accumulated in `score` before the final division. -/
def weighted_sum (a b : gm1_quality_metrics_t) : F32 :=
  F32.add
    (if a.velocity_sensitive = b.velocity_sensitive then
      F32.add
        (if a.controller_response = b.controller_response then
          F32.add (F32.add lit_0_0f (F32.mul (recognition_subscore a b) lit_0_4f)) lit_0_2f
        else F32.add lit_0_0f (F32.mul (recognition_subscore a b) lit_0_4f))
        lit_0_2f
    else
      (if a.controller_response = b.controller_response then
        F32.add (F32.add lit_0_0f (F32.mul (recognition_subscore a b) lit_0_4f)) lit_0_2f
      else F32.add lit_0_0f (F32.mul (recognition_subscore a b) lit_0_4f)))
    (F32.mul (tuning_subscore a b) lit_0_2f)

/-- Metrics for program 1 with both flags set, a NaN recognition score and a
tuning deviation of 0.0. -/
def nan_score_metrics : gm1_quality_metrics_t :=
  good_metrics f32_nan lit_0_0f

/-- Metrics for program 1 whose recognition score is the quiet NaN with
payload 1 (`0x7FC00001`), both flags set, tuning 0.0. -/
def nan_payload1_metrics : gm1_quality_metrics_t :=
  good_metrics (F32.ofBits 0x7FC00001) lit_0_0f

/-- Metrics for program 1 whose recognition score is the quiet NaN with
payload 2 (`0x7FC00002`), both flags set, tuning 0.0. -/
def nan_payload2_metrics : gm1_quality_metrics_t :=
  good_metrics (F32.ofBits 0x7FC00002) lit_0_0f

/-- The `device1` of `test_cross_device_consistency`, for a given program:
recognition 0.9, both flags set, tuning 2.0. -/
def device1 (program : Nat) : gm1_quality_metrics_t :=
  { program := program, recognition_score := F32.ofBits 0x3F666666,
    controller_response := true, velocity_sensitive := true,
    frequency_accuracy := lit_2_0f }

/-- The weighted sum as the specification writes it:
`0.4 * recognition + 0.2 * [controller flags equal] + 0.2 * [velocity flags
equal] + 0.2 * tuning`, evaluated from left to right in float arithmetic. -/
def weighted_formula (a b : gm1_quality_metrics_t) : F32 :=
  F32.add
    (F32.add
      (F32.add (F32.mul lit_0_4f (recognition_subscore a b))
        (F32.mul lit_0_2f
          (match_subscore (decide (a.controller_response = b.controller_response)))))
      (F32.mul lit_0_2f
        (match_subscore (decide (a.velocity_sensitive = b.velocity_sensitive)))))
    (F32.mul lit_0_2f (tuning_subscore a b))

/-- One flag comparison of the accumulation, on keys: a match adds the weight
`0.2f` and rounds, a mismatch leaves the sum as it is. -/
def flag_step (p : Bool) (s : Int) : Int :=
  if p then F32.round_key (s + lit_0_2f.key) 1 else s

/-- The key of the weighted sum as a function of the keys of the two float
sub-scores and of the two flag comparisons: every product and sum of the code
is rounded in turn. -/
def score_key (krs : Int) (p q : Bool) (kts : Int) : Int :=
  F32.round_key
    (flag_step q (flag_step p (F32.round_key (krs * lit_0_4f.key) (2 ^ 149)))
      + F32.round_key (kts * lit_0_2f.key) (2 ^ 149)) 1

/-- Negative infinity. -/
def F32.neg_inf : F32 := F32.ofBits 0xFF800000

/-- The "slightly different" `device2` of `test_cross_device_consistency`:
recognition 0.85, both flags set, tuning 5.0. -/
def device2_similar : gm1_quality_metrics_t :=
  { program := 1, recognition_score := F32.ofBits 0x3F59999A,
    controller_response := true, velocity_sensitive := true,
    frequency_accuracy := F32.ofBits 0x40A00000 }

/-- The "very different" `device2` of `test_cross_device_consistency`:
recognition 0.8, both flags clear, tuning 10.0. -/
def device2_different : gm1_quality_metrics_t :=
  { program := 1, recognition_score := lit_0_8f,
    controller_response := false, velocity_sensitive := false,
    frequency_accuracy := lit_10_0f }

/-- Metrics for program 1 with the given recognition score, flags and tuning
deviation. -/
def metrics_of (score : F32) (flags : Bool) (tuning : F32) : gm1_quality_metrics_t :=
  { program := 1, recognition_score := score, controller_response := flags,
    velocity_sensitive := flags, frequency_accuracy := tuning }

/-- The float `12491175.0f`, far outside the documented range of a
recognition score. -/
def lit_12491175_0f : F32 := F32.ofBits 0x4B3E99A7

/-- The float `12491174.0f`, the float just below `12491175.0f`. -/
def lit_12491174_0f : F32 := F32.ofBits 0x4B3E99A6

/-- Two floats denote the same value: both are NaN, or neither is and their
keys agree (the two zeros are the same value). -/
def F32.same_value (x y : F32) : Prop :=
  (x.isNaN = true ∧ y.isNaN = true) ∨ (x.isNaN = false ∧ y.isNaN = false ∧ x.key = y.key)

/-! ## Controller response: channel state and platform stubs -/

/-- The literal `127.0f`. -/
def lit_127_0f : F32 := F32.ofBits 0x42FE0000
/-- The literal `0.3f`. -/
def lit_0_3f : F32 := F32.ofBits 0x3E99999A
/-- The literal `0.6f`. -/
def lit_0_6f : F32 := F32.ofBits 0x3F19999A
/-- The literal `0.7f`. -/
def lit_0_7f : F32 := F32.ofBits 0x3F333333
/-- The literal `-60.0f`. -/
def lit_neg_60_0f : F32 := F32.ofBits 0xC2700000

/-- C conversion `(float)n` of an unsigned integer: the float nearest to `n`
(exact for every `n < 2 ^ 24`). -/
def F32.of_uint (n : Nat) : F32 :=
  F32.ofMagnitude false (F32.round_mag (n * 2 ^ 149) 1)

/-- A call of one of the four platform stubs, with its arguments. The stubs
`set_brightness` and `set_lfo_depth` have an empty body, so that the calls
themselves are all that a handler requests from the platform. -/
inductive platform_call where
  | set_vibrato_depth (channel : Nat) (depth : F32)
  | set_brightness (channel : Nat) (brightness : F32)
  | set_lfo_depth (channel : Nat) (depth : F32)
  | set_channel_volume_internal (channel : Nat) (volume_db : F32)
  deriving DecidableEq

/-- The internal state of the module: the three static arrays
`channel_programs[16]`, `channel_volumes[16]`, `channel_modulation[16]`,
and the sequence `calls` of the stub calls made so far (oldest first), which
is not C state but records what the handlers request. -/
structure channel_state where
  channel_programs : Fin 16 → Nat
  channel_volumes : Fin 16 → F32
  channel_modulation : Fin 16 → F32
  calls : List platform_call

/-- The static initialisers: program 1 on every channel but index 9, which
holds 0; every volume `1.0f`; every modulation depth `0`. -/
def initial_channel_state : channel_state :=
  { channel_programs := fun i => if i = 9 then 0 else 1,
    channel_volumes := fun _ => lit_1_0f,
    channel_modulation := fun _ => lit_0_0f,
    calls := [] }

/-- The stub `set_vibrato_depth`. -/
def set_vibrato_depth (channel : Nat) (depth : F32) (s : channel_state) : channel_state :=
  let s := { s with calls := s.calls ++ [platform_call.set_vibrato_depth channel depth] }
  if h : channel < 16 then
    { s with channel_modulation := Function.update s.channel_modulation ⟨channel, h⟩ depth }
  else s

/-- The stub `set_brightness`: no effect on the state. -/
def set_brightness (channel : Nat) (brightness : F32) (s : channel_state) : channel_state :=
  { s with calls := s.calls ++ [platform_call.set_brightness channel brightness] }

/-- The stub `set_lfo_depth`: no effect on the state. -/
def set_lfo_depth (channel : Nat) (depth : F32) (s : channel_state) : channel_state :=
  { s with calls := s.calls ++ [platform_call.set_lfo_depth channel depth] }

/-! The functions `log10f` and `powf` of the C library are parameters of the
embedding. -/

/-- The stub `set_channel_volume_internal`: stores `powf(10.0f, volume_db / 20.0f)`. -/
def set_channel_volume_internal (powf : F32 → F32 → F32) (channel : Nat) (volume_db : F32)
    (s : channel_state) : channel_state :=
  let s := { s with
    calls := s.calls ++ [platform_call.set_channel_volume_internal channel volume_db] }
  if h : channel < 16 then
    { s with
      channel_volumes := Function.update s.channel_volumes ⟨channel, h⟩
        (powf lit_10_0f (F32.div volume_db lit_20_0f)) }
  else s

/-- The function `get_channel_program`. -/
def get_channel_program (channel : Nat) (s : channel_state) : Nat :=
  if h : channel < 16 then s.channel_programs ⟨channel, h⟩ else 1

/-- The function `gm1_handle_modulation_wheel`. -/
def gm1_handle_modulation_wheel (channel value : Nat) (s : channel_state) : channel_state :=
  if channel > 15 then s
  else
    let normalized_value := F32.div (F32.of_uint value) lit_127_0f
    let program := get_channel_program channel s
    let category := gm1_get_instrument_category program
    if category = GM1_CATEGORY_STRINGS ∨ category = GM1_CATEGORY_ENSEMBLE then
      set_vibrato_depth channel normalized_value s
    else if category = GM1_CATEGORY_BRASS ∨ category = GM1_CATEGORY_REED then
      set_brightness channel (F32.mul normalized_value lit_0_5f)
        (set_vibrato_depth channel normalized_value s)
    else if category = GM1_CATEGORY_SYNTH_LEAD then
      set_lfo_depth channel normalized_value s
    else if category = GM1_CATEGORY_SYNTH_PAD then
      set_lfo_depth channel (F32.mul normalized_value lit_0_5f)
        (set_vibrato_depth channel (F32.mul normalized_value lit_0_3f) s)
    else if category = GM1_CATEGORY_PERCUSSION ∨ category = GM1_CATEGORY_PERCUSSIVE then
      s
    else if category = GM1_CATEGORY_PIANO ∨ category = GM1_CATEGORY_CHROMATIC_PERC then
      set_vibrato_depth channel (F32.mul normalized_value lit_0_2f) s
    else if category = GM1_CATEGORY_ORGAN then
      set_vibrato_depth channel (F32.mul normalized_value lit_0_7f) s
    else if category = GM1_CATEGORY_GUITAR ∨ category = GM1_CATEGORY_BASS then
      set_vibrato_depth channel (F32.mul normalized_value lit_0_4f) s
    else if category = GM1_CATEGORY_PIPE then
      set_vibrato_depth channel (F32.mul normalized_value lit_0_6f) s
    else if category = GM1_CATEGORY_ETHNIC then
      set_vibrato_depth channel (F32.mul normalized_value lit_0_5f) s
    else if category = GM1_CATEGORY_SYNTH_EFFECTS ∨ category = GM1_CATEGORY_SOUND_EFFECTS then
      set_lfo_depth channel (F32.mul normalized_value lit_0_8f) s
    else
      set_vibrato_depth channel (F32.mul normalized_value lit_0_5f) s

/-- The function `gm1_midi_value_to_db`. -/
def gm1_midi_value_to_db (log10f : F32 → F32) (midi_value : Nat) : F32 :=
  if midi_value = 0 then lit_neg_60_0f
  else F32.mul lit_20_0f (log10f (F32.div (F32.of_uint midi_value) lit_127_0f))

/-- The function `gm1_handle_volume_controller`. -/
def gm1_handle_volume_controller (log10f : F32 → F32) (powf : F32 → F32 → F32)
    (channel value : Nat) (s : channel_state) : channel_state :=
  if channel > 15 then s
  else
    let volume_db := gm1_midi_value_to_db log10f value
    set_channel_volume_internal powf channel volume_db s

/-- The normalised controller value `(float)value / 127.0f`. -/
def normalized_value (value : Nat) : F32 :=
  F32.div (F32.of_uint value) lit_127_0f

/-- The vibrato coefficient of a category as the specification's table gives
it: `none` for the five categories whose row sets no vibrato (Percussion,
Percussive, Synth Lead, Synth Effects, Sound Effects), and the fallback `0.5`
for Unknown and any unclassified value. -/
def vibrato_coefficient (category : gm1_instrument_category_t) : Option F32 :=
  if category = GM1_CATEGORY_STRINGS ∨ category = GM1_CATEGORY_ENSEMBLE
      ∨ category = GM1_CATEGORY_BRASS ∨ category = GM1_CATEGORY_REED then some lit_1_0f
  else if category = GM1_CATEGORY_SYNTH_PAD then some lit_0_3f
  else if category = GM1_CATEGORY_PIANO ∨ category = GM1_CATEGORY_CHROMATIC_PERC then
    some lit_0_2f
  else if category = GM1_CATEGORY_ORGAN then some lit_0_7f
  else if category = GM1_CATEGORY_GUITAR ∨ category = GM1_CATEGORY_BASS then some lit_0_4f
  else if category = GM1_CATEGORY_PIPE then some lit_0_6f
  else if category = GM1_CATEGORY_ETHNIC then some lit_0_5f
  else if category = GM1_CATEGORY_PERCUSSION ∨ category = GM1_CATEGORY_PERCUSSIVE
      ∨ category = GM1_CATEGORY_SYNTH_LEAD ∨ category = GM1_CATEGORY_SYNTH_EFFECTS
      ∨ category = GM1_CATEGORY_SOUND_EFFECTS then none
  else some lit_0_5f

/-- The LFO and brightness requests of a category as the specification's
table gives them, for channel `channel` and normalised value `n`. -/
def lfo_brightness_requests (category : gm1_instrument_category_t) (channel : Nat) (n : F32) :
    List platform_call :=
  if category = GM1_CATEGORY_SYNTH_LEAD then [platform_call.set_lfo_depth channel n]
  else if category = GM1_CATEGORY_SYNTH_PAD then
    [platform_call.set_lfo_depth channel (F32.mul n lit_0_5f)]
  else if category = GM1_CATEGORY_SYNTH_EFFECTS ∨ category = GM1_CATEGORY_SOUND_EFFECTS then
    [platform_call.set_lfo_depth channel (F32.mul n lit_0_8f)]
  else if category = GM1_CATEGORY_BRASS ∨ category = GM1_CATEGORY_REED then
    [platform_call.set_brightness channel (F32.mul n lit_0_5f)]
  else []

/-- A call of `set_lfo_depth` or `set_brightness`. -/
def platform_call.is_lfo_or_brightness : platform_call → Bool
  | platform_call.set_brightness _ _ => true
  | platform_call.set_lfo_depth _ _ => true
  | _ => false

/-- An audio-quality specification at the recommended values except for a
sample rate of 11025 Hz, which is below the minimum. -/
def low_rate_quality : gm1_audio_quality_t :=
  { sample_rate_hz := 11025, bit_depth := 16,
    frequency_response_min_hz := lit_20_0f, frequency_response_max_hz := lit_20000_0f,
    dynamic_range_db := lit_96_0f, polyphony_voices := 64 }

/-- The initial state with the given program on every channel. -/
def uniform_channel_state (program : Nat) : channel_state :=
  { initial_channel_state with channel_programs := fun _ => program }

/-- The float `y` is the base-10 logarithm of the float `x` to within
`1/1000` (a float denotes its key divided by `2 ^ 149`): an accuracy
requirement on the `log10f` of the C library at the argument `x`. -/
def log10f_within (x y : F32) : Prop :=
  y.isNaN = false
  ∧ |(y.key : ℝ) / 2 ^ 149 - Real.logb 10 ((x.key : ℝ) / 2 ^ 149)| ≤ 1 / 1000

/-- A sample `log10f`: the values of a C library at the arguments of the unit
test (`32/127`, `64/127`, `96/127` and `1` as floats), and `0` elsewhere. -/
def log10f_sample (x : F32) : F32 :=
  if x = F32.ofBits 0x3E810204 then F32.ofBits 0xBF194160
  else if x = F32.ofBits 0x3F010204 then F32.ofBits 0xBE986224
  else if x = F32.ofBits 0x3F418306 then F32.ofBits 0xBDF8E606
  else lit_0_0f

/-- A sample `powf`: the values of a C library for base `10.0f` at the
exponents `-3.0f` and `-0.29762375f`, and `1.0f` elsewhere. -/
def powf_sample (_ : F32) (y : F32) : F32 :=
  if y = F32.ofBits 0xC0400000 then F32.ofBits 0x3A83126F
  else if y = F32.ofBits 0xBE986224 then F32.ofBits 0x3F010204
  else lit_1_0f

/-! ## Frames of the controller handlers and further sample data -/

/-- The states `s` and `t` agree on every channel program, on every channel
volume and on the modulation depth of every channel other than `c`. -/
def same_except_modulation (c : Nat) (s t : channel_state) : Prop :=
  t.channel_programs = s.channel_programs
  ∧ t.channel_volumes = s.channel_volumes
  ∧ ∀ i : Fin 16, i.val ≠ c → t.channel_modulation i = s.channel_modulation i

/-- The states `s` and `t` agree on every channel program, on every modulation
depth and on the volume of every channel other than `c`. -/
def same_except_volume (c : Nat) (s t : channel_state) : Prop :=
  t.channel_programs = s.channel_programs
  ∧ t.channel_modulation = s.channel_modulation
  ∧ ∀ i : Fin 16, i.val ≠ c → t.channel_volumes i = s.channel_volumes i

/-- The literal `-4.0f`. -/
def lit_neg_4_0f : F32 := F32.ofBits 0xC0800000

/-- Positive infinity. -/
def F32.pos_inf : F32 := F32.ofBits 0x7F800000

/-! ## Facts about float comparisons -/

theorem F32.isNaN_fabsf (x : F32) : (F32.fabsf x).isNaN = x.isNaN := rfl

/-- For ordered (non-NaN) operands, `a < b` fails exactly when `a >= b`. -/
theorem F32.lt_eq_false_iff_ge (a b : F32) (ha : a.isNaN = false) (hb : b.isNaN = false) :
    F32.lt a b = false ↔ F32.ge a b = true := by
  simp [F32.lt, F32.ge, F32.le, ha, hb]

/-- For ordered (non-NaN) operands, `a > b` fails exactly when `a <= b`. -/
theorem F32.gt_eq_false_iff_le (a b : F32) (ha : a.isNaN = false) (hb : b.isNaN = false) :
    F32.gt a b = false ↔ F32.le a b = true := by
  simp [F32.gt, F32.lt, F32.le, ha, hb]

/-- For ordered (non-NaN) operands, `a <= b` fails exactly when `a > b`. -/
theorem F32.le_eq_false_iff_gt (a b : F32) (ha : a.isNaN = false) (hb : b.isNaN = false) :
    F32.le a b = false ↔ F32.gt a b = true := by
  simp [F32.gt, F32.lt, F32.le, ha, hb]

/-- A comparison that holds has ordered operands. -/
theorem F32.isNaN_of_lt {a b : F32} (h : F32.lt a b = true) :
    a.isNaN = false ∧ b.isNaN = false := by
  simp [F32.lt] at h
  exact ⟨h.1.1, h.1.2⟩

theorem F32.isNaN_of_le {a b : F32} (h : F32.le a b = true) :
    a.isNaN = false ∧ b.isNaN = false := by
  simp [F32.le] at h
  exact ⟨h.1.1, h.1.2⟩

/-- Between two thresholds: under `x < hi`, the test `x < lo` fails exactly
when `x >= lo`. -/
theorem F32.between_iff (x lo hi : F32) (hlo : lo.isNaN = false) :
    (F32.lt x lo = false ∧ F32.lt x hi = true) ↔ (F32.ge x lo = true ∧ F32.lt x hi = true) := by
  constructor
  · rintro ⟨h1, h2⟩
    exact ⟨(F32.lt_eq_false_iff_ge x lo (F32.isNaN_of_lt h2).1 hlo).1 h1, h2⟩
  · rintro ⟨h1, h2⟩
    exact ⟨(F32.lt_eq_false_iff_ge x lo (F32.isNaN_of_lt h2).1 hlo).2 h1, h2⟩

/-- A value at or above `b` is not below any `a <= b`. -/
theorem F32.lt_eq_false_of_ge {x a b : F32} (hx : F32.ge x b = true) (hab : F32.le a b = true) :
    F32.lt x a = false := by
  simp only [F32.ge, F32.le, F32.lt, Bool.and_eq_true, Bool.not_eq_true',
    decide_eq_true_eq] at *
  have : ¬ x.key < a.key := by omega
  simp [this]

/-- A value at or below `b` is not above `b`. -/
theorem F32.gt_eq_false_of_le {x b : F32} (hx : F32.le x b = true) : F32.gt x b = false := by
  simp only [F32.gt, F32.le, F32.lt, Bool.and_eq_true, Bool.not_eq_true',
    decide_eq_true_eq] at *
  have : ¬ b.key < x.key := by omega
  simp [this]

/-- The float constants denote the intended numbers: a finite float is its
magnitude times `2 ^ (-149)`; `0.8f` is `0.8 + 2 ^ (-24) / 5`. -/
theorem float_constant_values :
    F32.magnitude lit_0_0f = 0 ∧ F32.magnitude lit_2_0f = 2 * 2 ^ 149
    ∧ F32.magnitude lit_20_0f = 20 * 2 ^ 149 ∧ F32.magnitude lit_11000_0f = 11000 * 2 ^ 149
    ∧ F32.magnitude lit_20000_0f = 20000 * 2 ^ 149
    ∧ F32.magnitude GM1_MAX_TUNING_DEVIATION_CENTS = 10 * 2 ^ 149
    ∧ F32.magnitude GM1_MIN_DYNAMIC_RANGE_DB = 48 * 2 ^ 149
    ∧ F32.magnitude GM1_RECOMMENDED_DYNAMIC_RANGE_DB = 72 * 2 ^ 149
    ∧ 5 * F32.magnitude GM1_MIN_RECOGNITION_SCORE = 4 * 2 ^ 149 + 2 ^ 125 := by
  decide

/-- The threshold `0.8f` stands for the number 0.8: a non-NaN float is
`>= 0.8f` exactly when its value (key times `2 ^ (-149)`) is at least 4/5,
because no float lies between 0.8 and `0.8f`. -/
theorem F32.ge_min_recognition_iff (x : F32) (hx : x.isNaN = false) :
    F32.ge x GM1_MIN_RECOGNITION_SCORE = true ↔ (4 : Int) * 2 ^ 149 ≤ 5 * x.key := by
  have hc : GM1_MIN_RECOGNITION_SCORE.isNaN = false := by decide
  have hk : GM1_MIN_RECOGNITION_SCORE.key = ((13421773 * 2 ^ 125 : Nat) : Int) := by decide
  simp only [F32.ge, F32.le, hc, hx, Bool.not_false, Bool.true_and, decide_eq_true_eq, hk]
  constructor
  · intro h
    have e : ((13421773 * 2 ^ 125 : Nat) : Int) = 13421773 * 2 ^ 125 := by norm_num
    rw [e] at h
    have : (4 : Int) * 2 ^ 149 ≤ 5 * (13421773 * 2 ^ 125) := by norm_num
    linarith
  · intro h
    by_cases hs : x.sign = true
    · have hneg : x.key ≤ 0 := by
        simp only [F32.key, hs, if_true]
        omega
      have hpos : (0 : Int) < 4 * 2 ^ 149 := by norm_num
      linarith
    · have hkey : x.key = (x.magnitude : Int) := by
        simp only [F32.key, hs]
        rfl
      rw [hkey] at h ⊢
      have hnat : 4 * 2 ^ 149 ≤ 5 * x.magnitude := by exact_mod_cast h
      have hgoal : 13421773 * 2 ^ 125 ≤ x.magnitude := by
        have hM : (if x.exponent = 0 then x.mantissa else 2 ^ 23 + x.mantissa) < 2 ^ 24 := by
          have := x.mantissa_lt
          split_ifs <;> omega
        generalize hMdef : (if x.exponent = 0 then x.mantissa else 2 ^ 23 + x.mantissa) = M
          at hM
        have hmag : x.magnitude = M * 2 ^ (max x.exponent 1 - 1) := by
          rw [← hMdef]; rfl
        generalize max x.exponent 1 - 1 = E at hmag
        rw [hmag] at hnat ⊢
        by_cases hE : E < 125
        · exfalso
          have h1 : 2 ^ E ≤ 2 ^ 124 := Nat.pow_le_pow_right (by decide) (by omega)
          have h2 : M * 2 ^ E ≤ 2 ^ 24 * 2 ^ 124 :=
            Nat.mul_le_mul (Nat.le_of_lt hM) h1
          have h3 : 5 * (2 ^ 24 * 2 ^ 124) < 4 * 2 ^ 149 := by norm_num
          omega
        · obtain ⟨d, rfl⟩ : ∃ d, E = 125 + d := ⟨E - 125, by omega⟩
          have hpow : M * 2 ^ (125 + d) = (M * 2 ^ d) * 2 ^ 125 := by
            rw [pow_add]; ring
          rw [hpow] at hnat ⊢
          have h4 : (4 * 2 ^ 24) * 2 ^ 125 ≤ (5 * (M * 2 ^ d)) * 2 ^ 125 := by
            have : 4 * 2 ^ 149 = (4 * 2 ^ 24) * 2 ^ 125 := by norm_num
            rw [← this]
            calc 4 * 2 ^ 149 ≤ 5 * (M * 2 ^ d * 2 ^ 125) := hnat
              _ = (5 * (M * 2 ^ d)) * 2 ^ 125 := by ring
          have h5 : 4 * 2 ^ 24 ≤ 5 * (M * 2 ^ d) :=
            Nat.le_of_mul_le_mul_right h4 (by positivity)
          have h6 : 13421773 ≤ M * 2 ^ d := by
            norm_num at h5
            omega
          exact Nat.mul_le_mul_right _ h6
      exact_mod_cast hgoal

/-! ## Category classification -/

/-- The classification of each valid program, checked program by program. -/
theorem category_valid_aux (p : Nat) (h1 : 1 ≤ p) (h2 : p ≤ 128) :
    melodic_categories[(p - 1) / 8]? = some (gm1_get_instrument_category p)
    ∧ gm1_get_instrument_category p ∈ melodic_categories
    ∧ gm1_get_instrument_category p ≠ GM1_CATEGORY_PERCUSSION
    ∧ gm1_get_instrument_category p ≠ GM1_CATEGORY_UNKNOWN := by
  interval_cases p <;> decide

/-- C1: every program number `p` in 1..128 is classified as the melodic
category at position `(p - 1) div 8` of the declaration order; the result is
one of the 16 melodic categories and is neither Percussion nor Unknown. -/
theorem category_of_valid_program (p : Nat) (h1 : 1 ≤ p) (h2 : p ≤ 128) :
    melodic_categories[(p - 1) / 8]? = some (gm1_get_instrument_category p)
    ∧ gm1_get_instrument_category p ∈ melodic_categories
    ∧ gm1_get_instrument_category p ≠ GM1_CATEGORY_PERCUSSION
    ∧ gm1_get_instrument_category p ≠ GM1_CATEGORY_UNKNOWN :=
  category_valid_aux p h1 h2

/-- C1 at the programs named by the specification: 1 and 8 are Piano, 9 is
Chromatic Percussion, 128 is Sound Effects. -/
theorem category_of_valid_program_witness :
    (1 ≤ 1 ∧ 1 ≤ 128 ∧ gm1_get_instrument_category 1 = GM1_CATEGORY_PIANO)
    ∧ gm1_get_instrument_category 8 = GM1_CATEGORY_PIANO
    ∧ gm1_get_instrument_category 9 = GM1_CATEGORY_CHROMATIC_PERC
    ∧ gm1_get_instrument_category 128 = GM1_CATEGORY_SOUND_EFFECTS := by
  have e1 := (category_of_valid_program 1 (by decide) (by decide)).1
  have e8 := (category_of_valid_program 8 (by decide) (by decide)).1
  have e9 := (category_of_valid_program 9 (by decide) (by decide)).1
  have e128 := (category_of_valid_program 128 (by decide) (by decide)).1
  refine ⟨⟨by decide, by decide, ?_⟩, ?_, ?_, ?_⟩
  · exact (Option.some.inj e1).symm
  · exact (Option.some.inj e8).symm
  · exact (Option.some.inj e9).symm
  · exact (Option.some.inj e128).symm

/-- C2: the classifier fails closed: it returns Unknown exactly for the
program numbers outside 1..128 (0 and everything above 128). -/
theorem category_unknown_iff (p : Nat) :
    gm1_get_instrument_category p = GM1_CATEGORY_UNKNOWN ↔ (p = 0 ∨ 128 < p) := by
  by_cases h : 1 ≤ p ∧ p ≤ 128
  · obtain ⟨h1, h2⟩ := h
    have hne := (category_valid_aux p h1 h2).2.2.2
    constructor
    · intro hu
      exact absurd hu hne
    · intro hp
      omega
  · have hout : p < 1 ∨ p > 128 := by omega
    constructor
    · intro _
      omega
    · intro _
      rw [gm1_get_instrument_category, if_pos hout]

/-- C3: the name lookup gives each of the 18 enumerated categories its
display name, and "Invalid" for every other category value. -/
theorem category_name_total :
    List.map gm1_get_category_name enumerated_categories = display_names
    ∧ ∀ c : gm1_instrument_category_t, c ∉ enumerated_categories →
        gm1_get_category_name c = "Invalid" := by
  refine ⟨rfl, ?_⟩
  intro c hc
  have hgt : ¬ c ≤ GM1_CATEGORY_UNKNOWN := by
    intro hle
    apply hc
    have : c ≤ 17 := hle
    interval_cases c <;> decide
  simp [gm1_get_category_name, hgt]

/-- C3 at category values that are not enumerators: 18 and `UINT32_MAX`. -/
theorem category_name_total_witness :
    18 ∉ enumerated_categories ∧ gm1_get_category_name 18 = "Invalid"
    ∧ gm1_get_category_name 4294967295 = "Invalid" :=
  ⟨by decide, category_name_total.2 18 (by decide),
    category_name_total.2 4294967295 (by decide)⟩

/-! ## Program quality validation -/

/-- The validator as one Boolean expression over the four tests of the code. -/
theorem program_quality_eq (m : gm1_quality_metrics_t) :
    gm1_validate_program_quality (some m) =
      (!F32.lt m.recognition_score GM1_MIN_RECOGNITION_SCORE && m.controller_response
        && m.velocity_sensitive
        && !F32.gt (F32.fabsf m.frequency_accuracy) GM1_MAX_TUNING_DEVIATION_CENTS) := by
  simp only [gm1_validate_program_quality]
  generalize F32.lt m.recognition_score GM1_MIN_RECOGNITION_SCORE = a
  generalize m.controller_response = b
  generalize m.velocity_sensitive = c
  generalize F32.gt (F32.fabsf m.frequency_accuracy) GM1_MAX_TUNING_DEVIATION_CENTS = d
  cases a <;> cases b <;> cases c <;> cases d <;> simp

/-- C4 fails on the code: for metrics with a NaN recognition score, both
flags set and a tuning deviation of 0.0, the test `recognition_score < 0.8f`
is false, so `gm1_validate_program_quality` returns true, although the score
is not `>= 0.8`, the check that the header documents ("Recognition score >=
80%"). -/
theorem program_quality_accepts_nan :
    (good_metrics f32_nan lit_0_0f).recognition_score.isNaN = true
    ∧ F32.lt (good_metrics f32_nan lit_0_0f).recognition_score GM1_MIN_RECOGNITION_SCORE
        = false
    ∧ F32.ge (good_metrics f32_nan lit_0_0f).recognition_score GM1_MIN_RECOGNITION_SCORE
        = false
    ∧ gm1_validate_program_quality (some (good_metrics f32_nan lit_0_0f)) = true := by
  decide

/-- Away from NaN the validator does what its documentation says: for present
metrics whose recognition score and tuning deviation are not NaN, validation
returns true exactly when the score is `>= 0.8`, both flags are set and the
absolute tuning deviation is `<= 10.0`; absent metrics fail; a score of
exactly 0.8 and a deviation of exactly +10.0 or -10.0 pass; 0.79, 15.0 and
-11.0 fail. -/
theorem program_quality_iff (m : gm1_quality_metrics_t)
    (hscore : m.recognition_score.isNaN = false)
    (htuning : m.frequency_accuracy.isNaN = false) :
    (gm1_validate_program_quality (some m) = true ↔
      (F32.ge m.recognition_score GM1_MIN_RECOGNITION_SCORE = true
        ∧ m.controller_response = true
        ∧ m.velocity_sensitive = true
        ∧ F32.le (F32.fabsf m.frequency_accuracy) GM1_MAX_TUNING_DEVIATION_CENTS = true))
    ∧ gm1_validate_program_quality none = false
    ∧ gm1_validate_program_quality (some (good_metrics lit_0_8f lit_10_0f)) = true
    ∧ gm1_validate_program_quality (some (good_metrics lit_0_8f lit_neg_10_0f)) = true
    ∧ gm1_validate_program_quality (some (good_metrics lit_0_79f lit_0_0f)) = false
    ∧ gm1_validate_program_quality (some (good_metrics lit_0_8f lit_15_0f)) = false
    ∧ gm1_validate_program_quality (some (good_metrics lit_0_8f lit_neg_11_0f)) = false := by
  refine ⟨?_, by decide, by decide, by decide, by decide, by decide, by decide⟩
  have h1 := F32.lt_eq_false_iff_ge m.recognition_score GM1_MIN_RECOGNITION_SCORE hscore
    (by decide)
  have h2 := F32.gt_eq_false_iff_le (F32.fabsf m.frequency_accuracy)
    GM1_MAX_TUNING_DEVIATION_CENTS (by rw [F32.isNaN_fabsf]; exact htuning) (by decide)
  rw [← h1, ← h2, program_quality_eq]
  simp only [Bool.and_eq_true, Bool.not_eq_true', and_assoc]

/-- The validator at the boundary metrics of the unit test (score exactly
0.8, tuning exactly 10.0). -/
theorem program_quality_iff_witness :
    (good_metrics lit_0_8f lit_10_0f).recognition_score.isNaN = false
    ∧ (good_metrics lit_0_8f lit_10_0f).frequency_accuracy.isNaN = false
    ∧ (gm1_validate_program_quality (some (good_metrics lit_0_8f lit_10_0f)) = true ↔
      (F32.ge (good_metrics lit_0_8f lit_10_0f).recognition_score
          GM1_MIN_RECOGNITION_SCORE = true
        ∧ (good_metrics lit_0_8f lit_10_0f).controller_response = true
        ∧ (good_metrics lit_0_8f lit_10_0f).velocity_sensitive = true
        ∧ F32.le (F32.fabsf (good_metrics lit_0_8f lit_10_0f).frequency_accuracy)
            GM1_MAX_TUNING_DEVIATION_CENTS = true)) :=
  ⟨by decide, by decide,
    (program_quality_iff (good_metrics lit_0_8f lit_10_0f) (by decide) (by decide)).1⟩

/-! ## Audio quality validation: the two flags -/

theorem report_issue_meets_minimum (st : validation_state) (text : List Char) :
    (report_issue st text).result.meets_minimum = false := by
  dsimp only [report_issue]
  split_ifs <;> rfl

theorem report_issue_meets_recommended (st : validation_state) (text : List Char) :
    (report_issue st text).result.meets_recommended = st.result.meets_recommended := by
  dsimp only [report_issue]
  split_ifs <;> rfl

theorem check_sample_rate_min (q : gm1_audio_quality_t) (st : validation_state) :
    (check_sample_rate q st).result.meets_minimum =
      (st.result.meets_minimum && !decide (q.sample_rate_hz < GM1_MIN_SAMPLE_RATE_HZ)) := by
  unfold check_sample_rate
  split_ifs <;> simp [report_issue_meets_minimum, *]

theorem check_bit_depth_min (q : gm1_audio_quality_t) (st : validation_state) :
    (check_bit_depth q st).result.meets_minimum =
      (st.result.meets_minimum && !decide (q.bit_depth < GM1_MIN_BIT_DEPTH)) := by
  unfold check_bit_depth
  split_ifs <;> simp [report_issue_meets_minimum, *]

theorem check_dynamic_range_min (fmt_f : Nat → F32 → List Char) (q : gm1_audio_quality_t)
    (st : validation_state) :
    (check_dynamic_range fmt_f q st).result.meets_minimum =
      (st.result.meets_minimum && !F32.lt q.dynamic_range_db GM1_MIN_DYNAMIC_RANGE_DB) := by
  unfold check_dynamic_range
  split_ifs <;> simp [report_issue_meets_minimum, *]

theorem check_polyphony_min (q : gm1_audio_quality_t) (st : validation_state) :
    (check_polyphony q st).result.meets_minimum =
      (st.result.meets_minimum && !decide (q.polyphony_voices < GM1_MIN_POLYPHONY)) := by
  unfold check_polyphony
  split_ifs <;> simp [report_issue_meets_minimum, *]

theorem check_frequency_response_min (fmt_f : Nat → F32 → List Char)
    (q : gm1_audio_quality_t) (st : validation_state) :
    (check_frequency_response fmt_f q st).result.meets_minimum =
      (st.result.meets_minimum && !F32.lt q.frequency_response_max_hz lit_11000_0f) := by
  dsimp only [check_frequency_response]
  split_ifs <;> simp [*]

theorem check_sample_rate_rec (q : gm1_audio_quality_t) (st : validation_state) :
    (check_sample_rate q st).result.meets_recommended =
      (st.result.meets_recommended
        && !(!decide (q.sample_rate_hz < GM1_MIN_SAMPLE_RATE_HZ)
              && decide (q.sample_rate_hz < GM1_RECOMMENDED_SAMPLE_RATE_HZ))) := by
  unfold check_sample_rate
  split_ifs <;> simp [report_issue_meets_recommended, *]

theorem check_bit_depth_rec (q : gm1_audio_quality_t) (st : validation_state) :
    (check_bit_depth q st).result.meets_recommended =
      (st.result.meets_recommended
        && !(!decide (q.bit_depth < GM1_MIN_BIT_DEPTH)
              && decide (q.bit_depth < GM1_RECOMMENDED_BIT_DEPTH))) := by
  unfold check_bit_depth
  split_ifs <;> simp [report_issue_meets_recommended, *]

theorem check_dynamic_range_rec (fmt_f : Nat → F32 → List Char) (q : gm1_audio_quality_t)
    (st : validation_state) :
    (check_dynamic_range fmt_f q st).result.meets_recommended =
      (st.result.meets_recommended
        && !(!F32.lt q.dynamic_range_db GM1_MIN_DYNAMIC_RANGE_DB
              && F32.lt q.dynamic_range_db GM1_RECOMMENDED_DYNAMIC_RANGE_DB)) := by
  unfold check_dynamic_range
  split_ifs <;> simp [report_issue_meets_recommended, *]

theorem check_polyphony_rec (q : gm1_audio_quality_t) (st : validation_state) :
    (check_polyphony q st).result.meets_recommended = st.result.meets_recommended := by
  unfold check_polyphony
  split_ifs <;> simp [report_issue_meets_recommended]

theorem check_frequency_response_rec (fmt_f : Nat → F32 → List Char)
    (q : gm1_audio_quality_t) (st : validation_state) :
    (check_frequency_response fmt_f q st).result.meets_recommended =
      (st.result.meets_recommended
        && !F32.gt q.frequency_response_min_hz lit_20_0f
        && !(!F32.lt q.frequency_response_max_hz lit_11000_0f
              && F32.lt q.frequency_response_max_hz lit_20000_0f)) := by
  dsimp only [check_frequency_response]
  split_ifs <;> simp [*]

/-- The flag `meets_minimum` after all five checks: no value is below its minimum. -/
theorem meets_minimum_eq (fmt_f : Nat → F32 → List Char) (q : gm1_audio_quality_t) :
    (gm1_validate_audio_quality fmt_f (some q)).meets_minimum =
      (!decide (q.sample_rate_hz < GM1_MIN_SAMPLE_RATE_HZ)
        && !decide (q.bit_depth < GM1_MIN_BIT_DEPTH)
        && !F32.lt q.dynamic_range_db GM1_MIN_DYNAMIC_RANGE_DB
        && !decide (q.polyphony_voices < GM1_MIN_POLYPHONY)
        && !F32.lt q.frequency_response_max_hz lit_11000_0f) := by
  simp only [gm1_validate_audio_quality, check_frequency_response_min, check_polyphony_min,
    check_dynamic_range_min, check_bit_depth_min, check_sample_rate_min, initial_state,
    Bool.true_and]

/-- The flag `meets_recommended` after all five checks: no value lies between its
minimum and its recommended threshold, and the lower band edge is not above
`20.0f`. -/
theorem meets_recommended_eq (fmt_f : Nat → F32 → List Char) (q : gm1_audio_quality_t) :
    (gm1_validate_audio_quality fmt_f (some q)).meets_recommended =
      (!(!decide (q.sample_rate_hz < GM1_MIN_SAMPLE_RATE_HZ)
            && decide (q.sample_rate_hz < GM1_RECOMMENDED_SAMPLE_RATE_HZ))
        && !(!decide (q.bit_depth < GM1_MIN_BIT_DEPTH)
              && decide (q.bit_depth < GM1_RECOMMENDED_BIT_DEPTH))
        && !(!F32.lt q.dynamic_range_db GM1_MIN_DYNAMIC_RANGE_DB
              && F32.lt q.dynamic_range_db GM1_RECOMMENDED_DYNAMIC_RANGE_DB)
        && !F32.gt q.frequency_response_min_hz lit_20_0f
        && !(!F32.lt q.frequency_response_max_hz lit_11000_0f
              && F32.lt q.frequency_response_max_hz lit_20000_0f)) := by
  simp only [gm1_validate_audio_quality, check_frequency_response_rec, check_polyphony_rec,
    check_dynamic_range_rec, check_bit_depth_rec, check_sample_rate_rec, initial_state,
    Bool.true_and]

/-- C5 fails on the code: for a specification with a NaN dynamic range and
every other value at the recommended level, the test `dynamic_range_db <
48.0f` is false, so the result has `meets_minimum = true` (and
`meets_recommended = true`), although the dynamic range is not `>= 48.0`, the
"minimum dynamic range in dB" of the header. -/
theorem audio_minimum_accepts_nan (fmt_f : Nat → F32 → List Char) :
    nan_dynamic_range_quality.dynamic_range_db.isNaN = true
    ∧ F32.lt nan_dynamic_range_quality.dynamic_range_db GM1_MIN_DYNAMIC_RANGE_DB = false
    ∧ F32.ge nan_dynamic_range_quality.dynamic_range_db GM1_MIN_DYNAMIC_RANGE_DB = false
    ∧ (gm1_validate_audio_quality fmt_f (some nan_dynamic_range_quality)).meets_minimum
        = true
    ∧ (gm1_validate_audio_quality fmt_f (some nan_dynamic_range_quality)).meets_recommended
        = true := by
  rw [meets_minimum_eq, meets_recommended_eq]
  decide

/-- Away from NaN the flag does what its documentation says: for a present
specification whose dynamic range and upper band edge are not NaN,
`meets_minimum` is true exactly when the sample rate is `>= 22050`, the bit
depth `>= 8`, the dynamic range `>= 48.0`, the polyphony `>= 24` and the
upper band edge `>= 11000`; the lower band edge never affects
`meets_minimum`. -/
theorem audio_meets_minimum_iff (fmt_f : Nat → F32 → List Char) (q : gm1_audio_quality_t)
    (hrange : q.dynamic_range_db.isNaN = false)
    (hmax : q.frequency_response_max_hz.isNaN = false) :
    ((gm1_validate_audio_quality fmt_f (some q)).meets_minimum = true ↔
      (22050 ≤ q.sample_rate_hz ∧ 8 ≤ q.bit_depth
        ∧ F32.ge q.dynamic_range_db GM1_MIN_DYNAMIC_RANGE_DB = true
        ∧ 24 ≤ q.polyphony_voices
        ∧ F32.ge q.frequency_response_max_hz lit_11000_0f = true))
    ∧ ∀ x : F32,
        (gm1_validate_audio_quality fmt_f
            (some { q with frequency_response_min_hz := x })).meets_minimum
          = (gm1_validate_audio_quality fmt_f (some q)).meets_minimum := by
  have h1 := F32.lt_eq_false_iff_ge q.dynamic_range_db GM1_MIN_DYNAMIC_RANGE_DB hrange
    (by decide)
  have h2 := F32.lt_eq_false_iff_ge q.frequency_response_max_hz lit_11000_0f hmax (by decide)
  refine ⟨?_, fun x => by simp only [meets_minimum_eq]⟩
  rw [← h1, ← h2, meets_minimum_eq]
  simp only [Bool.and_eq_true, Bool.not_eq_true', decide_eq_false_iff_not, not_lt, and_assoc,
    GM1_MIN_SAMPLE_RATE_HZ, GM1_MIN_BIT_DEPTH, GM1_MIN_POLYPHONY]

/-- The flag at the minimum-quality specification of the unit test. -/
theorem audio_meets_minimum_iff_witness :
    minimum_quality.dynamic_range_db.isNaN = false
    ∧ minimum_quality.frequency_response_max_hz.isNaN = false
    ∧ (gm1_validate_audio_quality fmt_f_sample (some minimum_quality)).meets_minimum = true :=
  ⟨by decide, by decide,
    (audio_meets_minimum_iff fmt_f_sample minimum_quality (by decide) (by decide)).1.2
      (by decide)⟩

/-- C6: for a present specification, `meets_recommended` is false exactly
when some value lies between its minimum and its recommended threshold
(sample rate in [22050, 44100), bit depth in [8, 16), dynamic range in
[48.0, 72.0), upper band edge in [11000, 20000)) or the lower band edge is
above 20; the polyphony never affects `meets_recommended`. -/
theorem audio_meets_recommended_iff (fmt_f : Nat → F32 → List Char)
    (q : gm1_audio_quality_t) :
    ((gm1_validate_audio_quality fmt_f (some q)).meets_recommended = false ↔
      ((22050 ≤ q.sample_rate_hz ∧ q.sample_rate_hz < 44100)
        ∨ (8 ≤ q.bit_depth ∧ q.bit_depth < 16)
        ∨ (F32.ge q.dynamic_range_db GM1_MIN_DYNAMIC_RANGE_DB = true
            ∧ F32.lt q.dynamic_range_db GM1_RECOMMENDED_DYNAMIC_RANGE_DB = true)
        ∨ (F32.ge q.frequency_response_max_hz lit_11000_0f = true
            ∧ F32.lt q.frequency_response_max_hz lit_20000_0f = true)
        ∨ F32.gt q.frequency_response_min_hz lit_20_0f = true))
    ∧ ∀ v : Nat,
        (gm1_validate_audio_quality fmt_f (some { q with polyphony_voices := v })).meets_recommended
          = (gm1_validate_audio_quality fmt_f (some q)).meets_recommended := by
  have h1 := F32.between_iff q.dynamic_range_db GM1_MIN_DYNAMIC_RANGE_DB
    GM1_RECOMMENDED_DYNAMIC_RANGE_DB (by decide)
  have h2 := F32.between_iff q.frequency_response_max_hz lit_11000_0f lit_20000_0f (by decide)
  refine ⟨?_, fun v => by simp only [meets_recommended_eq]⟩
  rw [← h1, ← h2, meets_recommended_eq]
  simp only [GM1_MIN_SAMPLE_RATE_HZ, GM1_RECOMMENDED_SAMPLE_RATE_HZ, GM1_MIN_BIT_DEPTH,
    GM1_RECOMMENDED_BIT_DEPTH]
  generalize F32.lt q.dynamic_range_db GM1_MIN_DYNAMIC_RANGE_DB = a
  generalize F32.lt q.dynamic_range_db GM1_RECOMMENDED_DYNAMIC_RANGE_DB = b
  generalize F32.lt q.frequency_response_max_hz lit_11000_0f = c
  generalize F32.lt q.frequency_response_max_hz lit_20000_0f = d
  generalize F32.gt q.frequency_response_min_hz lit_20_0f = e
  by_cases hs1 : q.sample_rate_hz < 22050 <;> by_cases hs2 : q.sample_rate_hz < 44100 <;>
    by_cases hb1 : q.bit_depth < 8 <;> by_cases hb2 : q.bit_depth < 16 <;>
    cases a <;> cases b <;> cases c <;> cases d <;> cases e <;>
    simp [hs1, hs2, hb1, hb2] <;> omega

/-! ## Audio quality validation: the issue text -/

theorem c_str_ne_nil_of_starts {mem : List Char} (h : starts_with_char mem) :
    c_str mem ≠ [] := by
  obtain ⟨c, hhead, hc⟩ := h
  cases mem with
  | nil => simp at hhead
  | cons c' rest =>
    simp only [List.head?_cons, Option.some.injEq] at hhead
    subst hhead
    have hc' : (c' != NUL) = true := by simpa using hc
    simp [c_str, List.takeWhile_cons, hc']

/-- Printing a message that begins with a character leaves a buffer that
begins with a character, provided the destination is the start of the buffer
with room for that character, or lies behind an earlier message. -/
theorem snprintf_starts (mem : List Char) (off size : Nat) (text : List Char)
    (htext : starts_with_char text) (hroom : off = 0 → 2 ≤ size)
    (hmem : off ≠ 0 → starts_with_char mem) :
    starts_with_char (snprintf mem off size text).1 := by
  obtain ⟨c, hhead, hc⟩ := htext
  cases text with
  | nil => simp at hhead
  | cons c0 t =>
    simp only [List.head?_cons, Option.some.injEq] at hhead
    subst hhead
    by_cases hoff : off = 0
    · subst hoff
      have hsize := hroom rfl
      obtain ⟨n, rfl⟩ : ∃ n, size = n + 2 := ⟨size - 2, by omega⟩
      exact ⟨c0, by simp [snprintf, store], hc⟩
    · obtain ⟨c', hhead', hc'⟩ := hmem hoff
      cases mem with
      | nil => simp at hhead'
      | cons c1 rest =>
        simp only [List.head?_cons, Option.some.injEq] at hhead'
        subst hhead'
        obtain ⟨k, rfl⟩ : ∃ k, off = k + 1 := ⟨off - 1, by omega⟩
        by_cases hsize : size = 0
        · exact ⟨c1, by simp [snprintf, hsize], hc'⟩
        · exact ⟨c1, by simp [snprintf, store, hsize], hc'⟩

theorem report_issue_touched (st : validation_state) (text : List Char)
    (hinv : issues_inv st) (htext : starts_with_char text) :
    touched (report_issue st text) := by
  have hroom : st.issues_ptr = 0 → 2 ≤ st.remaining := by
    rcases hinv with h | h
    · exact fun _ => h.2.2.1
    · exact h.2.1
  have hmem : st.issues_ptr ≠ 0 → starts_with_char st.result.issues := by
    rcases hinv with h | h
    · exact fun hne => absurd h.2.1 hne
    · exact fun _ => h.2.2
  have hbuf := snprintf_starts st.result.issues st.issues_ptr st.remaining text htext hroom hmem
  refine ⟨report_issue_meets_minimum st text, ?_, ?_⟩
  · dsimp only [report_issue]
    split_ifs with hw
    · intro h0
      dsimp only at h0
      have : 0 < text.length := hw.1
      simp only [snprintf] at h0
      omega
    · exact hroom
  · dsimp only [report_issue]
    split_ifs <;> exact hbuf

theorem inv_of_recommended_cleared (st : validation_state) (hinv : issues_inv st) :
    issues_inv { st with result := { st.result with meets_recommended := false } } := by
  rcases hinv with h | h
  · exact Or.inl h
  · exact Or.inr h

theorem check_sample_rate_inv (q : gm1_audio_quality_t) (st : validation_state)
    (hinv : issues_inv st) : issues_inv (check_sample_rate q st) := by
  unfold check_sample_rate
  split_ifs
  · exact Or.inr (report_issue_touched st _ hinv ⟨'S', rfl, by decide⟩)
  · exact inv_of_recommended_cleared st hinv
  · exact hinv

theorem check_bit_depth_inv (q : gm1_audio_quality_t) (st : validation_state)
    (hinv : issues_inv st) : issues_inv (check_bit_depth q st) := by
  unfold check_bit_depth
  split_ifs
  · exact Or.inr (report_issue_touched st _ hinv ⟨'B', rfl, by decide⟩)
  · exact inv_of_recommended_cleared st hinv
  · exact hinv

theorem check_dynamic_range_inv (fmt_f : Nat → F32 → List Char) (q : gm1_audio_quality_t)
    (st : validation_state) (hinv : issues_inv st) :
    issues_inv (check_dynamic_range fmt_f q st) := by
  unfold check_dynamic_range
  split_ifs
  · exact Or.inr (report_issue_touched st _ hinv ⟨'D', rfl, by decide⟩)
  · exact inv_of_recommended_cleared st hinv
  · exact hinv

theorem check_polyphony_inv (q : gm1_audio_quality_t) (st : validation_state)
    (hinv : issues_inv st) : issues_inv (check_polyphony q st) := by
  unfold check_polyphony
  split_ifs
  · exact Or.inr (report_issue_touched st _ hinv ⟨'P', rfl, by decide⟩)
  · exact hinv

theorem check_frequency_response_inv (fmt_f : Nat → F32 → List Char)
    (q : gm1_audio_quality_t) (st : validation_state) (hinv : issues_inv st) :
    issues_inv (check_frequency_response fmt_f q st) := by
  have hstep : ∀ st' : validation_state, issues_inv st' →
      issues_inv
        (if F32.lt q.frequency_response_max_hz lit_11000_0f then
          { st' with result := { st'.result with
              meets_minimum := false,
              issues := (snprintf st'.result.issues st'.issues_ptr st'.remaining
                ("Max frequency ".toList ++ fmt_f 0 q.frequency_response_max_hz
                  ++ " Hz below minimum 11000 Hz. ".toList)).1 } }
        else if F32.lt q.frequency_response_max_hz lit_20000_0f then
          { st' with result := { st'.result with meets_recommended := false } }
        else st') := by
    intro st' hinv'
    split_ifs
    · have hroom : st'.issues_ptr = 0 → 2 ≤ st'.remaining := by
        rcases hinv' with h | h
        · exact fun _ => h.2.2.1
        · exact h.2.1
      have hmem : st'.issues_ptr ≠ 0 → starts_with_char st'.result.issues := by
        rcases hinv' with h | h
        · exact fun hne => absurd h.2.1 hne
        · exact fun _ => h.2.2
      exact Or.inr ⟨rfl, hroom,
        snprintf_starts st'.result.issues st'.issues_ptr st'.remaining _
          ⟨'M', rfl, by decide⟩ hroom hmem⟩
    · exact inv_of_recommended_cleared st' hinv'
    · exact hinv'
  have hfirst : issues_inv
      (if F32.gt q.frequency_response_min_hz lit_20_0f then
        { st with result := { st.result with meets_recommended := false } }
      else st) := by
    split_ifs
    · exact inv_of_recommended_cleared st hinv
    · exact hinv
  exact hstep _ hfirst

theorem initial_state_inv : issues_inv initial_state :=
  Or.inl ⟨rfl, rfl, by decide, by decide⟩

/-- After the five checks the issue text is empty exactly when
`meets_minimum` is still set. -/
theorem issues_empty_iff (fmt_f : Nat → F32 → List Char) (q : gm1_audio_quality_t) :
    c_str (gm1_validate_audio_quality fmt_f (some q)).issues = [] ↔
      (gm1_validate_audio_quality fmt_f (some q)).meets_minimum = true := by
  have hinv := check_frequency_response_inv fmt_f q _
    (check_polyphony_inv q _
      (check_dynamic_range_inv fmt_f q _
        (check_bit_depth_inv q _ (check_sample_rate_inv q _ initial_state_inv))))
  simp only [gm1_validate_audio_quality]
  rcases hinv with h | h
  · exact ⟨fun _ => h.1, fun _ => h.2.2.2⟩
  · constructor
    · intro he
      exact absurd he (c_str_ne_nil_of_starts h.2.2)
    · intro hm
      rw [h.1] at hm
      exact absurd hm (by decide)

/-- The validator run on the below-minimum specification of the unit test
(11025 Hz): `meets_minimum` is cleared and the issue text is the sample-rate
message. -/
theorem below_minimum_issue_text :
    (gm1_validate_audio_quality fmt_f_sample (some below_minimum)).meets_minimum = false
    ∧ String.mk (c_str (gm1_validate_audio_quality fmt_f_sample (some below_minimum)).issues)
        = "Sample rate 11025 Hz below minimum 22050 Hz. " := by
  decide

/-- C7: a present specification at or above every recommended threshold
(44100 Hz, 16 bit, 72.0 dB, 24 voices, band edges 20 Hz and 20000 Hz) meets
the minimum and the recommended quality, with an empty issue text. -/
theorem audio_recommended_spec (fmt_f : Nat → F32 → List Char) (q : gm1_audio_quality_t)
    (hrate : 44100 ≤ q.sample_rate_hz) (hbits : 16 ≤ q.bit_depth)
    (hrange : F32.ge q.dynamic_range_db GM1_RECOMMENDED_DYNAMIC_RANGE_DB = true)
    (hvoices : 24 ≤ q.polyphony_voices)
    (hmax : F32.ge q.frequency_response_max_hz lit_20000_0f = true)
    (hmin : F32.le q.frequency_response_min_hz lit_20_0f = true) :
    (gm1_validate_audio_quality fmt_f (some q)).meets_minimum = true
    ∧ (gm1_validate_audio_quality fmt_f (some q)).meets_recommended = true
    ∧ c_str (gm1_validate_audio_quality fmt_f (some q)).issues = [] := by
  have d1 : F32.lt q.dynamic_range_db GM1_MIN_DYNAMIC_RANGE_DB = false :=
    F32.lt_eq_false_of_ge hrange (by decide)
  have d2 : F32.lt q.dynamic_range_db GM1_RECOMMENDED_DYNAMIC_RANGE_DB = false :=
    F32.lt_eq_false_of_ge hrange (by decide)
  have f1 : F32.lt q.frequency_response_max_hz lit_11000_0f = false :=
    F32.lt_eq_false_of_ge hmax (by decide)
  have f2 : F32.lt q.frequency_response_max_hz lit_20000_0f = false :=
    F32.lt_eq_false_of_ge hmax (by decide)
  have f3 : F32.gt q.frequency_response_min_hz lit_20_0f = false :=
    F32.gt_eq_false_of_le hmin
  have r1 : ¬ q.sample_rate_hz < GM1_MIN_SAMPLE_RATE_HZ := by
    simp only [GM1_MIN_SAMPLE_RATE_HZ]; omega
  have r2 : ¬ q.sample_rate_hz < GM1_RECOMMENDED_SAMPLE_RATE_HZ := by
    simp only [GM1_RECOMMENDED_SAMPLE_RATE_HZ]; omega
  have b1 : ¬ q.bit_depth < GM1_MIN_BIT_DEPTH := by
    simp only [GM1_MIN_BIT_DEPTH]; omega
  have b2 : ¬ q.bit_depth < GM1_RECOMMENDED_BIT_DEPTH := by
    simp only [GM1_RECOMMENDED_BIT_DEPTH]; omega
  have v1 : ¬ q.polyphony_voices < GM1_MIN_POLYPHONY := by
    simp only [GM1_MIN_POLYPHONY]; omega
  have hm : (gm1_validate_audio_quality fmt_f (some q)).meets_minimum = true := by
    rw [meets_minimum_eq]
    simp [d1, f1, r1, b1, v1]
  refine ⟨hm, ?_, (issues_empty_iff fmt_f q).2 hm⟩
  rw [meets_recommended_eq]
  simp [d1, d2, f1, f2, f3, r1, r2, b1, b2]

/-- C7 at the recommended specification of the unit test: 44100 Hz, 16 bit,
96 dB, 64 voices, 20 Hz .. 20000 Hz. -/
theorem audio_recommended_spec_witness :
    (44100 ≤ recommended_quality.sample_rate_hz ∧ 16 ≤ recommended_quality.bit_depth
      ∧ F32.ge recommended_quality.dynamic_range_db GM1_RECOMMENDED_DYNAMIC_RANGE_DB = true
      ∧ 24 ≤ recommended_quality.polyphony_voices
      ∧ F32.ge recommended_quality.frequency_response_max_hz lit_20000_0f = true
      ∧ F32.le recommended_quality.frequency_response_min_hz lit_20_0f = true)
    ∧ (gm1_validate_audio_quality fmt_f_sample (some recommended_quality)).meets_minimum = true
    ∧ (gm1_validate_audio_quality fmt_f_sample (some recommended_quality)).meets_recommended
        = true
    ∧ c_str (gm1_validate_audio_quality fmt_f_sample (some recommended_quality)).issues = [] :=
  ⟨by decide,
    audio_recommended_spec fmt_f_sample recommended_quality (by decide) (by decide) (by decide)
      (by decide) (by decide) (by decide)⟩

/-- C8: for an absent (NULL) specification both flags are false and the issue
text is exactly "NULL quality specification". -/
theorem audio_null_spec (fmt_f : Nat → F32 → List Char) :
    (gm1_validate_audio_quality fmt_f none).meets_minimum = false
    ∧ (gm1_validate_audio_quality fmt_f none).meets_recommended = false
    ∧ String.mk (c_str (gm1_validate_audio_quality fmt_f none).issues)
        = "NULL quality specification" := by
  exact ⟨rfl, rfl, rfl⟩

/-- C9: issue messages are reserved for sub-minimum failures: for every
present specification the issue text is empty exactly when `meets_minimum`
is true. -/
theorem audio_issues_empty_iff_meets_minimum (fmt_f : Nat → F32 → List Char)
    (q : gm1_audio_quality_t) :
    String.mk (c_str (gm1_validate_audio_quality fmt_f (some q)).issues) = "" ↔
      (gm1_validate_audio_quality fmt_f (some q)).meets_minimum = true := by
  rw [← issues_empty_iff fmt_f q]
  constructor
  · intro h
    exact congrArg String.data h
  · intro h
    rw [h]

/-! ## Velocity configuration -/

/-- The configuration check as one Boolean expression over the tests of the
code. -/
theorem configure_velocity_eq (program : Nat) (c : gm1_velocity_config_t) :
    gm1_configure_program_velocity program (some c) =
      (!decide (program < 1 ∨ program > 128)
        && !decide (c.velocity_layers < GM1_MIN_VELOCITY_LAYERS)
        && !F32.le c.velocity_curve lit_0_0f && !F32.gt c.velocity_curve lit_2_0f) := by
  simp only [gm1_configure_program_velocity]
  generalize F32.le c.velocity_curve lit_0_0f = a
  generalize F32.gt c.velocity_curve lit_2_0f = b
  by_cases hp : program < 1 ∨ program > 128 <;>
    by_cases hl : c.velocity_layers < GM1_MIN_VELOCITY_LAYERS <;>
    cases a <;> cases b <;> simp [hp, hl]

/-- C10 fails on the code: for program 1 and a configuration with 2 layers
and a NaN velocity curve, both tests of `velocity_curve <= 0.0f ||
velocity_curve > 2.0f` are false, so `gm1_configure_program_velocity` returns
true, although the curve is neither `> 0.0` (the code's comment: "must be
positive") nor `<= 2.0`. -/
theorem configure_velocity_accepts_nan :
    nan_curve_config.velocity_curve.isNaN = true
    ∧ F32.le nan_curve_config.velocity_curve lit_0_0f = false
    ∧ F32.gt nan_curve_config.velocity_curve lit_2_0f = false
    ∧ F32.lt lit_0_0f nan_curve_config.velocity_curve = false
    ∧ F32.le nan_curve_config.velocity_curve lit_2_0f = false
    ∧ gm1_configure_program_velocity 1 (some nan_curve_config) = true := by
  decide

/-- Away from NaN the call does what its documentation says: with a present
configuration whose curve is not NaN, the call returns true exactly when the
program is in 1..128, there are at least 2 velocity layers and the curve is
in `(0.0, 2.0]`; an absent configuration fails; 1 layer fails for every
program; 2 layers with curve 0.5 succeed for every valid program; a curve of
0.0 or above 2.0 fails; programs 0 and 129 fail. -/
theorem configure_velocity_iff (program : Nat) (c : gm1_velocity_config_t)
    (hcurve : c.velocity_curve.isNaN = false) :
    (gm1_configure_program_velocity program (some c) = true ↔
      (1 ≤ program ∧ program ≤ 128 ∧ 2 ≤ c.velocity_layers
        ∧ F32.lt lit_0_0f c.velocity_curve = true
        ∧ F32.le c.velocity_curve lit_2_0f = true))
    ∧ gm1_configure_program_velocity program none = false
    ∧ gm1_configure_program_velocity program (some { c with velocity_layers := 1 }) = false
    ∧ (1 ≤ program ∧ program ≤ 128 →
        gm1_configure_program_velocity program (some min_config) = true)
    ∧ gm1_configure_program_velocity program (some { c with velocity_curve := lit_0_0f })
        = false
    ∧ (F32.gt c.velocity_curve lit_2_0f = true →
        gm1_configure_program_velocity program (some c) = false)
    ∧ gm1_configure_program_velocity 0 (some c) = false
    ∧ gm1_configure_program_velocity 129 (some c) = false := by
  have h1 := F32.le_eq_false_iff_gt c.velocity_curve lit_0_0f hcurve (by decide)
  have h2 := F32.gt_eq_false_iff_le c.velocity_curve lit_2_0f hcurve (by decide)
  refine ⟨?_, ?_, ?_, ?_, ?_, ?_, ?_, ?_⟩
  · rw [configure_velocity_eq]
    simp only [F32.gt] at h1
    rw [← h1, ← h2]
    simp only [Bool.and_eq_true, Bool.not_eq_true', decide_eq_false_iff_not, not_or, not_lt,
      and_assoc, GM1_MIN_VELOCITY_LAYERS]
  · simp [gm1_configure_program_velocity]
  · rw [configure_velocity_eq]
    simp [GM1_MIN_VELOCITY_LAYERS]
  · rintro ⟨ha, hb⟩
    rw [configure_velocity_eq]
    have hp : ¬ (program < 1 ∨ program > 128) := by omega
    have e1 : F32.le min_config.velocity_curve lit_0_0f = false := by decide
    have e2 : F32.gt min_config.velocity_curve lit_2_0f = false := by decide
    have e3 : ¬ min_config.velocity_layers < GM1_MIN_VELOCITY_LAYERS := by decide
    simp only [e1, e2, e3, hp, decide_False, Bool.not_false, Bool.and_self]
  · rw [configure_velocity_eq]
    have e1 : F32.le lit_0_0f lit_0_0f = true := by decide
    simp [e1]
  · intro hgt
    rw [configure_velocity_eq]
    simp [hgt]
  · rw [configure_velocity_eq]
    simp
  · rw [configure_velocity_eq]
    simp

/-- The call at the minimum configuration of the unit test (2 layers, curve
0.5) for program 64. -/
theorem configure_velocity_iff_witness :
    min_config.velocity_curve.isNaN = false
    ∧ gm1_configure_program_velocity 64 (some min_config) = true :=
  ⟨by decide,
    (configure_velocity_iff 64 min_config (by decide)).1.2
      ⟨by decide, by decide, by decide, by decide, by decide⟩⟩

/-! ## Program switching -/

/-- The estimate for a valid pair of programs, as a function of the two
categories. -/
theorem switch_latency_valid (src dst : Nat) (hs : 1 ≤ src ∧ src ≤ 128)
    (hd : 1 ≤ dst ∧ dst ≤ 128) :
    gm1_test_program_switch_latency src dst =
      10 + (if gm1_get_instrument_category src ≠ gm1_get_instrument_category dst
              then 20 else 0)
        + (if gm1_get_instrument_category dst = GM1_CATEGORY_PIANO
              ∨ gm1_get_instrument_category dst = GM1_CATEGORY_STRINGS then 15 else 0) := by
  have hvalid : ¬ (src < 1 ∨ src > 128 ∨ dst < 1 ∨ dst > 128) := by omega
  simp only [gm1_test_program_switch_latency, if_neg hvalid]
  split_ifs <;> rfl

/-- The estimate for an invalid pair of programs. -/
theorem switch_latency_invalid (src dst : Nat)
    (h : ¬ ((1 ≤ src ∧ src ≤ 128) ∧ (1 ≤ dst ∧ dst ≤ 128))) :
    gm1_test_program_switch_latency src dst = UINT32_MAX := by
  have hinvalid : src < 1 ∨ src > 128 ∨ dst < 1 ∨ dst > 128 := by omega
  simp only [gm1_test_program_switch_latency, if_pos hinvalid]

/-- The estimate for a valid pair is at most 45. -/
theorem switch_latency_le (src dst : Nat) (hs : 1 ≤ src ∧ src ≤ 128)
    (hd : 1 ≤ dst ∧ dst ≤ 128) : gm1_test_program_switch_latency src dst ≤ 45 := by
  rw [switch_latency_valid src dst hs hd]
  split_ifs <;> decide

/-- C11: for valid programs the latency estimate is 10, plus 20 when the two
categories differ, plus 15 when the destination category is Piano or
Strings; hence it is one of 10, 25, 30 and 45. -/
theorem switch_latency_formula (src dst : Nat) (hs : 1 ≤ src ∧ src ≤ 128)
    (hd : 1 ≤ dst ∧ dst ≤ 128) :
    gm1_test_program_switch_latency src dst =
      10 + (if gm1_get_instrument_category src ≠ gm1_get_instrument_category dst
              then 20 else 0)
        + (if gm1_get_instrument_category dst = GM1_CATEGORY_PIANO
              ∨ gm1_get_instrument_category dst = GM1_CATEGORY_STRINGS then 15 else 0)
    ∧ gm1_test_program_switch_latency src dst ∈ [10, 25, 30, 45] := by
  refine ⟨switch_latency_valid src dst hs hd, ?_⟩
  rw [switch_latency_valid src dst hs hd]
  split_ifs <;> decide

/-- C11 at the switches of the unit test: Piano to Piano (1 to 2) costs 25,
Piano to Brass (1 to 57) costs 30, Brass to Piano (57 to 1) costs 45; Brass
to Brass (57 to 58) costs 10. -/
theorem switch_latency_formula_witness :
    ((1 ≤ 1 ∧ 1 ≤ 128) ∧ (1 ≤ 2 ∧ 2 ≤ 128) ∧ gm1_test_program_switch_latency 1 2 = 25)
    ∧ gm1_test_program_switch_latency 1 57 = 30
    ∧ gm1_test_program_switch_latency 57 1 = 45
    ∧ gm1_test_program_switch_latency 57 58 = 10 :=
  ⟨⟨by decide, by decide,
      (switch_latency_formula 1 2 (by decide) (by decide)).1.trans (by decide)⟩,
    (switch_latency_formula 1 57 (by decide) (by decide)).1.trans (by decide),
    (switch_latency_formula 57 1 (by decide) (by decide)).1.trans (by decide),
    (switch_latency_formula 57 58 (by decide) (by decide)).1.trans (by decide)⟩

/-- C12: the latency estimate is the sentinel `UINT32_MAX` (2^32 - 1) exactly
when at least one of the two programs lies outside 1..128. -/
theorem switch_latency_sentinel_iff (src dst : Nat) :
    gm1_test_program_switch_latency src dst = 2 ^ 32 - 1 ↔
      (¬ (1 ≤ src ∧ src ≤ 128) ∨ ¬ (1 ≤ dst ∧ dst ≤ 128)) := by
  by_cases h : (1 ≤ src ∧ src ≤ 128) ∧ (1 ≤ dst ∧ dst ≤ 128)
  · have hle := switch_latency_le src dst h.1 h.2
    constructor
    · intro he
      rw [he] at hle
      exact absurd hle (by decide)
    · intro hor
      rcases hor with h1 | h1
      · exact absurd h.1 h1
      · exact absurd h.2 h1
  · constructor
    · intro _
      by_cases hs : 1 ≤ src ∧ src ≤ 128
      · exact Or.inr (fun hd => h ⟨hs, hd⟩)
      · exact Or.inl hs
    · intro _
      rw [switch_latency_invalid src dst h]
      decide

/-- C13: a latency is compliant exactly when it is below 100, and the
estimate of a switch is compliant exactly when both programs are in 1..128. -/
theorem switch_compliant_iff (src dst : Nat) :
    (∀ latency_ms : Nat, gm1_is_program_switch_compliant latency_ms = true ↔ latency_ms < 100)
    ∧ (gm1_is_program_switch_compliant (gm1_test_program_switch_latency src dst) = true ↔
        ((1 ≤ src ∧ src ≤ 128) ∧ (1 ≤ dst ∧ dst ≤ 128))) := by
  have hc : ∀ latency_ms : Nat,
      gm1_is_program_switch_compliant latency_ms = true ↔ latency_ms < 100 := by
    intro latency_ms
    simp [gm1_is_program_switch_compliant, GM1_MAX_PROGRAM_SWITCH_MS]
  refine ⟨hc, ?_⟩
  rw [hc]
  by_cases h : (1 ≤ src ∧ src ≤ 128) ∧ (1 ≤ dst ∧ dst ≤ 128)
  · have hle := switch_latency_le src dst h.1 h.2
    exact ⟨fun _ => h, fun _ => by omega⟩
  · rw [switch_latency_invalid src dst h]
    exact ⟨fun hlt => absurd hlt (by decide), fun hv => absurd hv h⟩

/-- C14: the latency estimate depends on the two programs only through their
categories. -/
theorem switch_latency_of_categories (a a' b b' : Nat)
    (ha : 1 ≤ a ∧ a ≤ 128) (ha' : 1 ≤ a' ∧ a' ≤ 128)
    (hb : 1 ≤ b ∧ b ≤ 128) (hb' : 1 ≤ b' ∧ b' ≤ 128)
    (hca : gm1_get_instrument_category a = gm1_get_instrument_category a')
    (hcb : gm1_get_instrument_category b = gm1_get_instrument_category b') :
    gm1_test_program_switch_latency a b = gm1_test_program_switch_latency a' b' := by
  rw [switch_latency_valid a b ha hb, switch_latency_valid a' b' ha' hb', hca, hcb]

/-- C14 at two Piano programs (1, 8) and two Strings programs (41, 48). -/
theorem switch_latency_of_categories_witness :
    gm1_get_instrument_category 1 = gm1_get_instrument_category 8
    ∧ gm1_get_instrument_category 41 = gm1_get_instrument_category 48
    ∧ gm1_test_program_switch_latency 1 41 = gm1_test_program_switch_latency 8 48 :=
  ⟨by decide, by decide,
    switch_latency_of_categories 1 8 41 48 (by decide) (by decide) (by decide) (by decide)
      (by decide) (by decide)⟩

/-! ## Rounding: the quantum exponent -/

theorem F32.quantum_le (n d k : Nat) : F32.quantum n d k ≤ k := by
  induction k with
  | zero => simp [F32.quantum]
  | succ q ih =>
    simp only [F32.quantum]
    split_ifs
    · exact le_rfl
    · exact Nat.le_succ_of_le ih

theorem F32.quantum_lower (n d k : Nat) (h : F32.quantum n d k ≠ 0) :
    2 ^ (23 + F32.quantum n d k) * d ≤ n := by
  induction k with
  | zero => simp [F32.quantum] at h
  | succ q ih =>
    simp only [F32.quantum] at h ⊢
    split_ifs at h ⊢ with hq
    · have e : 23 + (q + 1) = 24 + q := by omega
      rw [e]
      exact hq
    · exact ih h

theorem F32.quantum_upper (n d k : Nat) (h : F32.quantum n d k < k) :
    n < 2 ^ (24 + F32.quantum n d k) * d := by
  induction k with
  | zero => simp [F32.quantum] at h
  | succ q ih =>
    simp only [F32.quantum] at h ⊢
    split_ifs at h ⊢ with hq
    · omega
    · have hle := F32.quantum_le n d q
      rcases Nat.lt_or_ge (F32.quantum n d q) q with hlt | hge
      · exact ih hlt
      · have e : F32.quantum n d q = q := le_antisymm hle hge
        rw [e]
        exact Nat.lt_of_not_le hq

/-- The quantum exponent is determined by its two bounds. -/
theorem F32.quantum_eq (n d k q : Nat) (hq : q ≤ k)
    (hlo : q ≠ 0 → 2 ^ (23 + q) * d ≤ n) (hhi : q < k → n < 2 ^ (24 + q) * d) :
    F32.quantum n d k = q := by
  have h1 := F32.quantum_le n d k
  by_contra hne
  rcases Nat.lt_or_gt_of_ne hne with hlt | hgt
  · -- quantum < q: then n < 2^(24+quantum) d ≤ 2^(23+q) d ≤ n
    have hu := F32.quantum_upper n d k (by omega)
    have hl := hlo (by omega)
    have hp : 2 ^ (24 + F32.quantum n d k) ≤ 2 ^ (23 + q) :=
      Nat.pow_le_pow_right (by decide) (by omega)
    have := Nat.mul_le_mul_right d hp
    omega
  · have hl := F32.quantum_lower n d k (by omega)
    have hu := hhi (by omega)
    have hp : 2 ^ (24 + q) ≤ 2 ^ (23 + F32.quantum n d k) :=
      Nat.pow_le_pow_right (by decide) (by omega)
    have := Nat.mul_le_mul_right d hp
    omega

theorem F32.quantum_mono (n1 n2 d k : Nat) (h : n1 ≤ n2) :
    F32.quantum n1 d k ≤ F32.quantum n2 d k := by
  induction k with
  | zero => simp [F32.quantum]
  | succ q ih =>
    simp only [F32.quantum]
    split_ifs with h1 h2 h2
    · exact le_rfl
    · exact absurd (le_trans h1 h) h2
    · exact le_trans (F32.quantum_le n1 d q) (Nat.le_succ q)
    · exact ih

theorem F32.quantum_scale (n d c k : Nat) (hc : 0 < c) :
    F32.quantum (n * c) (d * c) k = F32.quantum n d k := by
  induction k with
  | zero => simp [F32.quantum]
  | succ q ih =>
    simp only [F32.quantum]
    have e : 2 ^ (24 + q) * (d * c) ≤ n * c ↔ 2 ^ (24 + q) * d ≤ n := by
      rw [← Nat.mul_assoc]
      exact ⟨fun h => Nat.le_of_mul_le_mul_right h hc, fun h => Nat.mul_le_mul_right c h⟩
    simp only [e, ih]

/-! ## Rounding: nearest integer, ties to even -/

/-- The value `rne n d` is within one half of `n / d`, and even in case of a
tie. -/
theorem F32.rne_spec (n d : Nat) (hd : 0 < d) :
    2 * (F32.rne n d * d) ≤ 2 * n + d ∧ 2 * n ≤ 2 * (F32.rne n d * d) + d
    ∧ (2 * (F32.rne n d * d) = 2 * n + d → F32.rne n d % 2 = 0)
    ∧ (2 * n = 2 * (F32.rne n d * d) + d → F32.rne n d % 2 = 0) := by
  have hdm := Nat.div_add_mod n d
  have hr := Nat.mod_lt n hd
  have hmul : (n / d + 1) * d = n / d * d + d := by ring
  have hcomm : d * (n / d) = n / d * d := Nat.mul_comm _ _
  rw [hcomm] at hdm
  unfold F32.rne
  split_ifs with h1 h2 h3
  · refine ⟨by omega, by omega, fun h => by omega, fun h => by omega⟩
  · rw [hmul]
    refine ⟨by omega, by omega, fun h => by omega, fun h => by omega⟩
  · refine ⟨by omega, by omega, fun _ => h3, fun _ => h3⟩
  · rw [hmul]
    refine ⟨by omega, by omega, fun _ => by omega, fun _ => by omega⟩

theorem F32.rne_mono (n1 n2 d : Nat) (hd : 0 < d) (h : n1 ≤ n2) :
    F32.rne n1 d ≤ F32.rne n2 d := by
  obtain ⟨a1, a2, a3, a4⟩ := F32.rne_spec n1 d hd
  obtain ⟨b1, b2, b3, b4⟩ := F32.rne_spec n2 d hd
  by_contra hlt
  have hlt' : F32.rne n2 d + 1 ≤ F32.rne n1 d := by omega
  have hm : (F32.rne n2 d + 1) * d ≤ F32.rne n1 d * d := Nat.mul_le_mul_right d hlt'
  have hmul : (F32.rne n2 d + 1) * d = F32.rne n2 d * d + d := by ring
  rw [hmul] at hm
  -- all the inequalities are tight: a tie rounded in both directions
  have e1 : 2 * (F32.rne n1 d * d) = 2 * n1 + d := by omega
  have e2 : 2 * n2 = 2 * (F32.rne n2 d * d) + d := by omega
  have p1 := a3 e1
  have p2 := b4 e2
  have e3 : F32.rne n1 d * d = (F32.rne n2 d + 1) * d := by
    rw [hmul]; omega
  have e4 : F32.rne n1 d = F32.rne n2 d + 1 := Nat.eq_of_mul_eq_mul_right hd e3
  omega

theorem F32.rne_exact (m d : Nat) (hd : 0 < d) : F32.rne (m * d) d = m := by
  unfold F32.rne
  have h1 : m * d % d = 0 := Nat.mul_mod_left m d
  have h2 : m * d / d = m := Nat.mul_div_cancel m hd
  rw [h1, h2]
  simp [hd]

theorem F32.rne_scale (n d c : Nat) (hc : 0 < c) :
    F32.rne (n * c) (d * c) = F32.rne n d := by
  unfold F32.rne
  have h1 : n * c % (d * c) = n % d * c := Nat.mul_mod_mul_right c n d
  have h2 : n * c / (d * c) = n / d := Nat.mul_div_mul_right n d hc
  rw [h1, h2]
  have e1 : (2 * (n % d * c) < d * c) ↔ (2 * (n % d) < d) := by
    rw [← Nat.mul_assoc]
    exact Nat.mul_lt_mul_right hc
  have e2 : (d * c < 2 * (n % d * c)) ↔ (d < 2 * (n % d)) := by
    rw [← Nat.mul_assoc]
    exact Nat.mul_lt_mul_right hc
  simp only [e1, e2]

theorem F32.le_rne (m n d : Nat) (hd : 0 < d) (h : m * d ≤ n) : m ≤ F32.rne n d := by
  have := F32.rne_mono (m * d) n d hd h
  rwa [F32.rne_exact m d hd] at this

theorem F32.rne_le (m n d : Nat) (hd : 0 < d) (h : n ≤ m * d) : F32.rne n d ≤ m := by
  have := F32.rne_mono n (m * d) d hd h
  rwa [F32.rne_exact m d hd] at this

/-! ## Rounding of magnitudes -/

theorem F32.round_mag_mono (n1 n2 d : Nat) (hd : 0 < d) (h : n1 ≤ n2) :
    F32.round_mag n1 d ≤ F32.round_mag n2 d := by
  unfold F32.round_mag
  have hq := F32.quantum_mono n1 n2 d 253 h
  generalize hq1 : F32.quantum n1 d 253 = q1 at hq
  generalize hq2 : F32.quantum n2 d 253 = q2 at hq
  apply min_le_min_right
  rcases Nat.eq_or_lt_of_le hq with he | hlt
  · subst he
    exact Nat.mul_le_mul_right _ (F32.rne_mono n1 n2 _ (by positivity) h)
  · have hle2 : q2 ≤ 253 := hq2 ▸ F32.quantum_le n2 d 253
    have hu : n1 < 2 ^ (24 + q1) * d := hq1 ▸ F32.quantum_upper n1 d 253 (by omega)
    have hl : 2 ^ (23 + q2) * d ≤ n2 := hq2 ▸ F32.quantum_lower n2 d 253 (by omega)
    have f1 : F32.rne n1 (d * 2 ^ q1) ≤ 2 ^ 24 := by
      apply F32.rne_le _ _ _ (by positivity)
      have : 2 ^ (24 + q1) * d = 2 ^ 24 * (d * 2 ^ q1) := by rw [pow_add]; ring
      omega
    have f2 : 2 ^ 23 ≤ F32.rne n2 (d * 2 ^ q2) := by
      apply F32.le_rne _ _ _ (by positivity)
      have : 2 ^ (23 + q2) * d = 2 ^ 23 * (d * 2 ^ q2) := by rw [pow_add]; ring
      omega
    calc F32.rne n1 (d * 2 ^ q1) * 2 ^ q1 ≤ 2 ^ 24 * 2 ^ q1 := Nat.mul_le_mul_right _ f1
      _ = 2 ^ (24 + q1) := by rw [pow_add]
      _ ≤ 2 ^ (23 + q2) := Nat.pow_le_pow_right (by decide) (by omega)
      _ = 2 ^ 23 * 2 ^ q2 := by rw [pow_add]
      _ ≤ F32.rne n2 (d * 2 ^ q2) * 2 ^ q2 := Nat.mul_le_mul_right _ f2

theorem F32.round_mag_le_inf (n d : Nat) : F32.round_mag n d ≤ 2 ^ 277 :=
  min_le_right _ _

/-- Rounding leaves a representable magnitude unchanged. -/
theorem F32.round_mag_exact (m d : Nat) (hd : 0 < d) (hm : F32.representable m) :
    F32.round_mag (m * d) d = m := by
  rcases hm with rfl | ⟨q, M, hq, hM, hnorm, rfl⟩
  · have hquant : F32.quantum (2 ^ 277 * d) d 253 = 253 := by
      apply F32.quantum_eq _ _ _ _ le_rfl
      · intro _
        have : (2 : Nat) ^ (23 + 253) ≤ 2 ^ 277 := Nat.pow_le_pow_right (by decide) (by decide)
        exact Nat.mul_le_mul_right d this
      · intro h; exact absurd h (lt_irrefl _)
    unfold F32.round_mag
    rw [hquant]
    have e : 2 ^ 277 * d = 2 ^ 24 * (d * 2 ^ 253) := by
      have : (2 : Nat) ^ 277 = 2 ^ 24 * 2 ^ 253 := by rw [← pow_add]
      rw [this]; ring
    rw [e, F32.rne_exact _ _ (by positivity), ← pow_add]
    simp
  · have hquant : F32.quantum (M * 2 ^ q * d) d 253 = q := by
      apply F32.quantum_eq _ _ _ _ hq
      · intro hq0
        have h23 := hnorm hq0
        calc 2 ^ (23 + q) * d = 2 ^ 23 * 2 ^ q * d := by rw [pow_add]
          _ ≤ M * 2 ^ q * d := Nat.mul_le_mul_right d (Nat.mul_le_mul_right _ h23)
      · intro _
        calc M * 2 ^ q * d < 2 ^ 24 * 2 ^ q * d := by
              apply Nat.mul_lt_mul_of_pos_right _ hd
              exact Nat.mul_lt_mul_of_pos_right hM (by positivity)
          _ = 2 ^ (24 + q) * d := by rw [pow_add]
    unfold F32.round_mag
    rw [hquant]
    have e : M * 2 ^ q * d = M * (d * 2 ^ q) := by ring
    rw [e, F32.rne_exact _ _ (by positivity)]
    apply min_eq_left
    calc M * 2 ^ q ≤ 2 ^ 24 * 2 ^ 253 :=
          Nat.mul_le_mul (Nat.le_of_lt hM) (Nat.pow_le_pow_right (by decide) hq)
      _ = 2 ^ 277 := by rw [← pow_add]

/-- Rounding yields a representable magnitude. -/
theorem F32.round_mag_representable (n d : Nat) (hd : 0 < d) :
    F32.representable (F32.round_mag n d) := by
  unfold F32.round_mag
  have hq := F32.quantum_le n d 253
  have hlo := F32.quantum_lower n d 253
  have hhi := F32.quantum_upper n d 253
  generalize F32.quantum n d 253 = q at hq hlo hhi
  rcases Nat.lt_or_ge (F32.rne n (d * 2 ^ q) * 2 ^ q) (2 ^ 277) with hlt | hge
  · rw [min_eq_left (Nat.le_of_lt hlt)]
    have f2 : q ≠ 0 → 2 ^ 23 ≤ F32.rne n (d * 2 ^ q) := by
      intro hq0
      apply F32.le_rne _ _ _ (by positivity)
      have : 2 ^ (23 + q) * d = 2 ^ 23 * (d * 2 ^ q) := by rw [pow_add]; ring
      have := hlo hq0
      omega
    have f1 : F32.rne n (d * 2 ^ q) ≤ 2 ^ 24 := by
      rcases Nat.lt_or_ge q 253 with hq' | hq'
      · apply F32.rne_le _ _ _ (by positivity)
        have : 2 ^ (24 + q) * d = 2 ^ 24 * (d * 2 ^ q) := by rw [pow_add]; ring
        have := hhi hq'
        omega
      · have hq253 : q = 253 := le_antisymm hq hq'
        subst hq253
        by_contra hcon
        have : 2 ^ 24 * 2 ^ 253 ≤ F32.rne n (d * 2 ^ 253) * 2 ^ 253 :=
          Nat.mul_le_mul_right _ (by omega)
        have e : (2 : Nat) ^ 24 * 2 ^ 253 = 2 ^ 277 := by rw [← pow_add]
        omega
    rcases Nat.lt_or_ge (F32.rne n (d * 2 ^ q)) (2 ^ 24) with hf | hf
    · exact Or.inr ⟨q, _, hq, hf, f2, rfl⟩
    · have hfe : F32.rne n (d * 2 ^ q) = 2 ^ 24 := le_antisymm f1 hf
      rw [hfe] at hlt ⊢
      have hq' : q < 253 := by
        by_contra hcon
        have hq253 : q = 253 := by omega
        subst hq253
        have e : (2 : Nat) ^ 24 * 2 ^ 253 = 2 ^ 277 := by rw [← pow_add]
        omega
      refine Or.inr ⟨q + 1, 2 ^ 23, by omega, by decide, fun _ => le_rfl, ?_⟩
      rw [← pow_add, ← pow_add]
      congr 1
      omega
  · rw [min_eq_right hge]
    exact Or.inl rfl

/-! ## Floats and their magnitudes -/

theorem F32.eq_of_fields {x y : F32} (hs : x.sign = y.sign) (he : x.exponent = y.exponent)
    (hm : x.mantissa = y.mantissa) : x = y := by
  cases x
  cases y
  simp only at hs he hm
  subst hs he hm
  rfl

theorem F32.two_pow_23_lt_inf : (2 : Nat) ^ 23 < 2 ^ 277 :=
  Nat.pow_lt_pow_right (by decide) (by decide)

theorem F32.ofMagnitude_small (s : Bool) (m : Nat) (h : m < 2 ^ 23) :
    (F32.ofMagnitude s m).exponent = 0 ∧ (F32.ofMagnitude s m).mantissa = m := by
  unfold F32.ofMagnitude
  rw [if_pos h]
  exact ⟨rfl, Nat.mod_eq_of_lt h⟩

theorem F32.ofMagnitude_inf (s : Bool) (m : Nat) (h : 2 ^ 277 ≤ m) :
    (F32.ofMagnitude s m).exponent = 255 ∧ (F32.ofMagnitude s m).mantissa = 0 := by
  have h1 : ¬ m < 2 ^ 23 := by
    have := F32.two_pow_23_lt_inf
    omega
  unfold F32.ofMagnitude
  rw [if_neg h1, if_pos h]
  exact ⟨rfl, rfl⟩

theorem F32.ofMagnitude_normal (s : Bool) (m : Nat) (h1 : 2 ^ 23 ≤ m) (h2 : m < 2 ^ 277) :
    (F32.ofMagnitude s m).exponent = min (F32.quantum m 1 253 + 1) 254
    ∧ (F32.ofMagnitude s m).mantissa = m / 2 ^ F32.quantum m 1 253 % 2 ^ 23 := by
  unfold F32.ofMagnitude
  rw [if_neg (Nat.not_lt.2 h1), if_neg (Nat.not_le.2 h2)]
  exact ⟨rfl, rfl⟩

theorem F32.isNaN_ofMagnitude (s : Bool) (m : Nat) : (F32.ofMagnitude s m).isNaN = false := by
  have key : (F32.ofMagnitude s m).exponent ≠ 255 ∨ (F32.ofMagnitude s m).mantissa = 0 := by
    rcases Nat.lt_or_ge m (2 ^ 23) with h | h
    · left
      rw [(F32.ofMagnitude_small s m h).1]
      decide
    · rcases Nat.lt_or_ge m (2 ^ 277) with h2 | h2
      · left
        rw [(F32.ofMagnitude_normal s m h h2).1]
        have := Nat.min_le_right (F32.quantum m 1 253 + 1) 254
        omega
      · right
        exact (F32.ofMagnitude_inf s m h2).2
  unfold F32.isNaN
  rcases key with h | h
  · have : ((F32.ofMagnitude s m).exponent == 255) = false := beq_false_of_ne h
    rw [this]
    rfl
  · rw [h]
    simp

theorem F32.sign_ofMagnitude (s : Bool) (m : Nat) : (F32.ofMagnitude s m).sign = s := by
  unfold F32.ofMagnitude
  split_ifs <;> rfl

theorem F32.magnitude_subnormal (x : F32) (h : x.exponent = 0) : x.magnitude = x.mantissa := by
  unfold F32.magnitude
  rw [if_pos h, h]
  simp

theorem F32.magnitude_normal (x : F32) (h : x.exponent ≠ 0) :
    x.magnitude = (2 ^ 23 + x.mantissa) * 2 ^ (x.exponent - 1) := by
  unfold F32.magnitude
  rw [if_neg h]
  have : max x.exponent 1 - 1 = x.exponent - 1 := by omega
  rw [this]

theorem F32.mantissa_of_inf (x : F32) (hx : x.isNaN = false) (h : x.exponent = 255) :
    x.mantissa = 0 := by
  simp only [F32.isNaN, h, beq_self_eq_true, Bool.true_and, bne_eq_false_iff_eq] at hx
  exact hx

/-- The magnitude of a non-NaN float is representable. -/
theorem F32.representable_magnitude (x : F32) (hx : x.isNaN = false) :
    F32.representable x.magnitude := by
  have hm := x.mantissa_lt
  have he := x.exponent_lt
  by_cases h0 : x.exponent = 0
  · refine Or.inr ⟨0, x.mantissa, by decide, by omega, fun h => absurd rfl h, ?_⟩
    rw [F32.magnitude_subnormal x h0]
    simp
  · by_cases h255 : x.exponent = 255
    · have hm0 := F32.mantissa_of_inf x hx h255
      refine Or.inl ?_
      rw [F32.magnitude_normal x h0, hm0, h255, Nat.add_zero, ← pow_add]
    · refine Or.inr ⟨x.exponent - 1, 2 ^ 23 + x.mantissa, by omega, by omega,
        fun _ => Nat.le_add_right _ _, ?_⟩
      exact F32.magnitude_normal x h0

theorem F32.representable_lt_inf {q M : Nat} (hq : q ≤ 253) (hM : M < 2 ^ 24) :
    M * 2 ^ q < 2 ^ 277 := by
  calc M * 2 ^ q < 2 ^ 24 * 2 ^ q := Nat.mul_lt_mul_of_pos_right hM (by positivity)
    _ ≤ 2 ^ 24 * 2 ^ 253 := Nat.mul_le_mul_left _ (Nat.pow_le_pow_right (by decide) hq)
    _ = 2 ^ 277 := by rw [← pow_add]

theorem F32.quantum_normalised {q M : Nat} (hq : q ≤ 253) (hM : M < 2 ^ 24)
    (h23 : 2 ^ 23 ≤ M) : F32.quantum (M * 2 ^ q) 1 253 = q := by
  apply F32.quantum_eq _ _ _ _ hq
  · intro _
    calc 2 ^ (23 + q) * 1 = 2 ^ 23 * 2 ^ q := by rw [pow_add, Nat.mul_one]
      _ ≤ M * 2 ^ q := Nat.mul_le_mul_right _ h23
  · intro _
    calc M * 2 ^ q < 2 ^ 24 * 2 ^ q := Nat.mul_lt_mul_of_pos_right hM (by positivity)
      _ = 2 ^ (24 + q) * 1 := by rw [pow_add, Nat.mul_one]

/-- Decoding a representable magnitude gives a float of that magnitude. -/
theorem F32.magnitude_ofMagnitude (s : Bool) (m : Nat) (hm : F32.representable m) :
    (F32.ofMagnitude s m).magnitude = m := by
  rcases hm with rfl | ⟨q, M, hq, hM, hnorm, rfl⟩
  · obtain ⟨he, hma⟩ := F32.ofMagnitude_inf s (2 ^ 277) le_rfl
    rw [F32.magnitude_normal _ (by rw [he]; decide), he, hma, Nat.add_zero, ← pow_add]
  · have hlt277 := F32.representable_lt_inf hq hM
    by_cases hsub : M * 2 ^ q < 2 ^ 23
    · obtain ⟨he, hma⟩ := F32.ofMagnitude_small s _ hsub
      rw [F32.magnitude_subnormal _ he, hma]
    · have h23 : 2 ^ 23 ≤ M := by
        by_cases hq0 : q = 0
        · subst hq0
          simp only [pow_zero, Nat.mul_one] at hsub
          omega
        · exact hnorm hq0
      have hquant := F32.quantum_normalised hq hM h23
      obtain ⟨he, hma⟩ := F32.ofMagnitude_normal s _ (Nat.not_lt.1 hsub) hlt277
      rw [hquant] at he hma
      have hexp : min (q + 1) 254 = q + 1 := min_eq_left (by omega)
      rw [hexp] at he
      rw [Nat.mul_div_cancel M (by positivity)] at hma
      have hmod : M % 2 ^ 23 = M - 2 ^ 23 := by
        rw [Nat.mod_eq_sub_mod h23]
        exact Nat.mod_eq_of_lt (by omega)
      rw [hmod] at hma
      rw [F32.magnitude_normal _ (by rw [he]; omega), he, hma]
      have : 2 ^ 23 + (M - 2 ^ 23) = M := by omega
      rw [this, Nat.add_sub_cancel]

/-- Encoding the sign and magnitude of a non-NaN float gives it back. -/
theorem F32.ofMagnitude_magnitude (x : F32) (hx : x.isNaN = false) :
    F32.ofMagnitude x.sign x.magnitude = x := by
  have hm := x.mantissa_lt
  have he := x.exponent_lt
  by_cases h0 : x.exponent = 0
  · have hmag := F32.magnitude_subnormal x h0
    obtain ⟨e1, e2⟩ := F32.ofMagnitude_small x.sign x.magnitude (by rw [hmag]; exact hm)
    exact F32.eq_of_fields (F32.sign_ofMagnitude _ _) (by rw [e1, h0]) (by rw [e2, hmag])
  · by_cases h255 : x.exponent = 255
    · have hm0 := F32.mantissa_of_inf x hx h255
      have hmag : x.magnitude = 2 ^ 277 := by
        rw [F32.magnitude_normal x h0, hm0, h255, Nat.add_zero, ← pow_add]
      obtain ⟨e1, e2⟩ := F32.ofMagnitude_inf x.sign x.magnitude (by rw [hmag])
      exact F32.eq_of_fields (F32.sign_ofMagnitude _ _) (by rw [e1, h255]) (by rw [e2, hm0])
    · have hmag := F32.magnitude_normal x h0
      have hM : 2 ^ 23 + x.mantissa < 2 ^ 24 := by omega
      have hq : x.exponent - 1 ≤ 253 := by omega
      have hquant := F32.quantum_normalised hq hM (Nat.le_add_right _ _)
      have hlt := F32.representable_lt_inf hq hM
      have hge : 2 ^ 23 ≤ (2 ^ 23 + x.mantissa) * 2 ^ (x.exponent - 1) := by
        calc 2 ^ 23 = 2 ^ 23 * 1 := (Nat.mul_one _).symm
          _ ≤ (2 ^ 23 + x.mantissa) * 2 ^ (x.exponent - 1) :=
              Nat.mul_le_mul (Nat.le_add_right _ _) Nat.one_le_two_pow
      rw [← hmag] at hquant hlt hge
      obtain ⟨e1, e2⟩ := F32.ofMagnitude_normal x.sign x.magnitude hge hlt
      rw [hquant] at e1 e2
      apply F32.eq_of_fields (F32.sign_ofMagnitude _ _)
      · rw [e1]
        have : x.exponent - 1 + 1 = x.exponent := by omega
        rw [this]
        exact min_eq_left (by omega)
      · rw [e2, hmag, Nat.mul_div_cancel _ (by positivity), Nat.add_mod_left]
        exact Nat.mod_eq_of_lt hm

/-! ## Keys of finite values -/

theorem F32.isNaN_of_isFinite {x : F32} (h : x.isFinite = true) : x.isNaN = false := by
  simp only [F32.isFinite, decide_eq_true_eq] at h
  have : (x.exponent == 255) = false := beq_false_of_ne (by omega)
  simp [F32.isNaN, this]

theorem F32.isInf_of_isFinite {x : F32} (h : x.isFinite = true) : x.isInf = false := by
  simp only [F32.isFinite, decide_eq_true_eq] at h
  have : (x.exponent == 255) = false := beq_false_of_ne (by omega)
  simp [F32.isInf, this]

theorem F32.magnitude_lt_of_isFinite {x : F32} (h : x.isFinite = true) :
    x.magnitude < 2 ^ 277 := by
  simp only [F32.isFinite, decide_eq_true_eq] at h
  have hm := x.mantissa_lt
  by_cases h0 : x.exponent = 0
  · rw [F32.magnitude_subnormal x h0]
    have := F32.two_pow_23_lt_inf
    omega
  · rw [F32.magnitude_normal x h0]
    exact F32.representable_lt_inf (by omega) (by omega)

theorem F32.isFinite_of_magnitude_lt {x : F32} (h : x.magnitude < 2 ^ 277) :
    x.isFinite = true := by
  simp only [F32.isFinite, decide_eq_true_eq]
  by_contra hcon
  have he := x.exponent_lt
  have h255 : x.exponent = 255 := by omega
  rw [F32.magnitude_normal x (by omega), h255] at h
  have : 2 ^ 23 * 2 ^ 254 ≤ (2 ^ 23 + x.mantissa) * 2 ^ (255 - 1) :=
    Nat.mul_le_mul_right _ (Nat.le_add_right _ _)
  have e : (2 : Nat) ^ 23 * 2 ^ 254 = 2 ^ 277 := by rw [← pow_add]
  omega

theorem F32.magnitude_le_inf {x : F32} (hx : x.isNaN = false) : x.magnitude ≤ 2 ^ 277 := by
  rcases F32.representable_magnitude x hx with h | ⟨q, M, hq, hM, _, h⟩
  · exact le_of_eq h
  · rw [h]
    exact Nat.le_of_lt (F32.representable_lt_inf hq hM)

theorem F32.natAbs_key (x : F32) : x.key.natAbs = x.magnitude := by
  unfold F32.key
  split_ifs <;> simp

theorem F32.key_of_sign_false {x : F32} (h : x.sign = false) : x.key = (x.magnitude : Int) := by
  unfold F32.key
  rw [h]
  rfl

theorem F32.key_of_sign_true {x : F32} (h : x.sign = true) : x.key = - (x.magnitude : Int) := by
  unfold F32.key
  rw [h]
  rfl

theorem F32.key_ofMagnitude (s : Bool) (m : Nat) (hm : F32.representable m) :
    (F32.ofMagnitude s m).key = if s then - (m : Int) else (m : Int) := by
  unfold F32.key
  rw [F32.sign_ofMagnitude, F32.magnitude_ofMagnitude s m hm]

theorem F32.representable_zero : F32.representable 0 :=
  Or.inr ⟨0, 0, by decide, by decide, fun h => absurd rfl h, by simp⟩

theorem F32.rne_zero (d : Nat) : F32.rne 0 d = 0 := by
  unfold F32.rne
  simp

theorem F32.round_mag_zero (d : Nat) : F32.round_mag 0 d = 0 := by
  unfold F32.round_mag
  rw [F32.rne_zero]
  simp

/-! ## Rounding of keys -/

theorem F32.round_key_zero (d : Nat) : F32.round_key 0 d = 0 := by
  simp [F32.round_key, F32.round_mag_zero d]

theorem F32.round_key_nonneg (s : Int) (d : Nat) (hs : 0 ≤ s) :
    F32.round_key s d = (F32.round_mag s.natAbs d : Int) := by
  unfold F32.round_key
  rw [if_neg (by omega)]

theorem F32.round_key_neg (s : Int) (d : Nat) :
    F32.round_key (-s) d = - F32.round_key s d := by
  unfold F32.round_key
  rcases lt_trichotomy s 0 with h | h | h
  · rw [if_neg (by omega), if_pos h, Int.natAbs_neg]
    simp
  · subst h
    simp [F32.round_mag_zero]
  · rw [if_pos (by omega), if_neg (by omega), Int.natAbs_neg]

theorem F32.round_key_mono (s1 s2 : Int) (d : Nat) (hd : 0 < d) (h : s1 ≤ s2) :
    F32.round_key s1 d ≤ F32.round_key s2 d := by
  unfold F32.round_key
  split_ifs with h1 h2 h2
  · have : s2.natAbs ≤ s1.natAbs := by omega
    have := F32.round_mag_mono _ _ d hd this
    omega
  · have a := Int.ofNat_nonneg (F32.round_mag s1.natAbs d)
    have b := Int.ofNat_nonneg (F32.round_mag s2.natAbs d)
    omega
  · omega
  · have : s1.natAbs ≤ s2.natAbs := by omega
    have := F32.round_mag_mono _ _ d hd this
    omega

/-- Rounding leaves the key of a non-NaN float unchanged. -/
theorem F32.round_key_exact (x : F32) (d : Nat) (hd : 0 < d) (hx : x.isNaN = false) :
    F32.round_key (x.key * d) d = x.key := by
  have hrep := F32.representable_magnitude x hx
  have hexact := F32.round_mag_exact x.magnitude d hd hrep
  have hd' : (0 : Int) < d := by exact_mod_cast hd
  cases hs : x.sign
  · rw [F32.key_of_sign_false hs]
    rw [F32.round_key_nonneg _ _ (by positivity)]
    have : ((x.magnitude : Int) * d).natAbs = x.magnitude * d := by
      rw [← Nat.cast_mul, Int.natAbs_ofNat]
    rw [this, hexact]
  · rw [F32.key_of_sign_true hs]
    have : - (x.magnitude : Int) * d = - ((x.magnitude : Int) * d) := by ring
    rw [this, F32.round_key_neg, F32.round_key_nonneg _ _ (by positivity)]
    have : ((x.magnitude : Int) * d).natAbs = x.magnitude * d := by
      rw [← Nat.cast_mul, Int.natAbs_ofNat]
    rw [this, hexact]

theorem F32.round_key_exact_one (x : F32) (hx : x.isNaN = false) :
    F32.round_key x.key 1 = x.key := by
  have := F32.round_key_exact x 1 (by decide) hx
  simpa using this

theorem F32.round_key_natAbs (s : Int) (d : Nat) :
    (F32.round_key s d).natAbs = F32.round_mag s.natAbs d := by
  unfold F32.round_key
  split_ifs <;> simp

/-! ## The arithmetic operations on finite values -/

theorem F32.isNaN_invalid : F32.invalid.isNaN = true := by decide

theorem F32.isSNaN_invalid : F32.invalid.isSNaN = false := by decide

theorem F32.key_neg (x : F32) : (F32.neg x).key = - x.key := by
  unfold F32.key F32.neg F32.magnitude
  cases x.sign <;> simp

theorem F32.isNaN_neg (x : F32) : (F32.neg x).isNaN = x.isNaN := rfl

theorem F32.isFinite_neg (x : F32) : (F32.neg x).isFinite = x.isFinite := rfl

theorem F32.isInf_neg (x : F32) : (F32.neg x).isInf = x.isInf := rfl

theorem F32.isFinite_fabsf (x : F32) : (F32.fabsf x).isFinite = x.isFinite := rfl

theorem F32.magnitude_fabsf (x : F32) : (F32.fabsf x).magnitude = x.magnitude := rfl

theorem F32.sign_fabsf (x : F32) : (F32.fabsf x).sign = false := rfl

theorem F32.key_fabsf (x : F32) : (F32.fabsf x).key = (x.magnitude : Int) :=
  F32.key_of_sign_false rfl

/-- Addition of finite values: the exact sum of the keys, rounded. -/
theorem F32.add_finite (a b : F32) (ha : a.isFinite = true) (hb : b.isFinite = true) :
    (F32.add a b).isNaN = false ∧ (F32.add a b).key = F32.round_key (a.key + b.key) 1 := by
  have ha1 := F32.isNaN_of_isFinite ha
  have hb1 := F32.isNaN_of_isFinite hb
  have ha2 := F32.isInf_of_isFinite ha
  have hb2 := F32.isInf_of_isFinite hb
  unfold F32.add
  simp only [ha1, hb1, ha2, hb2, Bool.or_self, Bool.false_eq_true, if_false]
  split_ifs with h0 
  · refine ⟨F32.isNaN_ofMagnitude _ _, ?_⟩
    rw [h0, F32.round_key_zero, F32.key_ofMagnitude _ _ F32.representable_zero]
    split_ifs <;> simp
  · refine ⟨F32.isNaN_ofMagnitude _ _, ?_⟩
    rw [F32.key_ofMagnitude _ _ (F32.round_mag_representable _ _ (by decide))]
    unfold F32.round_key
    by_cases hneg : a.key + b.key < 0
    · simp only [hneg, decide_True, if_true]
    · simp only [hneg, decide_False, if_false, Bool.false_eq_true]

/-- Subtraction of finite values: the exact difference of the keys, rounded. -/
theorem F32.sub_finite (a b : F32) (ha : a.isFinite = true) (hb : b.isFinite = true) :
    (F32.sub a b).isNaN = false ∧ (F32.sub a b).key = F32.round_key (a.key - b.key) 1 := by
  have h := F32.add_finite a (F32.neg b) ha (by rw [F32.isFinite_neg]; exact hb)
  rw [F32.key_neg] at h
  unfold F32.sub
  exact ⟨h.1, by rw [h.2]; rfl⟩

/-- The difference of a finite value with itself is `+0.0`. -/
theorem F32.sub_self (x : F32) (hx : x.isFinite = true) : F32.sub x x = lit_0_0f := by
  have hx1 := F32.isNaN_of_isFinite hx
  have hx2 := F32.isInf_of_isFinite hx
  have hn1 : (F32.neg x).isNaN = false := hx1
  have hn2 : (F32.neg x).isInf = false := hx2
  have hk : x.key + (F32.neg x).key = 0 := by rw [F32.key_neg]; omega
  have hs : (x.sign && (F32.neg x).sign) = false := by
    unfold F32.neg
    cases x.sign <;> rfl
  unfold F32.sub F32.add
  simp only [hx1, hn1, hx2, hn2, hk, hs, Bool.or_self, Bool.false_eq_true, if_false, if_true]
  decide

/-- Multiplication of finite values: the exact product of the keys (in units
of `2 ^ (-298)`), rounded. -/
theorem F32.mul_finite (a b : F32) (ha : a.isFinite = true) (hb : b.isFinite = true) :
    (F32.mul a b).isNaN = false
    ∧ (F32.mul a b).key = F32.round_key (a.key * b.key) (2 ^ 149) := by
  have ha1 := F32.isNaN_of_isFinite ha
  have hb1 := F32.isNaN_of_isFinite hb
  have ha2 := F32.isInf_of_isFinite ha
  have hb2 := F32.isInf_of_isFinite hb
  unfold F32.mul
  simp only [ha1, hb1, ha2, hb2, Bool.or_self, Bool.false_eq_true, if_false]
  refine ⟨F32.isNaN_ofMagnitude _ _, ?_⟩
  rw [F32.key_ofMagnitude _ _ (F32.round_mag_representable _ _ (by positivity))]
  have hna : (a.key * b.key).natAbs = a.magnitude * b.magnitude := by
    rw [Int.natAbs_mul, F32.natAbs_key, F32.natAbs_key]
  have ka : (0 : Int) ≤ a.magnitude := Int.ofNat_nonneg _
  have kb : (0 : Int) ≤ b.magnitude := Int.ofNat_nonneg _
  cases hsa : a.sign <;> cases hsb : b.sign
  · rw [F32.key_of_sign_false hsa, F32.key_of_sign_false hsb] at hna ⊢
    rw [F32.round_key_nonneg _ _ (by positivity), hna]
    rfl
  · rw [F32.key_of_sign_false hsa, F32.key_of_sign_true hsb] at hna ⊢
    have e : (a.magnitude : Int) * - (b.magnitude : Int)
        = - ((a.magnitude : Int) * (b.magnitude : Int)) := by ring
    rw [e, F32.round_key_neg, F32.round_key_nonneg _ _ (by positivity)]
    rw [e, Int.natAbs_neg] at hna
    rw [hna]
    rfl
  · rw [F32.key_of_sign_true hsa, F32.key_of_sign_false hsb] at hna ⊢
    have e : - (a.magnitude : Int) * (b.magnitude : Int)
        = - ((a.magnitude : Int) * (b.magnitude : Int)) := by ring
    rw [e, F32.round_key_neg, F32.round_key_nonneg _ _ (by positivity)]
    rw [e, Int.natAbs_neg] at hna
    rw [hna]
    rfl
  · rw [F32.key_of_sign_true hsa, F32.key_of_sign_true hsb] at hna ⊢
    have e : - (a.magnitude : Int) * - (b.magnitude : Int)
        = (a.magnitude : Int) * (b.magnitude : Int) := by ring
    rw [e, F32.round_key_nonneg _ _ (by positivity)]
    rw [e] at hna
    rw [hna]
    rfl

/-- Division of a finite value by a finite positive value: the exact quotient
of the keys, rounded. -/
theorem F32.div_finite_pos (a b : F32) (ha : a.isFinite = true) (hb : b.isFinite = true)
    (hsb : b.sign = false) (hb0 : b.magnitude ≠ 0) :
    (F32.div a b).isNaN = false
    ∧ (F32.div a b).key = F32.round_key (a.key * 2 ^ 149) b.magnitude := by
  have ha1 := F32.isNaN_of_isFinite ha
  have hb1 := F32.isNaN_of_isFinite hb
  have ha2 := F32.isInf_of_isFinite ha
  have hb2 := F32.isInf_of_isFinite hb
  unfold F32.div
  simp only [ha1, hb1, ha2, hb2, hb0, hsb, Bool.or_self, Bool.false_eq_true, if_false]
  refine ⟨F32.isNaN_ofMagnitude _ _, ?_⟩
  rw [F32.key_ofMagnitude _ _ (F32.round_mag_representable _ _ (Nat.pos_of_ne_zero hb0))]
  have h2 : ((a.magnitude : Int) * 2 ^ 149).natAbs = a.magnitude * 2 ^ 149 := by
    have : ((a.magnitude : Int) * 2 ^ 149) = ((a.magnitude * 2 ^ 149 : Nat) : Int) := by
      push_cast; rfl
    rw [this, Int.natAbs_ofNat]
  have hnn : (0 : Int) ≤ (a.magnitude : Int) * 2 ^ 149 :=
    Int.mul_nonneg (Int.ofNat_nonneg _) (pow_nonneg (by decide) _)
  cases hsa : a.sign
  · rw [F32.key_of_sign_false hsa, F32.round_key_nonneg _ _ hnn, h2]
    rfl
  · rw [F32.key_of_sign_true hsa]
    have e : - (a.magnitude : Int) * 2 ^ 149 = - ((a.magnitude : Int) * 2 ^ 149) := by ring
    rw [e, F32.round_key_neg, F32.round_key_nonneg _ _ hnn, h2]
    rfl

/-! ## Further facts about the operations -/

theorem F32.isFinite_or_isInf {x : F32} (hx : x.isNaN = false) :
    x.isFinite = true ∨ x.isInf = true := by
  by_cases h : x.exponent = 255
  · right
    have := F32.mantissa_of_inf x hx h
    simp [F32.isInf, h, this]
  · left
    have := x.exponent_lt
    simp only [F32.isFinite, decide_eq_true_eq]
    omega

theorem F32.isNaN_of_isInf {x : F32} (h : x.isInf = true) : x.isNaN = false := by
  simp only [F32.isInf, Bool.and_eq_true, beq_iff_eq] at h
  simp [F32.isNaN, h.1, h.2]

theorem F32.magnitude_of_isInf {x : F32} (h : x.isInf = true) : x.magnitude = 2 ^ 277 := by
  simp only [F32.isInf, Bool.and_eq_true, beq_iff_eq] at h
  rw [F32.magnitude_normal x (by rw [h.1]; decide), h.1, h.2, Nat.add_zero, ← pow_add]

theorem F32.isFinite_zero_magnitude {x : F32} (h : x.magnitude = 0) : x.isFinite = true :=
  F32.isFinite_of_magnitude_lt (by rw [h]; positivity)

/-- Finite values are those with a key strictly between the infinities. -/
theorem F32.isFinite_of_key_bounds {x : F32} (h1 : - (2 : Int) ^ 277 < x.key)
    (h2 : x.key < 2 ^ 277) : x.isFinite = true := by
  apply F32.isFinite_of_magnitude_lt
  have h := F32.natAbs_key x
  have : (x.magnitude : Int) < 2 ^ 277 := by
    rw [← h]
    rw [Int.natCast_natAbs]
    exact abs_lt.2 ⟨h1, h2⟩
  exact_mod_cast this

theorem F32.key_bounds_of_isFinite {x : F32} (h : x.isFinite = true) :
    - (2 : Int) ^ 277 < x.key ∧ x.key < 2 ^ 277 := by
  have hm := F32.magnitude_lt_of_isFinite h
  have hm' : (x.magnitude : Int) < 2 ^ 277 := by exact_mod_cast hm
  have h0 : (0 : Int) ≤ x.magnitude := Int.ofNat_nonneg _
  unfold F32.key
  split_ifs <;> constructor <;> omega

/-- Dividing by `1.0f` returns the dividend. -/
theorem F32.div_one (x : F32) (hx : x.isNaN = false) : F32.div x lit_1_0f = x := by
  have h1 : lit_1_0f.isNaN = false := by decide
  have h2 : lit_1_0f.isInf = false := by decide
  have h3 : lit_1_0f.magnitude = 2 ^ 149 := by decide
  have h4 : lit_1_0f.sign = false := by decide
  have h5 : ¬ (2 ^ 149 = 0) := by positivity
  have hs : (x.sign != false) = x.sign := by cases x.sign <;> rfl
  unfold F32.div
  simp only [hx, h1, h2, h3, h4, h5, hs, Bool.or_self, Bool.false_eq_true, if_false]
  split_ifs with hinf
  · have := F32.magnitude_of_isInf hinf
    rw [← this]
    exact F32.ofMagnitude_magnitude x hx
  · rw [F32.round_mag_exact _ _ (by positivity) (F32.representable_magnitude x hx)]
    exact F32.ofMagnitude_magnitude x hx

theorem F32.div_invalid_one : F32.div F32.invalid lit_1_0f = F32.invalid := by decide

/-- The result of an addition is never a signaling NaN, and is the default
NaN when it is a NaN. -/
theorem F32.add_eq_invalid_of_isNaN (a b : F32) (h : (F32.add a b).isNaN = true) :
    F32.add a b = F32.invalid := by
  unfold F32.add at h ⊢
  split_ifs at h ⊢ with h1 h2 h3 h4 h5
  · rfl
  · rfl
  · rw [F32.isNaN_of_isInf h2] at h
    exact absurd h (by decide)
  · rw [F32.isNaN_of_isInf h4] at h
    exact absurd h (by decide)
  · rw [F32.isNaN_ofMagnitude] at h
    exact absurd h (by decide)
  · rw [F32.isNaN_ofMagnitude] at h
    exact absurd h (by decide)

theorem F32.div_add_one (a b : F32) : F32.div (F32.add a b) lit_1_0f = F32.add a b := by
  cases h : (F32.add a b).isNaN
  · exact F32.div_one _ h
  · rw [F32.add_eq_invalid_of_isNaN a b h]
    exact F32.div_invalid_one

theorem F32.isSNaN_add (a b : F32) : (F32.add a b).isSNaN = false := by
  cases h : (F32.add a b).isNaN
  · simp [F32.isSNaN, h]
  · rw [F32.add_eq_invalid_of_isNaN a b h]
    exact F32.isSNaN_invalid

/-- The function `fmaxf(0.0f, y)` for a `y` that is not a signaling NaN. -/
theorem F32.fmaxf_zero (y : F32) (hy : y.isSNaN = false) :
    F32.fmaxf lit_0_0f y
      = if y.isNaN then lit_0_0f else if F32.lt lit_0_0f y then y else lit_0_0f := by
  have h1 : lit_0_0f.isSNaN = false := by decide
  have h2 : lit_0_0f.isNaN = false := by decide
  unfold F32.fmaxf
  simp only [h1, hy, h2, Bool.or_self, Bool.false_eq_true, if_false]

theorem F32.sign_invalid : F32.invalid.sign = false := by decide

/-- The quotient of two values with a clear sign bit has a clear sign bit. -/
theorem F32.sign_div (a b : F32) (ha : a.sign = false) (hb : b.sign = false) :
    (F32.div a b).sign = false := by
  unfold F32.div
  rw [ha, hb]
  split_ifs <;> first | exact F32.sign_invalid | exact F32.sign_ofMagnitude _ _

theorem F32.mul_comm (a b : F32) : F32.mul a b = F32.mul b a := by
  unfold F32.mul
  have e1 : (a.isNaN || b.isNaN) = (b.isNaN || a.isNaN) := Bool.or_comm _ _
  have e2 : (a.isInf || b.isInf) = (b.isInf || a.isInf) := Bool.or_comm _ _
  have e3 : (a.sign != b.sign) = (b.sign != a.sign) := by
    cases a.sign <;> cases b.sign <;> rfl
  have e4 : a.magnitude * b.magnitude = b.magnitude * a.magnitude := Nat.mul_comm _ _
  have e5 : (a.magnitude = 0 ∨ b.magnitude = 0) ↔ (b.magnitude = 0 ∨ a.magnitude = 0) :=
    Or.comm
  rw [e1, e2, e3, e4]
  simp only [e5]

theorem F32.key_one : lit_1_0f.key = 2 ^ 149 := by
  have hm : lit_1_0f.magnitude = 2 ^ 149 := by decide
  have hk := F32.key_of_sign_false (x := lit_1_0f) rfl
  rw [hm] at hk
  rw [hk]
  norm_cast

/-- Subtracting a value with a clear sign bit from `1.0f` gives at most
`1.0f`. -/
theorem F32.sub_one_le (z : F32) (hz : z.sign = false)
    (hy : (F32.sub lit_1_0f z).isNaN = false) : (F32.sub lit_1_0f z).key ≤ 2 ^ 149 := by
  have hone : lit_1_0f.isFinite = true := by decide
  have hkone : lit_1_0f.key = 2 ^ 149 := F32.key_one
  have hzn : z.isNaN = false := by
    by_contra hcon
    have hcon' : z.isNaN = true := by simpa using hcon
    have : (F32.sub lit_1_0f z).isNaN = true := by
      unfold F32.sub F32.add
      rw [F32.isNaN_neg, hcon']
      simp only [Bool.or_true, if_true]
      exact F32.isNaN_invalid
    rw [this] at hy
    exact absurd hy (by decide)
  rcases F32.isFinite_or_isInf hzn with hf | hi
  · have h := F32.sub_finite lit_1_0f z hone hf
    rw [h.2, hkone]
    have hz0 : 0 ≤ z.key := by
      rw [F32.key_of_sign_false hz]
      exact Int.ofNat_nonneg _
    have := F32.round_key_mono (2 ^ 149 - z.key) (2 ^ 149) 1 (by decide) (by omega)
    have e := F32.round_key_exact_one lit_1_0f (by decide)
    rw [hkone] at e
    rw [e] at this
    exact this
  · have hni : (F32.neg z).isInf = true := hi
    have h1n : lit_1_0f.isNaN = false := by decide
    have h1i : lit_1_0f.isInf = false := by decide
    have e : F32.sub lit_1_0f z = F32.neg z := by
      unfold F32.sub F32.add
      simp only [h1n, h1i, F32.isNaN_neg, hzn, hni, Bool.or_self, Bool.false_eq_true,
        if_false, if_true]
    rw [e, F32.key_neg, F32.key_of_sign_false hz]
    have : (0 : Int) ≤ z.magnitude := Int.ofNat_nonneg _
    have : (0 : Int) ≤ 2 ^ 149 := by positivity
    omega

/-! ## Bounds through the operations -/

/-- Every 24-bit significand times a power of two up to `2 ^ 253` is a
representable magnitude (normalised or not). -/
theorem F32.representable_mul_pow (q M : Nat) (hq : q ≤ 253) (hM : M < 2 ^ 24) :
    F32.representable (M * 2 ^ q) := by
  induction q generalizing M with
  | zero => exact Or.inr ⟨0, M, by decide, hM, fun h => absurd rfl h, rfl⟩
  | succ q ih =>
    by_cases h23 : 2 ^ 23 ≤ M
    · exact Or.inr ⟨q + 1, M, hq, hM, fun _ => h23, rfl⟩
    · have h2M : 2 * M < 2 ^ 24 := by omega
      have := ih (2 * M) (by omega) h2M
      have e : M * 2 ^ (q + 1) = 2 * M * 2 ^ q := by rw [pow_succ]; ring
      rw [e]
      exact this

theorem F32.representable_pow (j : Nat) (hj : j ≤ 276) : F32.representable (2 ^ j) := by
  by_cases h : j ≤ 23
  · have : (2 : Nat) ^ j ≤ 2 ^ 23 := Nat.pow_le_pow_right (by decide) h
    have := F32.representable_mul_pow 0 (2 ^ j) (by decide) (by omega)
    simpa using this
  · have := F32.representable_mul_pow (j - 23) (2 ^ 23) (by omega) (by decide)
    rw [← pow_add] at this
    have e : 23 + (j - 23) = j := by omega
    rw [e] at this
    exact this

theorem F32.round_key_natCast (n d : Nat) :
    F32.round_key (n : Int) d = (F32.round_mag n d : Int) := by
  rw [F32.round_key_nonneg _ _ (Int.ofNat_nonneg n), Int.natAbs_ofNat]

/-- Rounding leaves the key of a representable magnitude unchanged. -/
theorem F32.round_key_representable (m : Nat) (hm : F32.representable m) :
    F32.round_key (m : Int) 1 = (m : Int) := by
  rw [F32.round_key_natCast]
  have := F32.round_mag_exact m 1 (by decide) hm
  rw [Nat.mul_one] at this
  rw [this]

theorem F32.round_key_pow (j : Nat) (hj : j ≤ 276) :
    F32.round_key ((2 : Int) ^ j) 1 = 2 ^ j := by
  have := F32.round_key_representable (2 ^ j) (F32.representable_pow j hj)
  push_cast at this
  exact this

theorem F32.two_pow_lt_inf (j : Nat) (hj : j ≤ 276) : (2 : Int) ^ j < 2 ^ 277 := by
  have : (2 : Nat) ^ j < 2 ^ 277 := Nat.pow_lt_pow_right (by decide) (by omega)
  exact_mod_cast this

/-- A step of the accumulation: adding a non-negative finite term to a
finite value keeps it finite and does not decrease it. -/
theorem F32.add_step (a b : F32) (ha : a.isFinite = true) (hb : b.isFinite = true)
    (hb0 : 0 ≤ b.key) (j : Nat) (hj : j ≤ 275) (haj : a.key ≤ 2 ^ j) (hbj : b.key ≤ 2 ^ j) :
    (F32.add a b).isFinite = true
    ∧ (F32.add a b).key = F32.round_key (a.key + b.key) 1
    ∧ a.key ≤ (F32.add a b).key ∧ (F32.add a b).key ≤ 2 ^ (j + 1) := by
  have h := F32.add_finite a b ha hb
  have hlo : a.key ≤ (F32.add a b).key := by
    rw [h.2]
    have := F32.round_key_mono a.key (a.key + b.key) 1 (by decide) (by omega)
    rwa [F32.round_key_exact_one a (F32.isNaN_of_isFinite ha)] at this
  have hhi : (F32.add a b).key ≤ 2 ^ (j + 1) := by
    rw [h.2]
    have hsum : a.key + b.key ≤ 2 ^ (j + 1) := by
      have : (2 : Int) ^ (j + 1) = 2 ^ j + 2 ^ j := by rw [pow_succ]; ring
      omega
    have := F32.round_key_mono (a.key + b.key) (2 ^ (j + 1)) 1 (by decide) hsum
    rwa [F32.round_key_pow (j + 1) (by omega)] at this
  refine ⟨?_, h.2, hlo, hhi⟩
  apply F32.isFinite_of_key_bounds
  · have := (F32.key_bounds_of_isFinite ha).1
    omega
  · have := F32.two_pow_lt_inf (j + 1) (by omega)
    omega

/-- Multiplying a finite value of at most `1.0` by a weight in `[0, 1]`: the
product is finite, at most the weight, and non-negative with the value. -/
theorem F32.mul_step (a c : F32) (ha : a.isFinite = true) (hc : c.isFinite = true)
    (hc0 : 0 ≤ c.key) (hc1 : c.key ≤ 2 ^ 149) (ha1 : a.key ≤ 2 ^ 149) :
    (F32.mul a c).isFinite = true
    ∧ (F32.mul a c).key = F32.round_key (a.key * c.key) (2 ^ 149)
    ∧ (F32.mul a c).key ≤ c.key
    ∧ (0 ≤ a.key → 0 ≤ (F32.mul a c).key) := by
  have h := F32.mul_finite a c ha hc
  have hd : 0 < 2 ^ 149 := by positivity
  have hK : ((2 ^ 149 : Nat) : Int) = 2 ^ 149 := by norm_cast
  have hhi : (F32.mul a c).key ≤ c.key := by
    rw [h.2]
    have hprod : a.key * c.key ≤ c.key * ((2 ^ 149 : Nat) : Int) := by
      rw [hK, Int.mul_comm c.key]
      exact mul_le_mul_of_nonneg_right ha1 hc0
    have := F32.round_key_mono _ _ (2 ^ 149) hd hprod
    rwa [F32.round_key_exact c (2 ^ 149) hd (F32.isNaN_of_isFinite hc)] at this
  have hnn : 0 ≤ a.key → 0 ≤ (F32.mul a c).key := by
    intro ha0
    rw [h.2]
    have := F32.round_key_mono 0 (a.key * c.key) (2 ^ 149) hd (mul_nonneg ha0 hc0)
    rwa [F32.round_key_zero] at this
  have hlo : - (2 : Int) ^ 277 < (F32.mul a c).key := by
    rcases le_or_lt 0 a.key with ha0 | ha0
    · have := hnn ha0
      have : (0 : Int) < 2 ^ 277 := by positivity
      omega
    · rw [h.2]
      have hprod : a.key * ((2 ^ 149 : Nat) : Int) ≤ a.key * c.key := by
        rw [hK]
        exact mul_le_mul_of_nonpos_left hc1 (le_of_lt ha0)
      have := F32.round_key_mono _ _ (2 ^ 149) hd hprod
      rw [F32.round_key_exact a (2 ^ 149) hd (F32.isNaN_of_isFinite ha)] at this
      have := (F32.key_bounds_of_isFinite ha).1
      omega
  refine ⟨?_, h.2, hhi, hnn⟩
  apply F32.isFinite_of_key_bounds hlo
  have := F32.two_pow_lt_inf 149 (by decide)
  omega

/-! ## The sub-scores -/

theorem F32.le_iff (a b : F32) :
    F32.le a b = true ↔ (a.isNaN = false ∧ b.isNaN = false ∧ a.key ≤ b.key) := by
  simp only [F32.le, Bool.and_eq_true, Bool.not_eq_true', decide_eq_true_eq, and_assoc]

theorem F32.lt_iff (a b : F32) :
    F32.lt a b = true ↔ (a.isNaN = false ∧ b.isNaN = false ∧ a.key < b.key) := by
  simp only [F32.lt, Bool.and_eq_true, Bool.not_eq_true', decide_eq_true_eq, and_assoc]

theorem F32.key_zero : lit_0_0f.key = 0 := by decide

theorem F32.key_0_4_bounds : 0 ≤ lit_0_4f.key ∧ lit_0_4f.key ≤ 2 ^ 149 := by
  have hm : lit_0_4f.magnitude ≤ 2 ^ 149 := by decide
  have hk := F32.key_of_sign_false (x := lit_0_4f) rfl
  rw [hk]
  have : ((lit_0_4f.magnitude : Nat) : Int) ≤ ((2 ^ 149 : Nat) : Int) := by exact_mod_cast hm
  refine ⟨Int.ofNat_nonneg _, ?_⟩
  have e : ((2 ^ 149 : Nat) : Int) = 2 ^ 149 := by norm_cast
  omega

theorem F32.key_0_2_bounds : 0 ≤ lit_0_2f.key ∧ lit_0_2f.key ≤ 2 ^ 149 := by
  have hm : lit_0_2f.magnitude ≤ 2 ^ 149 := by decide
  have hk := F32.key_of_sign_false (x := lit_0_2f) rfl
  rw [hk]
  have : ((lit_0_2f.magnitude : Nat) : Int) ≤ ((2 ^ 149 : Nat) : Int) := by exact_mod_cast hm
  refine ⟨Int.ofNat_nonneg _, ?_⟩
  have e : ((2 ^ 149 : Nat) : Int) = 2 ^ 149 := by norm_cast
  omega

/-- The tuning sub-score is always a finite value in `[0, 1]`, whatever the
two tuning deviations are (NaN and infinities included). -/
theorem tuning_subscore_range (a b : gm1_quality_metrics_t) :
    (tuning_subscore a b).isFinite = true ∧ 0 ≤ (tuning_subscore a b).key
    ∧ (tuning_subscore a b).key ≤ 2 ^ 149 := by
  have hzero : lit_0_0f.isFinite = true ∧ 0 ≤ lit_0_0f.key ∧ lit_0_0f.key ≤ 2 ^ 149 := by
    refine ⟨by decide, ?_, ?_⟩
    · rw [F32.key_zero]
    · rw [F32.key_zero]; positivity
  unfold tuning_subscore
  generalize hz : F32.div (F32.fabsf (F32.sub a.frequency_accuracy b.frequency_accuracy))
    lit_20_0f = z
  have hsign : z.sign = false := by
    rw [← hz]
    exact F32.sign_div _ _ (F32.sign_fabsf _) (by decide)
  have hs : (F32.sub lit_1_0f z).isSNaN = false := F32.isSNaN_add _ _
  rw [F32.fmaxf_zero _ hs]
  split_ifs with h1 h2
  · exact hzero
  · have hn : (F32.sub lit_1_0f z).isNaN = false := by simpa using h1
    have hle := F32.sub_one_le z hsign hn
    have hpos := ((F32.lt_iff _ _).1 h2).2.2
    rw [F32.key_zero] at hpos
    refine ⟨?_, le_of_lt hpos, hle⟩
    apply F32.isFinite_of_key_bounds
    · have : (0 : Int) < 2 ^ 277 := by positivity
      omega
    · have := F32.two_pow_lt_inf 149 (by decide)
      omega
  · exact hzero

theorem F32.round_key_one_exact : F32.round_key ((2 : Int) ^ 149) 1 = 2 ^ 149 :=
  F32.round_key_pow 149 (by decide)

/-- The recognition sub-score, when it is not NaN, is at most `1.0`, and it
is finite or negative infinity. -/
theorem recognition_subscore_le (a b : gm1_quality_metrics_t)
    (h : (recognition_subscore a b).isNaN = false) :
    (recognition_subscore a b).key ≤ 2 ^ 149
    ∧ ((recognition_subscore a b).isFinite = true
        ∨ recognition_subscore a b = F32.neg_inf) := by
  unfold recognition_subscore at h ⊢
  have hsign : (F32.fabsf (F32.sub a.recognition_score b.recognition_score)).sign = false :=
    F32.sign_fabsf _
  generalize F32.fabsf (F32.sub a.recognition_score b.recognition_score) = z at h hsign ⊢
  have hle := F32.sub_one_le z hsign h
  refine ⟨hle, ?_⟩
  rcases F32.isFinite_or_isInf h with hf | hi
  · exact Or.inl hf
  · right
    have hmag := F32.magnitude_of_isInf hi
    have hs : (F32.sub lit_1_0f z).sign = true := by
      cases hsx : (F32.sub lit_1_0f z).sign
      · rw [F32.key_of_sign_false hsx, hmag] at hle
        have : (2 : Int) ^ 149 < 2 ^ 277 := F32.two_pow_lt_inf 149 (by decide)
        have e : ((2 ^ 277 : Nat) : Int) = 2 ^ 277 := by norm_cast
        omega
      · rfl
    simp only [F32.isInf, Bool.and_eq_true, beq_iff_eq] at hi
    exact F32.eq_of_fields (by rw [hs]; rfl) (by rw [hi.1]; rfl) (by rw [hi.2]; rfl)

theorem F32.isFinite_of_range {x : F32} (h0 : 0 ≤ x.key)
    (h1 : x.key ≤ 2 ^ 149) : x.isFinite = true := by
  apply F32.isFinite_of_key_bounds
  · have : (0 : Int) < 2 ^ 277 := by positivity
    omega
  · have := F32.two_pow_lt_inf 149 (by decide)
    omega

/-- For recognition scores in `[0, 1]` the recognition sub-score is a finite
value in `[0, 1]`. -/
theorem recognition_subscore_range (a b : gm1_quality_metrics_t)
    (ha : F32.le lit_0_0f a.recognition_score = true
      ∧ F32.le a.recognition_score lit_1_0f = true)
    (hb : F32.le lit_0_0f b.recognition_score = true
      ∧ F32.le b.recognition_score lit_1_0f = true) :
    (recognition_subscore a b).isFinite = true ∧ 0 ≤ (recognition_subscore a b).key
    ∧ (recognition_subscore a b).key ≤ 2 ^ 149 := by
  obtain ⟨_, han, ha0⟩ := (F32.le_iff _ _).1 ha.1
  obtain ⟨_, _, ha1⟩ := (F32.le_iff _ _).1 ha.2
  obtain ⟨_, hbn, hb0⟩ := (F32.le_iff _ _).1 hb.1
  obtain ⟨_, _, hb1⟩ := (F32.le_iff _ _).1 hb.2
  rw [F32.key_zero] at ha0 hb0
  rw [F32.key_one] at ha1 hb1
  have fa := F32.isFinite_of_range ha0 ha1
  have fb := F32.isFinite_of_range hb0 hb1
  have hd := F32.sub_finite _ _ fa fb
  -- the difference lies in [-1, 1]
  have hd1 : (F32.sub a.recognition_score b.recognition_score).key ≤ 2 ^ 149 := by
    rw [hd.2]
    have := F32.round_key_mono (a.recognition_score.key - b.recognition_score.key) (2 ^ 149) 1
      (by decide) (by omega)
    rwa [F32.round_key_one_exact] at this
  have hd2 : - (2 : Int) ^ 149 ≤ (F32.sub a.recognition_score b.recognition_score).key := by
    rw [hd.2]
    have := F32.round_key_mono (- (2 : Int) ^ 149)
      (a.recognition_score.key - b.recognition_score.key) 1 (by decide) (by omega)
    rwa [F32.round_key_neg, F32.round_key_one_exact] at this
  -- its absolute value lies in [0, 1]
  have hz0 : 0 ≤ (F32.fabsf (F32.sub a.recognition_score b.recognition_score)).key := by
    rw [F32.key_fabsf]
    exact Int.ofNat_nonneg _
  have hz1 : (F32.fabsf (F32.sub a.recognition_score b.recognition_score)).key ≤ 2 ^ 149 := by
    rw [F32.key_fabsf, ← F32.natAbs_key, Int.natCast_natAbs]
    exact abs_le.2 ⟨hd2, hd1⟩
  have fz := F32.isFinite_of_range hz0 hz1
  have hs := F32.sub_finite lit_1_0f _ (by decide) fz
  unfold recognition_subscore
  rw [F32.key_one] at hs
  have hr0 : 0 ≤ (F32.sub lit_1_0f
      (F32.fabsf (F32.sub a.recognition_score b.recognition_score))).key := by
    rw [hs.2]
    have := F32.round_key_mono 0
      (2 ^ 149 - (F32.fabsf (F32.sub a.recognition_score b.recognition_score)).key) 1
      (by decide) (by omega)
    rwa [F32.round_key_zero] at this
  have hr1 : (F32.sub lit_1_0f
      (F32.fabsf (F32.sub a.recognition_score b.recognition_score))).key ≤ 2 ^ 149 := by
    rw [hs.2]
    have := F32.round_key_mono
      (2 ^ 149 - (F32.fabsf (F32.sub a.recognition_score b.recognition_score)).key)
      (2 ^ 149) 1 (by decide) (by omega)
    rwa [F32.round_key_one_exact] at this
  exact ⟨F32.isFinite_of_range hr0 hr1, hr0, hr1⟩

/-! ## The key of the weighted sum -/

/-- For a finite recognition sub-score the weighted sum is finite and its
key is `score_key` of the keys of the sub-scores. -/
theorem weighted_sum_key (a b : gm1_quality_metrics_t)
    (hr : (recognition_subscore a b).isFinite = true) :
    (weighted_sum a b).isFinite = true
    ∧ (weighted_sum a b).key
        = score_key (recognition_subscore a b).key
            (decide (a.controller_response = b.controller_response))
            (decide (a.velocity_sensitive = b.velocity_sensitive))
            (tuning_subscore a b).key := by
  have hrle := (recognition_subscore_le a b (F32.isNaN_of_isFinite hr)).1
  obtain ⟨ht, ht0, ht1⟩ := tuning_subscore_range a b
  have h4 := F32.key_0_4_bounds
  have h2 := F32.key_0_2_bounds
  have f4 : lit_0_4f.isFinite = true := by decide
  have f2 : lit_0_2f.isFinite = true := by decide
  have p149 : (2 : Int) ^ 149 ≤ 2 ^ 150 := by
    have : (2 : Int) ^ 150 = 2 ^ 149 * 2 := by rw [← pow_succ]
    have : (0 : Int) < 2 ^ 149 := by positivity
    omega
  have p150 : (2 : Int) ^ 150 ≤ 2 ^ 151 := by
    have : (2 : Int) ^ 151 = 2 ^ 150 * 2 := by rw [← pow_succ]
    have : (0 : Int) < 2 ^ 150 := by positivity
    omega
  -- the recognition term
  obtain ⟨xf, xk, xle, _⟩ := F32.mul_step _ lit_0_4f hr f4 h4.1 h4.2 hrle
  -- 0.0f + the recognition term
  have s1 := F32.add_finite lit_0_0f _ (by decide) xf
  rw [F32.key_zero, Int.zero_add, F32.round_key_exact_one _ (F32.isNaN_of_isFinite xf)] at s1
  have s1f : (F32.add lit_0_0f (F32.mul (recognition_subscore a b) lit_0_4f)).isFinite
      = true := by
    have := F32.key_bounds_of_isFinite xf
    apply F32.isFinite_of_key_bounds
    · rw [s1.2]; exact this.1
    · rw [s1.2]; exact this.2
  have s1le : (F32.add lit_0_0f (F32.mul (recognition_subscore a b) lit_0_4f)).key
      ≤ 2 ^ 149 := by
    rw [s1.2]; omega
  -- the tuning term
  obtain ⟨wf, wk, wle, w0⟩ := F32.mul_step _ lit_0_2f ht f2 h2.1 h2.2 ht1
  have w0' := w0 ht0
  unfold weighted_sum score_key flag_step
  by_cases hc : a.controller_response = b.controller_response <;>
    by_cases hv : a.velocity_sensitive = b.velocity_sensitive
  · simp only [hc, hv, if_true, decide_True]
    obtain ⟨s2f, s2k, _, s2le⟩ := F32.add_step _ lit_0_2f s1f f2 h2.1 149 (by decide) s1le h2.2
    obtain ⟨s3f, s3k, _, s3le⟩ := F32.add_step _ lit_0_2f s2f f2 h2.1 150 (by decide) s2le
      (by omega)
    obtain ⟨s4f, s4k, _, _⟩ := F32.add_step _ _ s3f wf w0' 151 (by decide) s3le (by omega)
    exact ⟨s4f, by rw [s4k, s3k, s2k, s1.2, xk, wk]⟩
  · simp only [hc, hv, if_true, if_false, decide_True, decide_False, Bool.false_eq_true]
    obtain ⟨s2f, s2k, _, s2le⟩ := F32.add_step _ lit_0_2f s1f f2 h2.1 149 (by decide) s1le h2.2
    obtain ⟨s4f, s4k, _, _⟩ := F32.add_step _ _ s2f wf w0' 151 (by decide) (by omega)
      (by omega)
    exact ⟨s4f, by rw [s4k, s2k, s1.2, xk, wk]⟩
  · simp only [hc, hv, if_true, if_false, decide_True, decide_False, Bool.false_eq_true]
    obtain ⟨s3f, s3k, _, s3le⟩ := F32.add_step _ lit_0_2f s1f f2 h2.1 150 (by decide)
      (by omega) (by omega)
    obtain ⟨s4f, s4k, _, _⟩ := F32.add_step _ _ s3f wf w0' 151 (by decide) s3le (by omega)
    exact ⟨s4f, by rw [s4k, s3k, s1.2, xk, wk]⟩
  · simp only [hc, hv, if_false, decide_False, Bool.false_eq_true]
    obtain ⟨s4f, s4k, _, _⟩ := F32.add_step _ _ s1f wf w0' 151 (by decide) (by omega)
      (by omega)
    exact ⟨s4f, by rw [s4k, s1.2, xk, wk]⟩

/-! ## The key of the weighted sum: monotonicity and bounds -/

/-- A rounded key is left unchanged by rounding again. -/
theorem F32.round_key_idem (s : Int) (d : Nat) (hd : 0 < d) :
    F32.round_key (F32.round_key s d) 1 = F32.round_key s d := by
  have hrep := F32.round_mag_representable s.natAbs d hd
  have h := F32.round_key_representable _ hrep
  unfold F32.round_key at h ⊢
  split_ifs with h1 h2 h2
  · have e : (- (F32.round_mag s.natAbs d : Int)).natAbs = F32.round_mag s.natAbs d := by
      rw [Int.natAbs_neg, Int.natAbs_ofNat]
    rw [e]
    have h3 : ¬ ((F32.round_mag s.natAbs d : Int) < 0) := by
      have := Int.ofNat_nonneg (F32.round_mag s.natAbs d)
      omega
    rw [if_neg h3, Int.natAbs_ofNat] at h
    rw [h]
  · -- the rounded magnitude is zero
    have h0 : (F32.round_mag s.natAbs d : Int) = 0 := by
      have := Int.ofNat_nonneg (F32.round_mag s.natAbs d)
      omega
    rw [h0]
    simp [F32.round_mag_zero]
  · have := Int.ofNat_nonneg (F32.round_mag s.natAbs d)
    omega
  · have h3 : ¬ ((F32.round_mag s.natAbs d : Int) < 0) := h2
    rw [if_neg h3] at h
    exact h

theorem flag_step_mono (p p' : Bool) (s s' : Int) (hs : s ≤ s') (hp : p = true → p' = true)
    (hfix : F32.round_key s' 1 = s') : flag_step p s ≤ flag_step p' s' := by
  have h2 := F32.key_0_2_bounds
  unfold flag_step
  cases p <;> cases p'
  · simpa using hs
  · simp only [Bool.false_eq_true, if_false, if_true]
    have := F32.round_key_mono s' (s' + lit_0_2f.key) 1 (by decide) (by omega)
    rw [hfix] at this
    omega
  · exact absurd (hp rfl) (by decide)
  · simp only [if_true]
    exact F32.round_key_mono _ _ 1 (by decide) (by omega)

theorem flag_step_fix (p : Bool) (s : Int) (hfix : F32.round_key s 1 = s) :
    F32.round_key (flag_step p s) 1 = flag_step p s := by
  unfold flag_step
  cases p
  · simpa using hfix
  · simp only [if_true]
    exact F32.round_key_idem _ 1 (by decide)

/-- The key of the weighted sum is monotone in both sub-score keys and in
both flag comparisons. -/
theorem score_key_mono (krs krs' : Int) (p p' q q' : Bool) (kts kts' : Int)
    (hr : krs ≤ krs') (hp : p = true → p' = true) (hq : q = true → q' = true)
    (ht : kts ≤ kts') : score_key krs p q kts ≤ score_key krs' p' q' kts' := by
  have h4 := F32.key_0_4_bounds
  have h2 := F32.key_0_2_bounds
  have hd : 0 < 2 ^ 149 := by positivity
  unfold score_key
  have hx : F32.round_key (krs * lit_0_4f.key) (2 ^ 149)
      ≤ F32.round_key (krs' * lit_0_4f.key) (2 ^ 149) :=
    F32.round_key_mono _ _ _ hd (mul_le_mul_of_nonneg_right hr h4.1)
  have hw : F32.round_key (kts * lit_0_2f.key) (2 ^ 149)
      ≤ F32.round_key (kts' * lit_0_2f.key) (2 ^ 149) :=
    F32.round_key_mono _ _ _ hd (mul_le_mul_of_nonneg_right ht h2.1)
  have fx' := F32.round_key_idem (krs' * lit_0_4f.key) (2 ^ 149) hd
  have s2 := flag_step_mono p p' _ _ hx hp fx'
  have f2' := flag_step_fix p' _ fx'
  have s3 := flag_step_mono q q' _ _ s2 hq f2'
  exact F32.round_key_mono _ _ 1 (by decide) (by omega)

theorem score_key_top : score_key (2 ^ 149) true true (2 ^ 149) = 2 ^ 149 := by
  decide!

theorem score_key_bottom : score_key 0 false false 0 = 0 := by
  decide!

/-- For sub-scores in `[0, 1]` the key of the weighted sum lies in `[0, 1]`. -/
theorem score_key_range (krs : Int) (p q : Bool) (kts : Int) (hr0 : 0 ≤ krs)
    (hr1 : krs ≤ 2 ^ 149) (ht0 : 0 ≤ kts) (ht1 : kts ≤ 2 ^ 149) :
    0 ≤ score_key krs p q kts ∧ score_key krs p q kts ≤ 2 ^ 149 := by
  constructor
  · have := score_key_mono 0 krs false p false q 0 kts hr0 (fun h => absurd h (by decide))
      (fun h => absurd h (by decide)) ht0
    rwa [score_key_bottom] at this
  · have := score_key_mono krs (2 ^ 149) p true q true kts (2 ^ 149) hr1 (fun _ => rfl)
      (fun _ => rfl) ht1
    rwa [score_key_top] at this

/-! ## The key of the weighted sum: strict monotonicity -/

/-- Rounding moves a magnitude of at most `2 ^ 160` by at most `2 ^ 139`
(that is `2 ^ (-10)`): the multiples of `2 ^ 139` in that range are floats. -/
theorem F32.round_mag_near (t : Nat) (ht : t ≤ 2 ^ 160) :
    t ≤ F32.round_mag t 1 + 2 ^ 139 ∧ F32.round_mag t 1 ≤ t + 2 ^ 139 := by
  have hG : 0 < 2 ^ 139 := by positivity
  have hdm := Nat.div_add_mod t (2 ^ 139)
  have hmod := Nat.mod_lt t hG
  have hdiv : t / 2 ^ 139 ≤ 2 ^ 21 := by
    have : t / 2 ^ 139 ≤ 2 ^ 160 / 2 ^ 139 := Nat.div_le_div_right ht
    have e : (2 : Nat) ^ 160 / 2 ^ 139 = 2 ^ 21 := by
      rw [Nat.pow_div (by decide) (by decide)]
    omega
  have h21 : (2 : Nat) ^ 21 + 1 < 2 ^ 24 := by decide
  have rlo := F32.representable_mul_pow 139 (t / 2 ^ 139) (by decide) (by omega)
  have rhi := F32.representable_mul_pow 139 (t / 2 ^ 139 + 1) (by decide) (by omega)
  have elo := F32.round_mag_exact _ 1 (by decide) rlo
  have ehi := F32.round_mag_exact _ 1 (by decide) rhi
  rw [Nat.mul_one] at elo ehi
  have hcomm : 2 ^ 139 * (t / 2 ^ 139) = t / 2 ^ 139 * 2 ^ 139 := Nat.mul_comm _ _
  have hsucc : (t / 2 ^ 139 + 1) * 2 ^ 139 = t / 2 ^ 139 * 2 ^ 139 + 2 ^ 139 := by ring
  have mlo := F32.round_mag_mono (t / 2 ^ 139 * 2 ^ 139) t 1 (by decide) (by omega)
  have mhi := F32.round_mag_mono t ((t / 2 ^ 139 + 1) * 2 ^ 139) 1 (by decide) (by omega)
  rw [elo] at mlo
  rw [ehi] at mhi
  constructor <;> omega

theorem F32.round_key_near (t : Int) (h0 : 0 ≤ t) (ht : t ≤ 2 ^ 160) :
    t - 2 ^ 139 ≤ F32.round_key t 1 ∧ F32.round_key t 1 ≤ t + 2 ^ 139 := by
  obtain ⟨n, rfl⟩ := Int.eq_ofNat_of_zero_le h0
  have hn : n ≤ 2 ^ 160 := by exact_mod_cast ht
  have h := F32.round_mag_near n hn
  rw [F32.round_key_natCast]
  have e : ((2 ^ 139 : Nat) : Int) = 2 ^ 139 := by norm_cast
  constructor
  · have : (n : Int) ≤ (F32.round_mag n 1 : Int) + ((2 ^ 139 : Nat) : Int) := by
      exact_mod_cast h.1
    omega
  · have : (F32.round_mag n 1 : Int) ≤ (n : Int) + ((2 ^ 139 : Nat) : Int) := by
      exact_mod_cast h.2
    omega

/-- With both flags matching instead of mismatching the key of the weighted
sum is strictly larger, for sub-scores in `[0, 1]`. -/
theorem score_key_strict (krs krs' kts kts' : Int) (hr0 : 0 ≤ krs) (hr : krs ≤ krs')
    (hr1 : krs' ≤ 2 ^ 149) (ht0 : 0 ≤ kts) (ht : kts ≤ kts') (ht1 : kts' ≤ 2 ^ 149) :
    score_key krs false false kts < score_key krs' true true kts' := by
  have hmono := score_key_mono krs krs' true true true true kts kts' hr (fun h => h)
    (fun h => h) ht
  refine lt_of_lt_of_le ?_ hmono
  have h4 := F32.key_0_4_bounds
  have h2 := F32.key_0_2_bounds
  have hd : 0 < 2 ^ 149 := by positivity
  have hK : ((2 ^ 149 : Nat) : Int) = 2 ^ 149 := by norm_cast
  unfold score_key flag_step
  simp only [Bool.false_eq_true, if_false, if_true]
  -- the two rounded products lie in [0, 0.4f] and [0, 0.2f]
  have hx0 : 0 ≤ F32.round_key (krs * lit_0_4f.key) (2 ^ 149) := by
    have := F32.round_key_mono 0 (krs * lit_0_4f.key) (2 ^ 149) hd (mul_nonneg hr0 h4.1)
    rwa [F32.round_key_zero] at this
  have hx1 : F32.round_key (krs * lit_0_4f.key) (2 ^ 149) ≤ 2 ^ 149 := by
    have hprod : krs * lit_0_4f.key ≤ lit_0_4f.key * ((2 ^ 149 : Nat) : Int) := by
      rw [hK, Int.mul_comm lit_0_4f.key]
      exact mul_le_mul_of_nonneg_right (by omega) h4.1
    have := F32.round_key_mono _ _ (2 ^ 149) hd hprod
    rw [F32.round_key_exact lit_0_4f (2 ^ 149) hd (by decide)] at this
    omega
  have hw0 : 0 ≤ F32.round_key (kts * lit_0_2f.key) (2 ^ 149) := by
    have := F32.round_key_mono 0 (kts * lit_0_2f.key) (2 ^ 149) hd (mul_nonneg ht0 h2.1)
    rwa [F32.round_key_zero] at this
  have hw1 : F32.round_key (kts * lit_0_2f.key) (2 ^ 149) ≤ 2 ^ 149 := by
    have hprod : kts * lit_0_2f.key ≤ lit_0_2f.key * ((2 ^ 149 : Nat) : Int) := by
      rw [hK, Int.mul_comm lit_0_2f.key]
      exact mul_le_mul_of_nonneg_right (by omega) h2.1
    have := F32.round_key_mono _ _ (2 ^ 149) hd hprod
    rw [F32.round_key_exact lit_0_2f (2 ^ 149) hd (by decide)] at this
    omega
  generalize F32.round_key (krs * lit_0_4f.key) (2 ^ 149) = x at hx0 hx1
  generalize F32.round_key (kts * lit_0_2f.key) (2 ^ 149) = w at hw0 hw1
  -- sizes
  have p160 : (2 : Int) ^ 149 * 2 ^ 11 = 2 ^ 160 := by rw [← pow_add]
  have p139 : (2 : Int) ^ 139 * 2 ^ 10 = 2 ^ 149 := by rw [← pow_add]
  have pos139 : (0 : Int) < 2 ^ 139 := by positivity
  have e11 : (2 : Int) ^ 11 = 2048 := by norm_num
  have e10 : (2 : Int) ^ 10 = 1024 := by norm_num
  rw [e11] at p160
  rw [e10] at p139
  have hgap : 4 * (2 : Int) ^ 139 < 2 * lit_0_2f.key := by
    have hm : 4 * 2 ^ 139 < 2 * lit_0_2f.magnitude := by decide
    have hk := F32.key_of_sign_false (x := lit_0_2f) rfl
    rw [hk]
    exact_mod_cast hm
  have n0 := F32.round_key_near (x + w) (by omega) (by omega)
  have n1 := F32.round_key_near (x + lit_0_2f.key) (by omega) (by omega)
  have n2 := F32.round_key_near (F32.round_key (x + lit_0_2f.key) 1 + lit_0_2f.key)
    (by omega) (by omega)
  have n3 := F32.round_key_near
    (F32.round_key (F32.round_key (x + lit_0_2f.key) 1 + lit_0_2f.key) 1 + w)
    (by omega) (by omega)
  omega

/-! ## Cross-device consistency: the early returns and the threshold -/

/-- The four weights add up to exactly `1.0f` in float arithmetic. -/
theorem weights_sum_eq :
    F32.add (F32.add (F32.add (F32.add lit_0_0f lit_0_4f) lit_0_2f) lit_0_2f) lit_0_2f
      = lit_1_0f := by
  decide!

/-- For present metrics of one program the score is the weighted sum divided
by `1.0f`. -/
theorem score_unfold (a b : gm1_quality_metrics_t) (h : a.program = b.program) :
    gm1_calculate_consistency_score (some a) (some b) = F32.div (weighted_sum a b) lit_1_0f := by
  have hne : ¬ a.program ≠ b.program := fun hn => hn h
  simp only [gm1_calculate_consistency_score, if_neg hne, weights_sum_eq, weighted_sum,
    recognition_subscore, tuning_subscore]

/-- The early returns of the scorer. -/
theorem score_eq_zero (a b : Option gm1_quality_metrics_t)
    (h : a = none ∨ b = none ∨ ∃ x y, a = some x ∧ b = some y ∧ x.program ≠ y.program) :
    gm1_calculate_consistency_score a b = lit_0_0f := by
  rcases h with rfl | rfl | ⟨x, y, rfl, rfl, hne⟩
  · cases b <;> rfl
  · cases a <;> rfl
  · simp only [gm1_calculate_consistency_score, if_pos hne]

/-- C15: the score is exactly `0.0f` whenever either metrics argument is
absent, and whenever both are present but their program numbers differ,
whatever the other fields hold. -/
theorem consistency_score_zero (a b : Option gm1_quality_metrics_t)
    (h : a = none ∨ b = none ∨ ∃ x y, a = some x ∧ b = some y ∧ x.program ≠ y.program) :
    gm1_calculate_consistency_score a b = lit_0_0f :=
  score_eq_zero a b h

/-- C15 at the unit test's cases: absent first argument, absent second
argument, and programs 1 and 2. -/
theorem consistency_score_zero_witness :
    gm1_calculate_consistency_score none (some (device1 2)) = lit_0_0f
    ∧ gm1_calculate_consistency_score (some (device1 1)) none = lit_0_0f
    ∧ ((device1 1).program ≠ (device1 2).program
        ∧ gm1_calculate_consistency_score (some (device1 1)) (some (device1 2)) = lit_0_0f) :=
  ⟨consistency_score_zero none _ (Or.inl rfl),
    consistency_score_zero _ none (Or.inr (Or.inl rfl)),
    by decide,
    consistency_score_zero _ _ (Or.inr (Or.inr ⟨_, _, rfl, rfl, by decide⟩))⟩

/-- C20: a score is consistent exactly when it is `>= 0.8f`, that is, when it
is not NaN and its value is at least 4/5; so the score `0.0f` of absent
metrics or of metrics for different programs is never consistent. -/
theorem is_consistent_iff (score : F32) (a b : Option gm1_quality_metrics_t)
    (h : a = none ∨ b = none ∨ ∃ x y, a = some x ∧ b = some y ∧ x.program ≠ y.program) :
    (gm1_is_consistent score = true ↔ F32.ge score lit_0_8f = true)
    ∧ (gm1_is_consistent score = true ↔
        (score.isNaN = false ∧ (4 : Int) * 2 ^ 149 ≤ 5 * score.key))
    ∧ gm1_is_consistent (gm1_calculate_consistency_score a b) = false := by
  refine ⟨Iff.rfl, ?_, ?_⟩
  · by_cases hn : score.isNaN = false
    · have := F32.ge_min_recognition_iff score hn
      unfold gm1_is_consistent
      rw [this]
      exact ⟨fun h => ⟨hn, h⟩, fun h => h.2⟩
    · have hn' : score.isNaN = true := by simpa using hn
      constructor
      · intro hc
        have := (F32.isNaN_of_le (a := GM1_MIN_RECOGNITION_SCORE) (b := score) hc).2
        rw [hn'] at this
        exact absurd this (by decide)
      · intro hc
        exact absurd hc.1 hn
  · rw [score_eq_zero a b h]
    rfl

/-- C20 at the unit test's comparison of programs 1 and 2. -/
theorem is_consistent_iff_witness :
    (device1 1).program ≠ (device1 2).program
    ∧ gm1_is_consistent
        (gm1_calculate_consistency_score (some (device1 1)) (some (device1 2))) = false :=
  ⟨by decide,
    (is_consistent_iff lit_1_0f _ _ (Or.inr (Or.inr ⟨_, _, rfl, rfl, by decide⟩))).2.2⟩

/-! ## Identical metrics -/

/-- C16, as stated, fails on a NaN recognition score: the score of such
metrics against themselves is NaN, not `1.0f`, and is not consistent. -/
theorem identical_metrics_nan_counterexample :
    ¬ (gm1_calculate_consistency_score (some nan_score_metrics) (some nan_score_metrics)
          = lit_1_0f
        ∧ gm1_is_consistent
            (gm1_calculate_consistency_score (some nan_score_metrics) (some nan_score_metrics))
          = true) :=
  by decide!

/-- C16 (amended to finite measurements): for present metrics `m` whose
recognition score and tuning deviation are finite, the score of `m` against
itself is exactly `1.0f`, and it is consistent. -/
theorem identical_metrics_score (m : gm1_quality_metrics_t)
    (hscore : m.recognition_score.isFinite = true)
    (htuning : m.frequency_accuracy.isFinite = true) :
    gm1_calculate_consistency_score (some m) (some m) = lit_1_0f
    ∧ gm1_is_consistent (gm1_calculate_consistency_score (some m) (some m)) = true := by
  have hr : recognition_subscore m m = lit_1_0f :=
    (congrArg (fun z => F32.sub lit_1_0f (F32.fabsf z)) (F32.sub_self _ hscore)).trans
      (by decide!)
  have ht : tuning_subscore m m = lit_1_0f :=
    (congrArg (fun z => F32.fmaxf lit_0_0f (F32.sub lit_1_0f (F32.div (F32.fabsf z) lit_20_0f)))
      (F32.sub_self _ htuning)).trans (by decide!)
  have hw : weighted_sum m m
      = F32.add (F32.add (F32.add (F32.add lit_0_0f (F32.mul lit_1_0f lit_0_4f)) lit_0_2f)
          lit_0_2f) (F32.mul lit_1_0f lit_0_2f) := by
    unfold weighted_sum
    rw [if_pos rfl, if_pos rfl, hr, ht]
  have h : gm1_calculate_consistency_score (some m) (some m) = lit_1_0f :=
    (score_unfold m m rfl).trans
      ((congrArg (fun z => F32.div z lit_1_0f) hw).trans (by decide!))
  rw [h]
  exact ⟨rfl, rfl⟩

/-- C16 at the identical devices of the unit test (recognition 0.9, tuning
2.0). -/
theorem identical_metrics_score_witness :
    (device1 1).recognition_score.isFinite = true
    ∧ (device1 1).frequency_accuracy.isFinite = true
    ∧ gm1_calculate_consistency_score (some (device1 1)) (some (device1 1)) = lit_1_0f
    ∧ gm1_is_consistent
        (gm1_calculate_consistency_score (some (device1 1)) (some (device1 1))) = true :=
  ⟨by decide, by decide, identical_metrics_score (device1 1) (by decide) (by decide)⟩

/-! ## Equality of values -/

theorem F32.same_value_refl (x : F32) : F32.same_value x x := by
  cases h : x.isNaN
  · exact Or.inr ⟨h, h, rfl⟩
  · exact Or.inl ⟨h, h⟩

theorem F32.same_value_symm {x y : F32} (h : F32.same_value x y) : F32.same_value y x := by
  rcases h with ⟨x1, x2⟩ | ⟨x1, x2, x3⟩
  · exact Or.inl ⟨x2, x1⟩
  · exact Or.inr ⟨x2, x1, x3.symm⟩

theorem F32.same_value_of_eq {x y : F32} (h : x = y) : F32.same_value x y :=
  h ▸ F32.same_value_refl x

theorem F32.same_value_trans {x y z : F32} (h1 : F32.same_value x y)
    (h2 : F32.same_value y z) : F32.same_value x z := by
  rcases h1 with ⟨a1, a2⟩ | ⟨a1, a2, a3⟩ <;> rcases h2 with ⟨b1, b2⟩ | ⟨b1, b2, b3⟩
  · exact Or.inl ⟨a1, b2⟩
  · rw [a2] at b1
    exact absurd b1 (by decide)
  · rw [a2] at b1
    exact absurd b1 (by decide)
  · exact Or.inr ⟨a1, b2, a3.trans b3⟩

/-- Non-NaN floats with the same key are equal, unless both are zeros. -/
theorem F32.eq_or_zero_of_key_eq {x y : F32} (hx : x.isNaN = false) (hy : y.isNaN = false)
    (h : x.key = y.key) : x = y ∨ (x.magnitude = 0 ∧ y.magnitude = 0) := by
  have hm : x.magnitude = y.magnitude := by
    rw [← F32.natAbs_key x, ← F32.natAbs_key y, h]
  by_cases h0 : x.magnitude = 0
  · exact Or.inr ⟨h0, hm ▸ h0⟩
  · left
    have hs : x.sign = y.sign := by
      have hpos : (0 : Int) < x.magnitude := by
        have : 0 < x.magnitude := Nat.pos_of_ne_zero h0
        exact_mod_cast this
      cases hsx : x.sign <;> cases hsy : y.sign
      · rfl
      · rw [F32.key_of_sign_false hsx, F32.key_of_sign_true hsy, ← hm] at h
        omega
      · rw [F32.key_of_sign_true hsx, F32.key_of_sign_false hsy, ← hm] at h
        omega
      · rfl
    rw [← F32.ofMagnitude_magnitude x hx, ← F32.ofMagnitude_magnitude y hy, hs, hm]

theorem F32.add_of_isNaN_left (a b : F32) (h : a.isNaN = true) : F32.add a b = F32.invalid := by
  unfold F32.add
  simp only [h, Bool.true_or, if_true]

theorem F32.add_of_isNaN_right (a b : F32) (h : b.isNaN = true) :
    F32.add a b = F32.invalid := by
  unfold F32.add
  simp only [h, Bool.or_true, if_true]

theorem F32.add_of_isInf_right (a b : F32) (ha : a.isFinite = true) (hb : b.isInf = true) :
    F32.add a b = b := by
  unfold F32.add
  simp only [F32.isNaN_of_isFinite ha, F32.isNaN_of_isInf hb, F32.isInf_of_isFinite ha, hb,
    Bool.or_self, Bool.false_eq_true, if_false, if_true]

/-- Adding `+0.0` on the left does not change the value. -/
theorem F32.add_zero_left_same (x : F32) : F32.same_value (F32.add lit_0_0f x) x := by
  have hz : lit_0_0f.isFinite = true := by decide
  have hk : lit_0_0f.key = 0 := by decide
  cases hn : x.isNaN
  · rcases F32.isFinite_or_isInf hn with hf | hi
    · have h := F32.add_finite lit_0_0f x hz hf
      refine Or.inr ⟨h.1, hn, ?_⟩
      rw [h.2, hk, Int.zero_add]
      exact F32.round_key_exact_one x hn
    · rw [F32.add_of_isInf_right _ _ hz hi]
      exact F32.same_value_refl x
  · rw [F32.add_of_isNaN_right _ _ hn]
    exact Or.inl ⟨F32.isNaN_invalid, hn⟩

/-- Adding `+0.0` on the right does not change the value. -/
theorem F32.add_zero_right_same (x : F32) : F32.same_value (F32.add x lit_0_0f) x := by
  have hz : lit_0_0f.isFinite = true := by decide
  have hzi : lit_0_0f.isInf = false := by decide
  have hzn : lit_0_0f.isNaN = false := by decide
  have hk : lit_0_0f.key = 0 := by decide
  cases hn : x.isNaN
  · rcases F32.isFinite_or_isInf hn with hf | hi
    · have h := F32.add_finite x lit_0_0f hf hz
      refine Or.inr ⟨h.1, hn, ?_⟩
      rw [h.2, hk, Int.add_zero]
      exact F32.round_key_exact_one x hn
    · have e : F32.add x lit_0_0f = x := by
        unfold F32.add
        simp only [hn, hzn, hi, hzi, Bool.or_self, Bool.false_eq_true, if_false, if_true,
          Bool.false_and]
      rw [e]
      exact F32.same_value_refl x
  · rw [F32.add_of_isNaN_left _ _ hn]
    exact Or.inl ⟨F32.isNaN_invalid, hn⟩

/-- Addition respects equality of values in its first argument. -/
theorem F32.add_congr_left {a a' : F32} (b : F32) (h : F32.same_value a a') :
    F32.same_value (F32.add a b) (F32.add a' b) := by
  rcases h with ⟨h1, h2⟩ | ⟨h1, h2, h3⟩
  · rw [F32.add_of_isNaN_left _ _ h1, F32.add_of_isNaN_left _ _ h2]
    exact F32.same_value_refl _
  · rcases F32.eq_or_zero_of_key_eq h1 h2 h3 with he | ⟨z1, z2⟩
    · rw [he]
      exact F32.same_value_refl _
    · have f1 := F32.isFinite_zero_magnitude z1
      have f2 := F32.isFinite_zero_magnitude z2
      cases hn : b.isNaN
      · rcases F32.isFinite_or_isInf hn with hf | hi
        · have e1 := F32.add_finite a b f1 hf
          have e2 := F32.add_finite a' b f2 hf
          exact Or.inr ⟨e1.1, e2.1, by rw [e1.2, e2.2, h3]⟩
        · rw [F32.add_of_isInf_right _ _ f1 hi, F32.add_of_isInf_right _ _ f2 hi]
          exact F32.same_value_refl _
      · rw [F32.add_of_isNaN_right _ _ hn, F32.add_of_isNaN_right _ _ hn]
        exact F32.same_value_refl _

/-! ## The weighted formula -/

/-- C17: for present metrics of one program the score is the value of
`0.4 * (1 - |recognition difference|) + 0.2 * [controller flags equal]
+ 0.2 * [velocity flags equal] + 0.2 * max(0, 1 - |tuning difference| / 20)`
in float arithmetic; the applied weights sum to exactly `1.0f`, so the final
division changes nothing. -/
theorem consistency_score_formula (a b : gm1_quality_metrics_t)
    (hprog : a.program = b.program) :
    F32.same_value (gm1_calculate_consistency_score (some a) (some b)) (weighted_formula a b)
    ∧ F32.add (F32.add (F32.add (F32.add lit_0_0f lit_0_4f) lit_0_2f) lit_0_2f) lit_0_2f
        = lit_1_0f
    ∧ gm1_calculate_consistency_score (some a) (some b) = weighted_sum a b := by
  have hdiv : gm1_calculate_consistency_score (some a) (some b) = weighted_sum a b := by
    rw [score_unfold a b hprog]
    unfold weighted_sum
    exact F32.div_add_one _ _
  refine ⟨?_, weights_sum_eq, hdiv⟩
  rw [hdiv]
  have m1 : F32.mul lit_0_2f lit_1_0f = lit_0_2f := by decide!
  have m0 : F32.mul lit_0_2f lit_0_0f = lit_0_0f := by decide!
  -- the recognition term
  have s1 : F32.same_value (F32.add lit_0_0f (F32.mul (recognition_subscore a b) lit_0_4f))
      (F32.mul lit_0_4f (recognition_subscore a b)) := by
    rw [F32.mul_comm (recognition_subscore a b) lit_0_4f]
    exact F32.add_zero_left_same _
  -- the controller-response term
  have s2 : F32.same_value
      (if a.controller_response = b.controller_response then
          F32.add (F32.add lit_0_0f (F32.mul (recognition_subscore a b) lit_0_4f)) lit_0_2f
        else F32.add lit_0_0f (F32.mul (recognition_subscore a b) lit_0_4f))
      (F32.add (F32.mul lit_0_4f (recognition_subscore a b))
        (F32.mul lit_0_2f
          (match_subscore (decide (a.controller_response = b.controller_response))))) := by
    by_cases hc : a.controller_response = b.controller_response
    · simp only [hc, if_true, decide_True, match_subscore, m1]
      exact F32.add_congr_left _ s1
    · simp only [hc, if_false, decide_False, match_subscore, m0, Bool.false_eq_true]
      exact F32.same_value_trans s1 (F32.same_value_symm (F32.add_zero_right_same _))
  -- the velocity-sensitivity term
  have s3 : F32.same_value
      (if a.velocity_sensitive = b.velocity_sensitive then
          F32.add
            (if a.controller_response = b.controller_response then
              F32.add (F32.add lit_0_0f (F32.mul (recognition_subscore a b) lit_0_4f)) lit_0_2f
            else F32.add lit_0_0f (F32.mul (recognition_subscore a b) lit_0_4f))
            lit_0_2f
        else
          (if a.controller_response = b.controller_response then
            F32.add (F32.add lit_0_0f (F32.mul (recognition_subscore a b) lit_0_4f)) lit_0_2f
          else F32.add lit_0_0f (F32.mul (recognition_subscore a b) lit_0_4f)))
      (F32.add
        (F32.add (F32.mul lit_0_4f (recognition_subscore a b))
          (F32.mul lit_0_2f
            (match_subscore (decide (a.controller_response = b.controller_response)))))
        (F32.mul lit_0_2f
          (match_subscore (decide (a.velocity_sensitive = b.velocity_sensitive))))) := by
    by_cases hv : a.velocity_sensitive = b.velocity_sensitive
    · simp only [hv, if_true, decide_True, match_subscore, m1]
      exact F32.add_congr_left _ s2
    · simp only [hv, if_false, decide_False, match_subscore, m0, Bool.false_eq_true]
      exact F32.same_value_trans s2 (F32.same_value_symm (F32.add_zero_right_same _))
  -- the tuning term
  unfold weighted_sum weighted_formula
  rw [F32.mul_comm (tuning_subscore a b) lit_0_2f]
  exact F32.add_congr_left _ s3

/-! ## The range of the score -/

/-- For present metrics of one program the final division by the weights is
the identity: the score is the weighted sum. -/
theorem score_eq_weighted_sum (a b : gm1_quality_metrics_t) (hprog : a.program = b.program) :
    gm1_calculate_consistency_score (some a) (some b) = weighted_sum a b := by
  rw [score_unfold a b hprog]
  unfold weighted_sum
  exact F32.div_add_one _ _

/-- C18: for all metrics arguments, absent or present, whose recognition
scores lie in `[0.0, 1.0]`, the score lies in `[0.0, 1.0]`, for every tuning
deviation. -/
theorem consistency_score_range (a b : Option gm1_quality_metrics_t)
    (hrange : ∀ m, (a = some m ∨ b = some m) →
      (F32.le lit_0_0f m.recognition_score = true
        ∧ F32.le m.recognition_score lit_1_0f = true)) :
    F32.le lit_0_0f (gm1_calculate_consistency_score a b) = true
    ∧ F32.le (gm1_calculate_consistency_score a b) lit_1_0f = true := by
  have hzero : F32.le lit_0_0f lit_0_0f = true ∧ F32.le lit_0_0f lit_1_0f = true :=
    ⟨by decide, by decide⟩
  cases a with
  | none => rw [score_eq_zero none b (Or.inl rfl)]; exact hzero
  | some x =>
    cases b with
    | none => rw [score_eq_zero (some x) none (Or.inr (Or.inl rfl))]; exact hzero
    | some y =>
      by_cases hprog : x.program = y.program
      · have hx := hrange x (Or.inl rfl)
        have hy := hrange y (Or.inr rfl)
        obtain ⟨rf, r0, r1⟩ := recognition_subscore_range x y hx hy
        obtain ⟨_, t0, t1⟩ := tuning_subscore_range x y
        obtain ⟨wf, wk⟩ := weighted_sum_key x y rf
        have hk := score_key_range (recognition_subscore x y).key
          (decide (x.controller_response = y.controller_response))
          (decide (x.velocity_sensitive = y.velocity_sensitive))
          (tuning_subscore x y).key r0 r1 t0 t1
        rw [← wk] at hk
        rw [score_eq_weighted_sum x y hprog]
        have hn := F32.isNaN_of_isFinite wf
        constructor
        · rw [F32.le_iff]
          exact ⟨by decide, hn, by rw [F32.key_zero]; exact hk.1⟩
        · rw [F32.le_iff]
          exact ⟨hn, by decide, by rw [F32.key_one]; exact hk.2⟩
      · rw [score_eq_zero (some x) (some y) (Or.inr (Or.inr ⟨x, y, rfl, rfl, hprog⟩))]
        exact hzero

/-- C18 at the unit test's pair of similar devices (recognition 0.9 and
0.85). -/
theorem consistency_score_range_witness :
    F32.le lit_0_0f
        (gm1_calculate_consistency_score (some (device1 1)) (some device2_similar)) = true
    ∧ F32.le (gm1_calculate_consistency_score (some (device1 1)) (some device2_similar))
        lit_1_0f = true :=
  consistency_score_range (some (device1 1)) (some device2_similar) (by
    intro m hm
    rcases hm with hm | hm
    · cases hm; exact ⟨by decide, by decide⟩
    · cases hm; exact ⟨by decide, by decide⟩)

/-! ## Monotonicity of the score -/

theorem match_subscore_lt (p q : Bool) :
    F32.lt (match_subscore p) (match_subscore q) = true ↔ (p = false ∧ q = true) := by
  cases p <;> cases q <;> decide

theorem match_subscore_le (p q : Bool) :
    F32.le (match_subscore p) (match_subscore q) = true ↔ (p = true → q = true) := by
  cases p <;> cases q <;> decide

theorem F32.add_neg_inf (w : F32) (hw : w.isFinite = true) :
    F32.add F32.neg_inf w = F32.neg_inf := by
  have h1 : F32.neg_inf.isNaN = false := by decide
  have h2 : F32.neg_inf.isInf = true := by decide
  unfold F32.add
  simp only [h1, h2, F32.isNaN_of_isFinite hw, F32.isInf_of_isFinite hw, Bool.or_self,
    Bool.false_eq_true, if_false, if_true, Bool.false_and]

/-- A recognition sub-score of negative infinity makes the weighted sum
negative infinity. -/
theorem weighted_sum_neg_inf (a b : gm1_quality_metrics_t)
    (h : recognition_subscore a b = F32.neg_inf) : weighted_sum a b = F32.neg_inf := by
  have e1 : F32.add lit_0_0f (F32.mul F32.neg_inf lit_0_4f) = F32.neg_inf := by decide!
  have e2 : F32.add F32.neg_inf lit_0_2f = F32.neg_inf := by decide!
  obtain ⟨ht, ht0, ht1⟩ := tuning_subscore_range a b
  have h2 := F32.key_0_2_bounds
  obtain ⟨wf, _⟩ := F32.mul_step _ lit_0_2f ht (by decide) h2.1 h2.2 ht1
  unfold weighted_sum
  rw [h, e1]
  split_ifs
  · rw [e2, e2]
    exact F32.add_neg_inf _ wf
  · rw [e2]
    exact F32.add_neg_inf _ wf
  · rw [e2]
    exact F32.add_neg_inf _ wf
  · exact F32.add_neg_inf _ wf

theorem F32.key_neg_inf : F32.neg_inf.key = - (2 : Int) ^ 277 := by
  have hm : F32.neg_inf.magnitude = 2 ^ 277 := F32.magnitude_of_isInf (by decide)
  rw [F32.key_of_sign_true (x := F32.neg_inf) rfl, hm]
  norm_cast

theorem F32.neg_inf_key_le (x : F32) (hx : x.isNaN = false) : F32.neg_inf.key ≤ x.key := by
  rw [F32.key_neg_inf]
  have hm := F32.magnitude_le_inf hx
  have hm' : (x.magnitude : Int) ≤ 2 ^ 277 := by exact_mod_cast hm
  have h0 : (0 : Int) ≤ x.magnitude := Int.ofNat_nonneg _
  unfold F32.key
  split_ifs <;> omega

/-- The weighted sum is not NaN when the recognition sub-score is not, and
monotone in the four sub-scores. -/
theorem weighted_sum_mono (a b c d : gm1_quality_metrics_t)
    (hrs : F32.le (recognition_subscore a b) (recognition_subscore c d) = true)
    (hcr : F32.le
        (match_subscore (decide (a.controller_response = b.controller_response)))
        (match_subscore (decide (c.controller_response = d.controller_response))) = true)
    (hvs : F32.le
        (match_subscore (decide (a.velocity_sensitive = b.velocity_sensitive)))
        (match_subscore (decide (c.velocity_sensitive = d.velocity_sensitive))) = true)
    (hts : F32.le (tuning_subscore a b) (tuning_subscore c d) = true) :
    F32.le (weighted_sum a b) (weighted_sum c d) = true := by
  obtain ⟨n1, n2, hk⟩ := (F32.le_iff _ _).1 hrs
  obtain ⟨_, _, htk⟩ := (F32.le_iff _ _).1 hts
  have hp := (match_subscore_le _ _).1 hcr
  have hq := (match_subscore_le _ _).1 hvs
  obtain ⟨_, c1⟩ := recognition_subscore_le a b n1
  obtain ⟨_, c2⟩ := recognition_subscore_le c d n2
  rw [F32.le_iff]
  rcases c1 with f1 | i1
  · rcases c2 with f2 | i2
    · obtain ⟨wf1, wk1⟩ := weighted_sum_key a b f1
      obtain ⟨wf2, wk2⟩ := weighted_sum_key c d f2
      refine ⟨F32.isNaN_of_isFinite wf1, F32.isNaN_of_isFinite wf2, ?_⟩
      rw [wk1, wk2]
      exact score_key_mono _ _ _ _ _ _ _ _ hk hp hq htk
    · -- the larger sub-score is negative infinity: impossible for a finite smaller one
      rw [i2, F32.key_neg_inf] at hk
      have := (F32.key_bounds_of_isFinite f1).1
      omega
  · rw [weighted_sum_neg_inf a b i1]
    rcases c2 with f2 | i2
    · obtain ⟨wf2, _⟩ := weighted_sum_key c d f2
      exact ⟨by decide, F32.isNaN_of_isFinite wf2,
        F32.neg_inf_key_le _ (F32.isNaN_of_isFinite wf2)⟩
    · rw [weighted_sum_neg_inf c d i2]
      exact ⟨by decide, by decide, le_refl _⟩

/-- C19, as stated, fails for recognition scores far outside the range 0.0..1.0:
with recognition scores 12491175.0 against 0.0 (both flags differing, tuning
0.0 against 1.0) each of the four sub-scores is strictly lower than with
12491174.0 against 0.0 (both flags equal, equal tuning), yet the two scores
are the same float, -4996469.5, so the first is not strictly lower. -/
theorem strictly_lower_counterexample :
    (metrics_of lit_12491175_0f true lit_0_0f).program
        = (metrics_of lit_0_0f false lit_1_0f).program
    ∧ (metrics_of lit_12491174_0f true lit_0_0f).program
        = (metrics_of lit_0_0f true lit_0_0f).program
    ∧ F32.lt
        (recognition_subscore (metrics_of lit_12491175_0f true lit_0_0f)
          (metrics_of lit_0_0f false lit_1_0f))
        (recognition_subscore (metrics_of lit_12491174_0f true lit_0_0f)
          (metrics_of lit_0_0f true lit_0_0f)) = true
    ∧ F32.lt
        (match_subscore (decide
          ((metrics_of lit_12491175_0f true lit_0_0f).controller_response
            = (metrics_of lit_0_0f false lit_1_0f).controller_response)))
        (match_subscore (decide
          ((metrics_of lit_12491174_0f true lit_0_0f).controller_response
            = (metrics_of lit_0_0f true lit_0_0f).controller_response))) = true
    ∧ F32.lt
        (match_subscore (decide
          ((metrics_of lit_12491175_0f true lit_0_0f).velocity_sensitive
            = (metrics_of lit_0_0f false lit_1_0f).velocity_sensitive)))
        (match_subscore (decide
          ((metrics_of lit_12491174_0f true lit_0_0f).velocity_sensitive
            = (metrics_of lit_0_0f true lit_0_0f).velocity_sensitive))) = true
    ∧ F32.lt
        (tuning_subscore (metrics_of lit_12491175_0f true lit_0_0f)
          (metrics_of lit_0_0f false lit_1_0f))
        (tuning_subscore (metrics_of lit_12491174_0f true lit_0_0f)
          (metrics_of lit_0_0f true lit_0_0f)) = true
    ∧ gm1_calculate_consistency_score (some (metrics_of lit_12491175_0f true lit_0_0f))
          (some (metrics_of lit_0_0f false lit_1_0f))
        = gm1_calculate_consistency_score (some (metrics_of lit_12491174_0f true lit_0_0f))
          (some (metrics_of lit_0_0f true lit_0_0f))
    ∧ gm1_calculate_consistency_score (some (metrics_of lit_12491175_0f true lit_0_0f))
          (some (metrics_of lit_0_0f false lit_1_0f)) = F32.ofBits 0xCA987AEB
    ∧ ¬ (F32.lt
        (gm1_calculate_consistency_score (some (metrics_of lit_12491175_0f true lit_0_0f))
          (some (metrics_of lit_0_0f false lit_1_0f)))
        (gm1_calculate_consistency_score (some (metrics_of lit_12491174_0f true lit_0_0f))
          (some (metrics_of lit_0_0f true lit_0_0f))) = true) := by
  decide!

/-- C19 (strictness amended to recognition scores in `[0.0, 1.0]`): for
present same-program pairs `(a, b)` and `(c, d)`, if the recognition scores
lie in `[0.0, 1.0]` and each of the four sub-scores of `(a, b)` is strictly
lower than the corresponding sub-score of `(c, d)`, then the score of
`(a, b)` is strictly lower; and for all recognition scores the score is
monotone non-decreasing in the four sub-scores. -/
theorem consistency_score_monotone (a b c d : gm1_quality_metrics_t)
    (hab : a.program = b.program) (hcd : c.program = d.program) :
    ((∀ m, (m = a ∨ m = b ∨ m = c ∨ m = d) →
          (F32.le lit_0_0f m.recognition_score = true
            ∧ F32.le m.recognition_score lit_1_0f = true)) →
      F32.lt (recognition_subscore a b) (recognition_subscore c d) = true →
      F32.lt (match_subscore (decide (a.controller_response = b.controller_response)))
        (match_subscore (decide (c.controller_response = d.controller_response))) = true →
      F32.lt (match_subscore (decide (a.velocity_sensitive = b.velocity_sensitive)))
        (match_subscore (decide (c.velocity_sensitive = d.velocity_sensitive))) = true →
      F32.lt (tuning_subscore a b) (tuning_subscore c d) = true →
      F32.lt (gm1_calculate_consistency_score (some a) (some b))
        (gm1_calculate_consistency_score (some c) (some d)) = true)
    ∧ (F32.le (recognition_subscore a b) (recognition_subscore c d) = true →
      F32.le (match_subscore (decide (a.controller_response = b.controller_response)))
        (match_subscore (decide (c.controller_response = d.controller_response))) = true →
      F32.le (match_subscore (decide (a.velocity_sensitive = b.velocity_sensitive)))
        (match_subscore (decide (c.velocity_sensitive = d.velocity_sensitive))) = true →
      F32.le (tuning_subscore a b) (tuning_subscore c d) = true →
      F32.le (gm1_calculate_consistency_score (some a) (some b))
        (gm1_calculate_consistency_score (some c) (some d)) = true) := by
  rw [score_eq_weighted_sum a b hab, score_eq_weighted_sum c d hcd]
  refine ⟨?_, weighted_sum_mono a b c d⟩
  intro hrange hrs hcr hvs hts
  obtain ⟨f1, r0, r1⟩ := recognition_subscore_range a b (hrange a (Or.inl rfl))
    (hrange b (Or.inr (Or.inl rfl)))
  obtain ⟨f2, r0', r1'⟩ := recognition_subscore_range c d
    (hrange c (Or.inr (Or.inr (Or.inl rfl)))) (hrange d (Or.inr (Or.inr (Or.inr rfl))))
  obtain ⟨_, t0, t1⟩ := tuning_subscore_range a b
  obtain ⟨_, t0', t1'⟩ := tuning_subscore_range c d
  obtain ⟨wf1, wk1⟩ := weighted_sum_key a b f1
  obtain ⟨wf2, wk2⟩ := weighted_sum_key c d f2
  obtain ⟨_, _, hk⟩ := (F32.lt_iff _ _).1 hrs
  obtain ⟨_, _, htk⟩ := (F32.lt_iff _ _).1 hts
  obtain ⟨p1, p2⟩ := (match_subscore_lt _ _).1 hcr
  obtain ⟨q1, q2⟩ := (match_subscore_lt _ _).1 hvs
  rw [F32.lt_iff]
  refine ⟨F32.isNaN_of_isFinite wf1, F32.isNaN_of_isFinite wf2, ?_⟩
  rw [wk1, wk2, p1, p2, q1, q2]
  exact score_key_strict _ _ _ _ r0 (le_of_lt hk) r1' t0 (le_of_lt htk) t1'

/-- C19 at the unit test's devices: the very different pair (0.9 against
0.8, flags differing, tuning 2.0 against 10.0) scores strictly lower than the
identical pair. -/
theorem consistency_score_monotone_witness :
    (device1 1).program = device2_different.program
    ∧ F32.lt (gm1_calculate_consistency_score (some (device1 1)) (some device2_different))
        (gm1_calculate_consistency_score (some (device1 1)) (some (device1 1))) = true
    ∧ F32.le (gm1_calculate_consistency_score (some (device1 1)) (some device2_different))
        (gm1_calculate_consistency_score (some (device1 1)) (some (device1 1))) = true :=
  ⟨rfl,
    (consistency_score_monotone (device1 1) device2_different (device1 1) (device1 1) rfl rfl).1
      (by
        intro m hm
        rcases hm with hm | hm | hm | hm <;> subst hm <;> exact ⟨by decide, by decide⟩)
      (by decide!) (by decide) (by decide) (by decide!),
    (consistency_score_monotone (device1 1) device2_different (device1 1) (device1 1) rfl rfl).2
      (by decide!) (by decide) (by decide) (by decide!)⟩

/-- C17 at the unit test's similar devices (recognition 0.9 against 0.85,
equal flags, tuning 2.0 against 5.0 cents). -/
theorem consistency_score_formula_witness :
    (device1 1).program = device2_similar.program
    ∧ F32.same_value (gm1_calculate_consistency_score (some (device1 1)) (some device2_similar))
        (weighted_formula (device1 1) device2_similar)
    ∧ F32.add (F32.add (F32.add (F32.add lit_0_0f lit_0_4f) lit_0_2f) lit_0_2f) lit_0_2f
        = lit_1_0f
    ∧ gm1_calculate_consistency_score (some (device1 1)) (some device2_similar)
        = weighted_sum (device1 1) device2_similar :=
  ⟨rfl, consistency_score_formula (device1 1) device2_similar rfl⟩

/-! ## Controller response: the platform stubs -/

theorem set_vibrato_depth_modulation (c : Nat) (d : F32) (s : channel_state) (h : c < 16) :
    (set_vibrato_depth c d s).channel_modulation ⟨c, h⟩ = d := by
  simp [set_vibrato_depth, h]

theorem set_vibrato_depth_calls (c : Nat) (d : F32) (s : channel_state) :
    (set_vibrato_depth c d s).calls = s.calls ++ [platform_call.set_vibrato_depth c d] := by
  unfold set_vibrato_depth
  by_cases h : c < 16 <;> simp [h]

theorem set_brightness_modulation (c : Nat) (d : F32) (s : channel_state) :
    (set_brightness c d s).channel_modulation = s.channel_modulation := rfl

theorem set_brightness_calls (c : Nat) (d : F32) (s : channel_state) :
    (set_brightness c d s).calls = s.calls ++ [platform_call.set_brightness c d] := rfl

theorem set_lfo_depth_modulation (c : Nat) (d : F32) (s : channel_state) :
    (set_lfo_depth c d s).channel_modulation = s.channel_modulation := rfl

theorem set_lfo_depth_calls (c : Nat) (d : F32) (s : channel_state) :
    (set_lfo_depth c d s).calls = s.calls ++ [platform_call.set_lfo_depth c d] := rfl

theorem get_channel_program_valid (c : Nat) (s : channel_state) (h : c < 16) :
    get_channel_program c s = s.channel_programs ⟨c, h⟩ := by
  simp [get_channel_program, h]

/-- Multiplying by `1.0f` returns the other factor. -/
theorem F32.mul_one (x : F32) (hx : x.isNaN = false) : F32.mul x lit_1_0f = x := by
  have h1 : lit_1_0f.isNaN = false := by decide
  have h2 : lit_1_0f.isInf = false := by decide
  have h3 : lit_1_0f.magnitude = 2 ^ 149 := by decide
  have h4 : lit_1_0f.sign = false := by decide
  have h5 : ¬ (2 ^ 149 = 0) := by positivity
  have hs : (x.sign != false) = x.sign := by cases x.sign <;> rfl
  unfold F32.mul
  simp only [hx, h1, h2, h3, h4, h5, hs, Bool.or_self, Bool.or_false, Bool.false_eq_true,
    if_false, or_false]
  split_ifs with hinf hz
  · rw [F32.magnitude_of_isInf hinf] at hz
    exact absurd hz (by positivity)
  · have := F32.magnitude_of_isInf hinf
    rw [← this]
    exact F32.ofMagnitude_magnitude x hx
  · rw [F32.round_mag_exact _ _ (by positivity) (F32.representable_magnitude x hx)]
    exact F32.ofMagnitude_magnitude x hx

theorem F32.isNaN_of_uint (n : Nat) : (F32.of_uint n).isNaN = false :=
  F32.isNaN_ofMagnitude _ _

/-- A normalised controller value is never NaN. -/
theorem isNaN_normalized_value (v : Nat) : (normalized_value v).isNaN = false := by
  have h1 : lit_127_0f.isNaN = false := by decide
  have h2 : lit_127_0f.isInf = false := by decide
  have h3 : ¬ (lit_127_0f.magnitude = 0) := by decide
  unfold normalized_value F32.div
  simp only [F32.isNaN_of_uint, h1, h2, h3, Bool.or_self, Bool.false_eq_true, if_false]
  split_ifs <;> exact F32.isNaN_ofMagnitude _ _

/-! ## Controller response: the modulation wheel -/

/-- The handler on a valid channel, as a function of the category of the
channel's program. -/
theorem modulation_wheel_valid (c v : Nat) (s : channel_state) (h : c < 16) :
    gm1_handle_modulation_wheel c v s =
      (fun category : gm1_instrument_category_t =>
        if category = GM1_CATEGORY_STRINGS ∨ category = GM1_CATEGORY_ENSEMBLE then
          set_vibrato_depth c (normalized_value v) s
        else if category = GM1_CATEGORY_BRASS ∨ category = GM1_CATEGORY_REED then
          set_brightness c (F32.mul (normalized_value v) lit_0_5f)
            (set_vibrato_depth c (normalized_value v) s)
        else if category = GM1_CATEGORY_SYNTH_LEAD then
          set_lfo_depth c (normalized_value v) s
        else if category = GM1_CATEGORY_SYNTH_PAD then
          set_lfo_depth c (F32.mul (normalized_value v) lit_0_5f)
            (set_vibrato_depth c (F32.mul (normalized_value v) lit_0_3f) s)
        else if category = GM1_CATEGORY_PERCUSSION ∨ category = GM1_CATEGORY_PERCUSSIVE then
          s
        else if category = GM1_CATEGORY_PIANO ∨ category = GM1_CATEGORY_CHROMATIC_PERC then
          set_vibrato_depth c (F32.mul (normalized_value v) lit_0_2f) s
        else if category = GM1_CATEGORY_ORGAN then
          set_vibrato_depth c (F32.mul (normalized_value v) lit_0_7f) s
        else if category = GM1_CATEGORY_GUITAR ∨ category = GM1_CATEGORY_BASS then
          set_vibrato_depth c (F32.mul (normalized_value v) lit_0_4f) s
        else if category = GM1_CATEGORY_PIPE then
          set_vibrato_depth c (F32.mul (normalized_value v) lit_0_6f) s
        else if category = GM1_CATEGORY_ETHNIC then
          set_vibrato_depth c (F32.mul (normalized_value v) lit_0_5f) s
        else if category = GM1_CATEGORY_SYNTH_EFFECTS
            ∨ category = GM1_CATEGORY_SOUND_EFFECTS then
          set_lfo_depth c (F32.mul (normalized_value v) lit_0_8f) s
        else
          set_vibrato_depth c (F32.mul (normalized_value v) lit_0_5f) s)
        (gm1_get_instrument_category (s.channel_programs ⟨c, h⟩)) := by
  have hc : ¬ c > 15 := by omega
  unfold gm1_handle_modulation_wheel
  rw [if_neg hc, get_channel_program_valid c s h]
  rfl

/-- The stored modulation depth after the handler, by category code. -/
theorem modulation_depth_after (c v : Nat) (s : channel_state) (h : c < 16) :
    (gm1_handle_modulation_wheel c v s).channel_modulation ⟨c, h⟩ =
      match vibrato_coefficient (gm1_get_instrument_category (s.channel_programs ⟨c, h⟩)) with
      | some k => F32.mul (normalized_value v) k
      | none => s.channel_modulation ⟨c, h⟩ := by
  rw [modulation_wheel_valid c v s h]
  generalize gm1_get_instrument_category (s.channel_programs ⟨c, h⟩) = category
  have h1 := F32.mul_one (normalized_value v) (isNaN_normalized_value v)
  by_cases hcat : category ≤ 17
  · interval_cases category <;>
      simp [vibrato_coefficient, GM1_CATEGORY_PIANO, GM1_CATEGORY_CHROMATIC_PERC,
        GM1_CATEGORY_ORGAN, GM1_CATEGORY_GUITAR, GM1_CATEGORY_BASS, GM1_CATEGORY_STRINGS,
        GM1_CATEGORY_ENSEMBLE, GM1_CATEGORY_BRASS, GM1_CATEGORY_REED, GM1_CATEGORY_PIPE,
        GM1_CATEGORY_SYNTH_LEAD, GM1_CATEGORY_SYNTH_PAD, GM1_CATEGORY_SYNTH_EFFECTS,
        GM1_CATEGORY_ETHNIC, GM1_CATEGORY_PERCUSSIVE, GM1_CATEGORY_SOUND_EFFECTS,
        GM1_CATEGORY_PERCUSSION, GM1_CATEGORY_UNKNOWN, set_vibrato_depth_modulation,
        set_brightness_modulation, set_lfo_depth_modulation, h1]
  · have e : ∀ k : Nat, k ≤ 17 → ¬ (category = k) := fun k hk heq => hcat (heq ▸ hk)
    simp [vibrato_coefficient, GM1_CATEGORY_PIANO, GM1_CATEGORY_CHROMATIC_PERC,
      GM1_CATEGORY_ORGAN, GM1_CATEGORY_GUITAR, GM1_CATEGORY_BASS, GM1_CATEGORY_STRINGS,
      GM1_CATEGORY_ENSEMBLE, GM1_CATEGORY_BRASS, GM1_CATEGORY_REED, GM1_CATEGORY_PIPE,
      GM1_CATEGORY_SYNTH_LEAD, GM1_CATEGORY_SYNTH_PAD, GM1_CATEGORY_SYNTH_EFFECTS,
      GM1_CATEGORY_ETHNIC, GM1_CATEGORY_PERCUSSIVE, GM1_CATEGORY_SOUND_EFFECTS,
      GM1_CATEGORY_PERCUSSION, GM1_CATEGORY_UNKNOWN, set_vibrato_depth_modulation,
      e 0, e 1, e 2, e 3, e 4, e 5, e 6, e 7, e 8, e 9, e 10, e 11, e 12, e 13, e 14, e 15,
      e 16, e 17]

/-- The LFO and brightness calls after the handler, by category code. -/
theorem lfo_brightness_after (c v : Nat) (s : channel_state) (h : c < 16) :
    (gm1_handle_modulation_wheel c v s).calls.filter platform_call.is_lfo_or_brightness =
      s.calls.filter platform_call.is_lfo_or_brightness
        ++ lfo_brightness_requests (gm1_get_instrument_category (s.channel_programs ⟨c, h⟩)) c
            (normalized_value v) := by
  rw [modulation_wheel_valid c v s h]
  generalize gm1_get_instrument_category (s.channel_programs ⟨c, h⟩) = category
  by_cases hcat : category ≤ 17
  · interval_cases category <;>
      simp [lfo_brightness_requests, GM1_CATEGORY_PIANO, GM1_CATEGORY_CHROMATIC_PERC,
        GM1_CATEGORY_ORGAN, GM1_CATEGORY_GUITAR, GM1_CATEGORY_BASS, GM1_CATEGORY_STRINGS,
        GM1_CATEGORY_ENSEMBLE, GM1_CATEGORY_BRASS, GM1_CATEGORY_REED, GM1_CATEGORY_PIPE,
        GM1_CATEGORY_SYNTH_LEAD, GM1_CATEGORY_SYNTH_PAD, GM1_CATEGORY_SYNTH_EFFECTS,
        GM1_CATEGORY_ETHNIC, GM1_CATEGORY_PERCUSSIVE, GM1_CATEGORY_SOUND_EFFECTS,
        GM1_CATEGORY_PERCUSSION, GM1_CATEGORY_UNKNOWN, set_vibrato_depth_calls,
        set_brightness_calls, set_lfo_depth_calls, List.filter_append,
        platform_call.is_lfo_or_brightness]
  · have e : ∀ k : Nat, k ≤ 17 → ¬ (category = k) := fun k hk heq => hcat (heq ▸ hk)
    simp [lfo_brightness_requests, GM1_CATEGORY_PIANO, GM1_CATEGORY_CHROMATIC_PERC,
      GM1_CATEGORY_ORGAN, GM1_CATEGORY_GUITAR, GM1_CATEGORY_BASS, GM1_CATEGORY_STRINGS,
      GM1_CATEGORY_ENSEMBLE, GM1_CATEGORY_BRASS, GM1_CATEGORY_REED, GM1_CATEGORY_PIPE,
      GM1_CATEGORY_SYNTH_LEAD, GM1_CATEGORY_SYNTH_PAD, GM1_CATEGORY_SYNTH_EFFECTS,
      GM1_CATEGORY_ETHNIC, GM1_CATEGORY_PERCUSSIVE, GM1_CATEGORY_SOUND_EFFECTS,
      GM1_CATEGORY_PERCUSSION, GM1_CATEGORY_UNKNOWN, set_vibrato_depth_calls,
      List.filter_append, platform_call.is_lfo_or_brightness,
      e 0, e 1, e 2, e 3, e 4, e 5, e 6, e 7, e 8, e 9, e 10, e 11, e 12, e 13, e 14, e 15,
      e 16, e 17]

/-- C23: after `gm1_handle_modulation_wheel` on a valid channel `c`, the stored
modulation depth of `c` is `(v / 127) * k` in float arithmetic, where `k` is
the coefficient of the category of the channel's program (1 for Strings,
Ensemble, Brass, Reed, where the product is the normalised value itself; 0.3
for Synth Pad; 0.2 for Piano, Chromatic Percussion; 0.7 for Organ; 0.4 for
Guitar, Bass; 0.6 for Pipe; 0.5 for Ethnic and Unknown); for Percussion,
Percussive, Synth Lead, Synth Effects and Sound Effects it is unchanged. -/
theorem modulation_wheel_vibrato (s : channel_state) (c v : Nat) (h : c < 16) :
    ((gm1_handle_modulation_wheel c v s).channel_modulation ⟨c, h⟩ =
      match vibrato_coefficient (gm1_get_instrument_category (s.channel_programs ⟨c, h⟩)) with
      | some k => F32.mul (normalized_value v) k
      | none => s.channel_modulation ⟨c, h⟩)
    ∧ F32.mul (normalized_value v) lit_1_0f = normalized_value v
    ∧ vibrato_coefficient GM1_CATEGORY_STRINGS = some lit_1_0f
    ∧ vibrato_coefficient GM1_CATEGORY_ENSEMBLE = some lit_1_0f
    ∧ vibrato_coefficient GM1_CATEGORY_BRASS = some lit_1_0f
    ∧ vibrato_coefficient GM1_CATEGORY_REED = some lit_1_0f
    ∧ vibrato_coefficient GM1_CATEGORY_SYNTH_PAD = some lit_0_3f
    ∧ vibrato_coefficient GM1_CATEGORY_PIANO = some lit_0_2f
    ∧ vibrato_coefficient GM1_CATEGORY_CHROMATIC_PERC = some lit_0_2f
    ∧ vibrato_coefficient GM1_CATEGORY_ORGAN = some lit_0_7f
    ∧ vibrato_coefficient GM1_CATEGORY_GUITAR = some lit_0_4f
    ∧ vibrato_coefficient GM1_CATEGORY_BASS = some lit_0_4f
    ∧ vibrato_coefficient GM1_CATEGORY_PIPE = some lit_0_6f
    ∧ vibrato_coefficient GM1_CATEGORY_ETHNIC = some lit_0_5f
    ∧ vibrato_coefficient GM1_CATEGORY_UNKNOWN = some lit_0_5f
    ∧ vibrato_coefficient GM1_CATEGORY_PERCUSSION = none
    ∧ vibrato_coefficient GM1_CATEGORY_PERCUSSIVE = none
    ∧ vibrato_coefficient GM1_CATEGORY_SYNTH_LEAD = none
    ∧ vibrato_coefficient GM1_CATEGORY_SYNTH_EFFECTS = none
    ∧ vibrato_coefficient GM1_CATEGORY_SOUND_EFFECTS = none :=
  ⟨modulation_depth_after c v s h, F32.mul_one _ (isNaN_normalized_value v), by decide⟩

/-- C23 on channel 0 of the initial state (program 1, Piano) with value 64:
the stored depth becomes `(64 / 127) * 0.2`. -/
theorem modulation_wheel_vibrato_witness :
    (gm1_handle_modulation_wheel 0 64 initial_channel_state).channel_modulation
        ⟨0, by decide⟩ = F32.mul (normalized_value 64) lit_0_2f :=
  (modulation_wheel_vibrato initial_channel_state 0 64 (by decide)).1

/-- C24: on a valid channel the handler calls `set_lfo_depth` with `n` for
Synth Lead, with `n * 0.5` for Synth Pad, with `n * 0.8` for Synth Effects and
Sound Effects, calls `set_brightness` with `n * 0.5` for Brass and Reed, and
makes no such call for any other category (`n` the normalised value). -/
theorem modulation_wheel_lfo_brightness (s : channel_state) (c v : Nat) (h : c < 16) :
    (gm1_handle_modulation_wheel c v s).calls.filter platform_call.is_lfo_or_brightness =
      s.calls.filter platform_call.is_lfo_or_brightness
        ++ (fun category : gm1_instrument_category_t =>
            if category = GM1_CATEGORY_SYNTH_LEAD then
              [platform_call.set_lfo_depth c (normalized_value v)]
            else if category = GM1_CATEGORY_SYNTH_PAD then
              [platform_call.set_lfo_depth c (F32.mul (normalized_value v) lit_0_5f)]
            else if category = GM1_CATEGORY_SYNTH_EFFECTS
                ∨ category = GM1_CATEGORY_SOUND_EFFECTS then
              [platform_call.set_lfo_depth c (F32.mul (normalized_value v) lit_0_8f)]
            else if category = GM1_CATEGORY_BRASS ∨ category = GM1_CATEGORY_REED then
              [platform_call.set_brightness c (F32.mul (normalized_value v) lit_0_5f)]
            else [])
          (gm1_get_instrument_category (s.channel_programs ⟨c, h⟩)) :=
  lfo_brightness_after c v s h

/-- C24 on channel 0 with value 127 (normalised value 1.0): one LFO call
with depth 0.5 for program 89 (Synth Pad), one brightness call with 0.5 for
program 57 (Brass), and no such call for program 1 (Piano). -/
theorem modulation_wheel_lfo_brightness_witness :
    (gm1_handle_modulation_wheel 0 127 (uniform_channel_state 89)).calls.filter
        platform_call.is_lfo_or_brightness = [platform_call.set_lfo_depth 0 lit_0_5f]
    ∧ (gm1_handle_modulation_wheel 0 127 (uniform_channel_state 57)).calls.filter
        platform_call.is_lfo_or_brightness = [platform_call.set_brightness 0 lit_0_5f]
    ∧ (gm1_handle_modulation_wheel 0 127 (uniform_channel_state 1)).calls.filter
        platform_call.is_lfo_or_brightness = [] :=
  ⟨(modulation_wheel_lfo_brightness (uniform_channel_state 89) 0 127 (by decide)).trans
      (by decide!),
    (modulation_wheel_lfo_brightness (uniform_channel_state 57) 0 127 (by decide)).trans
      (by decide!),
    (modulation_wheel_lfo_brightness (uniform_channel_state 1) 0 127 (by decide)).trans
      (by decide!)⟩

/-- C25: for a channel above 15 both handlers return the state as it was:
no array element changes and no stub is called. -/
theorem out_of_range_channel_ignored (log10f : F32 → F32) (powf : F32 → F32 → F32)
    (s : channel_state) (c v : Nat) (h : c > 15) :
    gm1_handle_modulation_wheel c v s = s
    ∧ gm1_handle_volume_controller log10f powf c v s = s := by
  unfold gm1_handle_modulation_wheel gm1_handle_volume_controller
  rw [if_pos h, if_pos h]
  exact ⟨rfl, rfl⟩

/-- C25 at the unit test's invalid channel 16 with value 64. -/
theorem out_of_range_channel_ignored_witness :
    gm1_handle_modulation_wheel 16 64 initial_channel_state = initial_channel_state
    ∧ gm1_handle_volume_controller log10f_sample powf_sample 16 64 initial_channel_state
        = initial_channel_state :=
  out_of_range_channel_ignored log10f_sample powf_sample initial_channel_state 16 64
    (by decide)

/-- C27 fails on the code: with a sample rate of 11025 Hz (below the minimum
of 22050 Hz) and every other value at the recommended level, the result has
`meets_recommended = true` and `meets_minimum = false`. -/
theorem recommended_without_minimum (fmt_f : Nat → F32 → List Char) :
    (gm1_validate_audio_quality fmt_f (some low_rate_quality)).meets_recommended = true
    ∧ (gm1_validate_audio_quality fmt_f (some low_rate_quality)).meets_minimum = false := by
  rw [meets_recommended_eq, meets_minimum_eq]
  decide

/-- C28 fails on the code: in the initial state channel index 9 holds program
0, whose category is Unknown and not Percussion, so the default case applies:
`gm1_handle_modulation_wheel(9, 127)` changes the modulation depth of
channel 9 from `0.0` to `0.5`, and value 64 changes it to `(64 / 127) * 0.5`. -/
theorem percussion_channel_modulated :
    initial_channel_state.channel_programs 9 = 0
    ∧ gm1_get_instrument_category 0 = GM1_CATEGORY_UNKNOWN
    ∧ initial_channel_state.channel_modulation 9 = lit_0_0f
    ∧ (gm1_handle_modulation_wheel 9 127 initial_channel_state).channel_modulation 9
        = lit_0_5f
    ∧ (gm1_handle_modulation_wheel 9 64 initial_channel_state).channel_modulation 9
        = F32.ofBits 0x3E810204
    ∧ (gm1_handle_modulation_wheel 9 127 initial_channel_state).channel_modulation 9
        ≠ initial_channel_state.channel_modulation 9 := by
  decide!

/-! ## Volume controller -/

theorem normalized_value_127 : normalized_value 127 = lit_1_0f := by decide!

theorem set_channel_volume_internal_volume (powf : F32 → F32 → F32) (c : Nat) (db : F32)
    (s : channel_state) (h : c < 16) :
    (set_channel_volume_internal powf c db s).channel_volumes ⟨c, h⟩
      = powf lit_10_0f (F32.div db lit_20_0f) := by
  simp [set_channel_volume_internal, h]

/-- C21: `gm1_midi_value_to_db(0)` is `-60.0f` for every `log10f`;
`(float)127 / 127.0f` is exactly `1.0f`, so with a `log10f` that returns `+0`
at `1` (as C requires) `gm1_midi_value_to_db(127)` is `0.0f`; and for every
other value the result is `20.0f * log10f((float)v / 127.0f)`. -/
theorem midi_value_to_db_values (log10f : F32 → F32) (h1 : log10f lit_1_0f = lit_0_0f) :
    gm1_midi_value_to_db log10f 0 = lit_neg_60_0f
    ∧ gm1_midi_value_to_db log10f 127 = lit_0_0f
    ∧ F32.div (F32.of_uint 127) lit_127_0f = lit_1_0f
    ∧ ∀ v, v ≠ 0 →
        gm1_midi_value_to_db log10f v
          = F32.mul lit_20_0f (log10f (F32.div (F32.of_uint v) lit_127_0f)) := by
  have e : F32.div (F32.of_uint 127) lit_127_0f = lit_1_0f := normalized_value_127
  refine ⟨rfl, ?_, e, fun v hv => ?_⟩
  · unfold gm1_midi_value_to_db
    rw [if_neg (by decide), e, h1]
    decide!
  · unfold gm1_midi_value_to_db
    rw [if_neg hv]

/-- C21 with the sample `log10f`; value 64 gives `20.0f * -0.29762375f`,
the float `-5.9524751`. -/
theorem midi_value_to_db_values_witness :
    log10f_sample lit_1_0f = lit_0_0f
    ∧ gm1_midi_value_to_db log10f_sample 0 = lit_neg_60_0f
    ∧ gm1_midi_value_to_db log10f_sample 127 = lit_0_0f
    ∧ gm1_midi_value_to_db log10f_sample 64 = F32.ofBits 0xC0BE7AAD :=
  ⟨by decide, (midi_value_to_db_values log10f_sample (by decide)).1,
    (midi_value_to_db_values log10f_sample (by decide)).2.1,
    ((midi_value_to_db_values log10f_sample (by decide)).2.2.2 64 (by decide)).trans
      (by decide!)⟩

/-- C26: on a valid channel `gm1_handle_volume_controller` stores
`powf(10.0f, gm1_midi_value_to_db(v) / 20.0f)` as the channel's volume; in
exact arithmetic `10 ^ (20 * log10(v / 127) / 20)` is `v / 127` for `v` in
1..127 (1 at 127), and `10 ^ (-60 / 20)` is `0.001`. -/
theorem volume_controller_sets_volume (log10f : F32 → F32) (powf : F32 → F32 → F32)
    (s : channel_state) (c v : Nat) (h : c < 16) :
    (gm1_handle_volume_controller log10f powf c v s).channel_volumes ⟨c, h⟩
        = powf lit_10_0f (F32.div (gm1_midi_value_to_db log10f v) lit_20_0f)
    ∧ (∀ n : ℕ, 1 ≤ n → n ≤ 127 →
        (10 : ℝ) ^ (20 * Real.logb 10 ((n : ℝ) / 127) / 20) = (n : ℝ) / 127)
    ∧ (10 : ℝ) ^ (20 * Real.logb 10 ((127 : ℝ) / 127) / 20) = 1
    ∧ (10 : ℝ) ^ ((-60 : ℝ) / 20) = 1 / 1000 := by
  have hc : ¬ c > 15 := by omega
  refine ⟨?_, fun n hn _ => ?_, ?_, ?_⟩
  · unfold gm1_handle_volume_controller
    rw [if_neg hc]
    exact set_channel_volume_internal_volume powf c _ s h
  · have hpos : (0 : ℝ) < (n : ℝ) / 127 := by
      have : (0 : ℝ) < n := by exact_mod_cast hn
      positivity
    rw [show 20 * Real.logb 10 ((n : ℝ) / 127) / 20 = Real.logb 10 ((n : ℝ) / 127) by ring]
    exact Real.rpow_logb (by norm_num) (by norm_num) hpos
  · rw [show 20 * Real.logb 10 ((127 : ℝ) / 127) / 20 = Real.logb 10 ((127 : ℝ) / 127) by ring]
    rw [Real.rpow_logb (by norm_num) (by norm_num) (by norm_num)]
    norm_num
  · rw [show (-60 : ℝ) / 20 = -((3 : ℕ) : ℝ) by norm_num, Real.rpow_neg (by norm_num),
      Real.rpow_natCast]
    norm_num

/-- C26 on channel 0 of the initial state with the sample library functions:
value 0 stores `powf(10.0f, -3.0f)`, the float `0.001`, and value 64 stores
`0.503937`, the float of `64 / 127`. -/
theorem volume_controller_sets_volume_witness :
    (gm1_handle_volume_controller log10f_sample powf_sample 0 0
        initial_channel_state).channel_volumes ⟨0, by decide⟩ = F32.ofBits 0x3A83126F
    ∧ (gm1_handle_volume_controller log10f_sample powf_sample 0 64
        initial_channel_state).channel_volumes ⟨0, by decide⟩ = F32.ofBits 0x3F010204 :=
  ⟨(volume_controller_sets_volume log10f_sample powf_sample initial_channel_state 0 0
      (by decide)).1.trans (by decide!),
    (volume_controller_sets_volume log10f_sample powf_sample initial_channel_state 0 64
      (by decide)).1.trans (by decide!)⟩

/-! ## Negative and low consistency scores -/

theorem F32.mul_of_isNaN_left (a b : F32) (h : a.isNaN = true) : F32.mul a b = F32.invalid := by
  unfold F32.mul
  simp only [h, Bool.true_or, if_true]

/-- A NaN recognition sub-score makes the weighted sum NaN. -/
theorem weighted_sum_isNaN (a b : gm1_quality_metrics_t)
    (h : (recognition_subscore a b).isNaN = true) : (weighted_sum a b).isNaN = true := by
  have e1 : F32.add lit_0_0f (F32.mul (recognition_subscore a b) lit_0_4f) = F32.invalid := by
    rw [F32.mul_of_isNaN_left _ _ h]
    exact F32.add_of_isNaN_right _ _ F32.isNaN_invalid
  have e2 : F32.add F32.invalid lit_0_2f = F32.invalid :=
    F32.add_of_isNaN_left _ _ F32.isNaN_invalid
  have e3 : ∀ w, (F32.add F32.invalid w).isNaN = true := fun w => by
    rw [F32.add_of_isNaN_left _ _ F32.isNaN_invalid]
    exact F32.isNaN_invalid
  unfold weighted_sum
  rw [e1]
  split_ifs
  · rw [e2, e2]
    exact e3 _
  · rw [e2]
    exact e3 _
  · rw [e2]
    exact e3 _
  · exact e3 _

/-- A recognition difference of at most `1.0` gives a finite recognition
sub-score in `[0, 1]`. -/
theorem recognition_subscore_of_diff_le (a b : gm1_quality_metrics_t)
    (hz : (F32.fabsf (F32.sub a.recognition_score b.recognition_score)).key ≤ 2 ^ 149) :
    (recognition_subscore a b).isFinite = true ∧ 0 ≤ (recognition_subscore a b).key
    ∧ (recognition_subscore a b).key ≤ 2 ^ 149 := by
  have hz0 : 0 ≤ (F32.fabsf (F32.sub a.recognition_score b.recognition_score)).key := by
    rw [F32.key_fabsf]
    exact Int.ofNat_nonneg _
  have fz := F32.isFinite_of_range hz0 hz
  have hs := F32.sub_finite lit_1_0f _ (by decide) fz
  unfold recognition_subscore
  rw [F32.key_one] at hs
  have hr0 : 0 ≤ (F32.sub lit_1_0f
      (F32.fabsf (F32.sub a.recognition_score b.recognition_score))).key := by
    rw [hs.2]
    have := F32.round_key_mono 0
      (2 ^ 149 - (F32.fabsf (F32.sub a.recognition_score b.recognition_score)).key) 1
      (by decide) (by omega)
    rwa [F32.round_key_zero] at this
  have hr1 : (F32.sub lit_1_0f
      (F32.fabsf (F32.sub a.recognition_score b.recognition_score))).key ≤ 2 ^ 149 := by
    rw [hs.2]
    have := F32.round_key_mono
      (2 ^ 149 - (F32.fabsf (F32.sub a.recognition_score b.recognition_score)).key)
      (2 ^ 149) 1 (by decide) (by omega)
    rwa [F32.round_key_one_exact] at this
  exact ⟨F32.isFinite_of_range hr0 hr1, hr0, hr1⟩

/-- A recognition sub-score in `[0, 1]` gives a weighted sum that is not
negative. -/
theorem weighted_sum_not_negative (a b : gm1_quality_metrics_t)
    (hr : (recognition_subscore a b).isFinite = true ∧ 0 ≤ (recognition_subscore a b).key
      ∧ (recognition_subscore a b).key ≤ 2 ^ 149) :
    F32.lt (weighted_sum a b) lit_0_0f = false := by
  obtain ⟨rf, r0, r1⟩ := hr
  obtain ⟨_, t0, t1⟩ := tuning_subscore_range a b
  obtain ⟨_, wk⟩ := weighted_sum_key a b rf
  have hk := score_key_range (recognition_subscore a b).key
    (decide (a.controller_response = b.controller_response))
    (decide (a.velocity_sensitive = b.velocity_sensitive))
    (tuning_subscore a b).key r0 r1 t0 t1
  rw [← wk] at hk
  cases hlt : F32.lt (weighted_sum a b) lit_0_0f
  · rfl
  · have := ((F32.lt_iff _ _).1 hlt).2.2
    rw [F32.key_zero] at this
    omega

/-- A negative weighted sum needs a recognition difference above `1.0`. -/
theorem diff_gt_one_of_negative (a b : gm1_quality_metrics_t)
    (hneg : F32.lt (weighted_sum a b) lit_0_0f = true) :
    F32.gt (F32.fabsf (F32.sub a.recognition_score b.recognition_score)) lit_1_0f = true := by
  have hwn : (weighted_sum a b).isNaN = false := ((F32.lt_iff _ _).1 hneg).1
  have hrn : (recognition_subscore a b).isNaN = false := by
    cases h : (recognition_subscore a b).isNaN
    · rfl
    · rw [weighted_sum_isNaN a b h] at hwn
      exact absurd hwn (by decide)
  have hzn : (F32.fabsf (F32.sub a.recognition_score b.recognition_score)).isNaN = false := by
    cases h : (F32.fabsf (F32.sub a.recognition_score b.recognition_score)).isNaN
    · rfl
    · have : (recognition_subscore a b).isNaN = true := by
        unfold recognition_subscore F32.sub
        rw [F32.add_of_isNaN_right _ _ (by rw [F32.isNaN_neg]; exact h)]
        exact F32.isNaN_invalid
      rw [this] at hrn
      exact absurd hrn (by decide)
  by_contra hgt
  have hle : (F32.fabsf (F32.sub a.recognition_score b.recognition_score)).key ≤ 2 ^ 149 := by
    by_contra hcon
    apply hgt
    unfold F32.gt
    rw [F32.lt_iff, F32.key_one]
    exact ⟨by decide, hzn, by omega⟩
  have := weighted_sum_not_negative a b (recognition_subscore_of_diff_le a b hle)
  rw [this] at hneg
  exact absurd hneg (by decide)

theorem score_key_flags_differ :
    score_key (2 ^ 149) false false (2 ^ 149) = lit_0_6f.key := by
  decide!

theorem F32.key_0_6_lt_0_8 : lit_0_6f.key < GM1_MIN_RECOGNITION_SCORE.key := by
  decide!

/-- With both flags differing and a recognition sub-score in `[0, 1]` the
weighted sum is at most `0.6f`. -/
theorem weighted_sum_flags_differ (a b : gm1_quality_metrics_t)
    (hr : (recognition_subscore a b).isFinite = true ∧ 0 ≤ (recognition_subscore a b).key
      ∧ (recognition_subscore a b).key ≤ 2 ^ 149)
    (hcr : a.controller_response ≠ b.controller_response)
    (hvs : a.velocity_sensitive ≠ b.velocity_sensitive) :
    (weighted_sum a b).isNaN = false ∧ (weighted_sum a b).key ≤ lit_0_6f.key := by
  obtain ⟨rf, _, r1⟩ := hr
  obtain ⟨_, _, t1⟩ := tuning_subscore_range a b
  obtain ⟨wf, wk⟩ := weighted_sum_key a b rf
  refine ⟨F32.isNaN_of_isFinite wf, ?_⟩
  rw [wk, decide_eq_false hcr, decide_eq_false hvs, ← score_key_flags_differ]
  exact score_key_mono _ _ _ _ _ _ _ _ r1 (fun h => h) (fun h => h) t1

/-- C29: the score is not clamped: recognition scores 2.0 against 0.0 (flags
differing, tuning 0.0 against 20.0) score `-0.4`; and whenever the score of
present same-program metrics is negative, the recognition difference
`fabsf(a.recognition_score - b.recognition_score)` is above `1.0`, so that
the two recognition scores do not both lie in `[0.0, 1.0]`. -/
theorem negative_score_out_of_range :
    (∃ a b : gm1_quality_metrics_t, a.program = b.program
      ∧ F32.lt (gm1_calculate_consistency_score (some a) (some b)) lit_0_0f = true)
    ∧ gm1_calculate_consistency_score (some (metrics_of lit_2_0f true lit_0_0f))
        (some (metrics_of lit_0_0f false lit_20_0f)) = F32.ofBits 0xBECCCCCD
    ∧ ∀ a b : gm1_quality_metrics_t, a.program = b.program →
        F32.lt (gm1_calculate_consistency_score (some a) (some b)) lit_0_0f = true →
        F32.gt (F32.fabsf (F32.sub a.recognition_score b.recognition_score)) lit_1_0f = true
        ∧ ¬ ((F32.le lit_0_0f a.recognition_score = true
              ∧ F32.le a.recognition_score lit_1_0f = true)
            ∧ (F32.le lit_0_0f b.recognition_score = true
              ∧ F32.le b.recognition_score lit_1_0f = true)) := by
  refine ⟨⟨metrics_of lit_2_0f true lit_0_0f, metrics_of lit_0_0f false lit_20_0f, rfl,
    by decide!⟩, by decide!, fun a b hprog hneg => ?_⟩
  rw [score_eq_weighted_sum a b hprog] at hneg
  refine ⟨diff_gt_one_of_negative a b hneg, fun hrange => ?_⟩
  have := weighted_sum_not_negative a b (recognition_subscore_range a b hrange.1 hrange.2)
  rw [this] at hneg
  exact absurd hneg (by decide)

/-- C30: for present same-program metrics with recognition scores in
`[0.0, 1.0]` whose controller-response flags differ and whose
velocity-sensitivity flags differ, the score is at most `0.6f` and
`gm1_is_consistent` of it is false. -/
theorem very_different_not_consistent (a b : gm1_quality_metrics_t)
    (hprog : a.program = b.program)
    (ha : F32.le lit_0_0f a.recognition_score = true
      ∧ F32.le a.recognition_score lit_1_0f = true)
    (hb : F32.le lit_0_0f b.recognition_score = true
      ∧ F32.le b.recognition_score lit_1_0f = true)
    (hcr : a.controller_response ≠ b.controller_response)
    (hvs : a.velocity_sensitive ≠ b.velocity_sensitive) :
    F32.le (gm1_calculate_consistency_score (some a) (some b)) lit_0_6f = true
    ∧ gm1_is_consistent (gm1_calculate_consistency_score (some a) (some b)) = false := by
  rw [score_eq_weighted_sum a b hprog]
  obtain ⟨hn, hk⟩ := weighted_sum_flags_differ a b (recognition_subscore_range a b ha hb)
    hcr hvs
  constructor
  · rw [F32.le_iff]
    exact ⟨hn, by decide, hk⟩
  · cases hc : gm1_is_consistent (weighted_sum a b)
    · rfl
    · unfold gm1_is_consistent F32.ge at hc
      have := ((F32.le_iff _ _).1 hc).2.2
      have := F32.key_0_6_lt_0_8
      omega

/-- C30 at the unit test's very different pair (0.9/true/true/2.0 against
0.8/false/false/10.0), whose score is `0.48`; the bound `0.6f` is reached by
equal recognition scores and tunings with differing flags. -/
theorem very_different_not_consistent_witness :
    (device1 1).program = device2_different.program
    ∧ F32.le (gm1_calculate_consistency_score (some (device1 1)) (some device2_different))
        lit_0_6f = true
    ∧ gm1_is_consistent
        (gm1_calculate_consistency_score (some (device1 1)) (some device2_different)) = false
    ∧ gm1_calculate_consistency_score (some (device1 1)) (some device2_different)
        = F32.ofBits 0x3EF5C290
    ∧ gm1_calculate_consistency_score (some (metrics_of lit_1_0f true lit_0_0f))
        (some (metrics_of lit_1_0f false lit_0_0f)) = lit_0_6f :=
  ⟨rfl,
    (very_different_not_consistent (device1 1) device2_different rfl
      ⟨by decide, by decide⟩ ⟨by decide, by decide⟩ (by decide) (by decide)).1,
    (very_different_not_consistent (device1 1) device2_different rfl
      ⟨by decide, by decide⟩ ⟨by decide, by decide⟩ (by decide) (by decide)).2,
    by decide!, by decide!⟩

/-! ## The normalised controller values -/

/-- The float `(float)v / 127.0f` for `v` in 1..127 is positive, at most 1 and
within `2 ^ (-25)` of `v / 127`. -/
theorem normalized_value_bounds :
    ∀ v, v < 128 → 1 ≤ v →
      (0 < (normalized_value v).key ∧ (normalized_value v).key ≤ 2 ^ 149
        ∧ (v : Int) * 2 ^ 149 ≤ 127 * (normalized_value v).key + 127 * 2 ^ 124
        ∧ 127 * (normalized_value v).key ≤ (v : Int) * 2 ^ 149 + 127 * 2 ^ 124) := by
  decide!

/-! ## Bounds on base-10 logarithms -/

/-- A lower bound `-(p / q)` on a base-10 logarithm from a comparison of
powers. -/
theorem logb_ge_of_pow (X : ℝ) (hX : 0 < X) (p q : ℕ) (hq : 0 < q)
    (h : 1 ≤ X ^ q * 10 ^ p) : -((p : ℝ) / q) ≤ Real.logb 10 X := by
  have h10 : (1 : ℝ) < 10 := by norm_num
  have h1 : Real.logb 10 (X ^ q * 10 ^ p) = q * Real.logb 10 X + p := by
    rw [Real.logb_mul (pow_pos hX q).ne' (by positivity), Real.logb_pow, Real.logb_pow,
      Real.logb_self_eq_one h10, mul_one]
  have h2 : 0 ≤ Real.logb 10 (X ^ q * 10 ^ p) := Real.logb_nonneg h10 h
  rw [h1] at h2
  have hq' : (0 : ℝ) < q := by exact_mod_cast hq
  rw [neg_le, ← sub_nonneg]
  have e : (p : ℝ) / q - -Real.logb 10 X = (q * Real.logb 10 X + p) / q := by
    field_simp
    ring
  rw [e]
  positivity

/-- An upper bound `-(p / q)` on a base-10 logarithm from a comparison of
powers. -/
theorem logb_le_of_pow (X : ℝ) (hX : 0 < X) (p q : ℕ) (hq : 0 < q)
    (h : X ^ q * 10 ^ p ≤ 1) : Real.logb 10 X ≤ -((p : ℝ) / q) := by
  have h10 : (1 : ℝ) < 10 := by norm_num
  have h1 : Real.logb 10 (X ^ q * 10 ^ p) = q * Real.logb 10 X + p := by
    rw [Real.logb_mul (pow_pos hX q).ne' (by positivity), Real.logb_pow, Real.logb_pow,
      Real.logb_self_eq_one h10, mul_one]
  have h2 : Real.logb 10 (X ^ q * 10 ^ p) ≤ 0 := Real.logb_nonpos h10 (by positivity) h
  rw [h1] at h2
  have hq' : (0 : ℝ) < q := by exact_mod_cast hq
  rw [le_neg, ← sub_nonneg]
  have e : -Real.logb 10 X - (p : ℝ) / q = -(q * Real.logb 10 X + p) / q := by
    field_simp
    ring
  rw [e]
  apply div_nonneg _ hq'.le
  linarith

/-- A ratio of at least `1.0078` separates base-10 logarithms by at least
`3/1000`. -/
theorem logb_gap (x y : ℝ) (hx : 0 < x) (h : 10078 * x ≤ 10000 * y) :
    Real.logb 10 x + 3 / 1000 ≤ Real.logb 10 y := by
  have h10 : (1 : ℝ) < 10 := by norm_num
  have hy : 0 < y := by nlinarith
  have hr : Real.logb 10 (10000 / 10078) ≤ -(((3 : ℕ) : ℝ) / ((1000 : ℕ) : ℝ)) :=
    logb_le_of_pow (10000 / 10078) (by norm_num) 3 1000 (by norm_num) (by norm_num)
  have hxy : x / y ≤ 10000 / 10078 := by
    rw [div_le_div_iff₀ hy (by norm_num)]
    linarith
  have hd : Real.logb 10 (x / y) ≤ Real.logb 10 (10000 / 10078) :=
    Real.logb_le_logb_of_le h10 (div_pos hx hy) hxy
  rw [Real.logb_div hx.ne' hy.ne'] at hd
  push_cast at hr
  linarith

/-! ## Multiplication by `20.0f` -/

theorem F32.round_mag_scale (n d c : Nat) (hc : 0 < c) :
    F32.round_mag (n * c) (d * c) = F32.round_mag n d := by
  unfold F32.round_mag
  rw [F32.quantum_scale n d c 253 hc]
  have e : d * c * 2 ^ F32.quantum n d 253 = d * 2 ^ F32.quantum n d 253 * c := by ring
  rw [e, F32.rne_scale _ _ c hc]

theorem F32.round_key_scale (s : Int) (d c : Nat) (hc : 0 < c) :
    F32.round_key (s * c) (d * c) = F32.round_key s d := by
  have hc' : (0 : Int) < c := by exact_mod_cast hc
  have habs : (s * (c : Int)).natAbs = s.natAbs * c := by
    rw [Int.natAbs_mul, Int.natAbs_ofNat]
  unfold F32.round_key
  rw [habs, F32.round_mag_scale _ _ c hc]
  by_cases hs : s < 0
  · rw [if_pos hs, if_pos (Int.mul_neg_of_neg_of_pos hs hc')]
  · rw [if_neg hs, if_neg (by have := Int.mul_nonneg (not_lt.1 hs) hc'.le; omega)]

/-- Rounding a key of magnitude at most `2 ^ 160` moves it by at most
`2 ^ 139`. -/
theorem F32.round_key_near_abs (t : Int) (h0 : - (2 : Int) ^ 160 ≤ t) (ht : t ≤ 2 ^ 160) :
    t - 2 ^ 139 ≤ F32.round_key t 1 ∧ F32.round_key t 1 ≤ t + 2 ^ 139 := by
  rcases le_or_lt 0 t with h | h
  · exact F32.round_key_near t h ht
  · have := F32.round_key_near (-t) (by omega) (by omega)
    rw [F32.round_key_neg] at this
    constructor <;> omega

/-- The product `20.0f * y` for a finite `y`: its key is the rounded `20 * y`. -/
theorem F32.mul_20 (y : F32) (hy : y.isFinite = true) :
    (F32.mul lit_20_0f y).isNaN = false
    ∧ (F32.mul lit_20_0f y).key = F32.round_key (20 * y.key) 1 := by
  obtain ⟨hn, hk⟩ := F32.mul_finite lit_20_0f y (by decide) hy
  refine ⟨hn, ?_⟩
  have h20 : lit_20_0f.key = 20 * ((2 ^ 149 : Nat) : Int) := by decide!
  have e : lit_20_0f.key * y.key = 20 * y.key * ((2 ^ 149 : Nat) : Int) := by
    rw [h20]
    ring
  have := F32.round_key_scale (20 * y.key) 1 (2 ^ 149) (by positivity)
  rw [Nat.one_mul] at this
  rw [hk, e, this]

/-! ## Accuracy of `log10f` and the order of the decibel values -/

/-- The value of an accurate `log10f` at an argument in `[1/1000, 1]` lies in
`[-3.001, 0.001]`. -/
theorem log10f_within_range (x y : F32) (hx0 : (2 : Int) ^ 149 ≤ 1000 * x.key)
    (hx1 : x.key ≤ 2 ^ 149) (h : log10f_within x y) :
    - (3001 * 2 ^ 149) ≤ 1000 * y.key ∧ 1000 * y.key ≤ 2 ^ 149 := by
  obtain ⟨_, hacc⟩ := h
  have hP : (0 : ℝ) < 2 ^ 149 := by positivity
  have hx0' : (2 : ℝ) ^ 149 ≤ 1000 * (x.key : ℝ) := by exact_mod_cast hx0
  have hx1' : (x.key : ℝ) ≤ 2 ^ 149 := by exact_mod_cast hx1
  have hXpos : (0 : ℝ) < (x.key : ℝ) / 2 ^ 149 := by
    apply div_pos _ hP
    linarith
  have hlo : -(((3 : ℕ) : ℝ) / ((1 : ℕ) : ℝ)) ≤ Real.logb 10 ((x.key : ℝ) / 2 ^ 149) := by
    apply logb_ge_of_pow _ hXpos 3 1 (by decide)
    rw [pow_one, div_mul_eq_mul_div, le_div_iff₀ hP]
    linarith
  have hhi : Real.logb 10 ((x.key : ℝ) / 2 ^ 149) ≤ 0 := by
    apply Real.logb_nonpos (by norm_num) hXpos.le
    rw [div_le_one hP]
    exact hx1'
  push_cast at hlo
  rw [abs_le] at hacc
  have h1 : -(3001 : ℝ) / 1000 ≤ (y.key : ℝ) / 2 ^ 149 := by linarith [hacc.1]
  have h2 : (y.key : ℝ) / 2 ^ 149 ≤ 1 / 1000 := by linarith [hacc.2]
  rw [div_le_div_iff₀ (by norm_num) hP] at h1
  rw [div_le_div_iff₀ hP (by norm_num)] at h2
  constructor
  · have : -(3001 * (2 : ℝ) ^ 149) ≤ 1000 * (y.key : ℝ) := by linarith
    exact_mod_cast this
  · have : 1000 * (y.key : ℝ) ≤ 2 ^ 149 := by linarith
    exact_mod_cast this

/-- Accurate `log10f` values at arguments whose ratio is at least `1.0078`
differ by at least `1/1000`. -/
theorem log10f_within_gap (x x' y y' : F32) (hx : 0 < x.key)
    (hxx : 10078 * x.key ≤ 10000 * x'.key)
    (h : log10f_within x y) (h' : log10f_within x' y') :
    (2 : Int) ^ 149 ≤ 1000 * (y'.key - y.key) := by
  obtain ⟨_, hacc⟩ := h
  obtain ⟨_, hacc'⟩ := h'
  have hP : (0 : ℝ) < 2 ^ 149 := by positivity
  have hx' : (0 : ℝ) < (x.key : ℝ) := by exact_mod_cast hx
  have hxx' : 10078 * (x.key : ℝ) ≤ 10000 * (x'.key : ℝ) := by exact_mod_cast hxx
  have hgap := logb_gap ((x.key : ℝ) / 2 ^ 149) ((x'.key : ℝ) / 2 ^ 149) (div_pos hx' hP)
    (by rw [← mul_div_assoc, ← mul_div_assoc]; exact div_le_div_of_nonneg_right hxx' hP.le)
  rw [abs_le] at hacc hacc'
  have hd : 1 / 1000 ≤ (y'.key : ℝ) / 2 ^ 149 - (y.key : ℝ) / 2 ^ 149 := by
    linarith [hacc.2, hacc'.1]
  rw [← sub_div, div_le_div_iff₀ (by norm_num) hP] at hd
  have : (2 : ℝ) ^ 149 ≤ 1000 * ((y'.key : ℝ) - (y.key : ℝ)) := by linarith
  exact_mod_cast this

/-- The order of the decibel values for 1 ≤ v < w ≤ 127 with a `log10f`
accurate at the two arguments. -/
theorem midi_value_to_db_lt (log10f : F32 → F32) (v w : Nat) (hv : 1 ≤ v) (hvw : v < w)
    (hw : w ≤ 127)
    (hlv : log10f_within (normalized_value v) (log10f (normalized_value v)))
    (hlw : log10f_within (normalized_value w) (log10f (normalized_value w))) :
    F32.lt (gm1_midi_value_to_db log10f v) (gm1_midi_value_to_db log10f w) = true := by
  obtain ⟨a0, a1, a2, a3⟩ := normalized_value_bounds v (by omega) hv
  obtain ⟨b0, b1, b2, b3⟩ := normalized_value_bounds w (by omega) (by omega)
  have hvw' : (v : Int) + 1 ≤ w := by exact_mod_cast hvw
  have hw' : (w : Int) ≤ 127 := by exact_mod_cast hw
  have hv' : (1 : Int) ≤ v := by exact_mod_cast hv
  have hratio : 10078 * (normalized_value v).key ≤ 10000 * (normalized_value w).key := by
    omega
  have hgap := log10f_within_gap _ _ _ _ a0 hratio hlv hlw
  have hrv := log10f_within_range _ _ (by omega) a1 hlv
  have hrw := log10f_within_range _ _ (by omega) b1 hlw
  have e277 : (2 : Int) ^ 160 < 2 ^ 277 := by
    exact_mod_cast (Nat.pow_lt_pow_right (by decide) (by decide) : 2 ^ 160 < 2 ^ 277)
  have fv : (log10f (normalized_value v)).isFinite = true :=
    F32.isFinite_of_key_bounds (by omega) (by omega)
  have fw : (log10f (normalized_value w)).isFinite = true :=
    F32.isFinite_of_key_bounds (by omega) (by omega)
  obtain ⟨nv, kv⟩ := F32.mul_20 _ fv
  obtain ⟨nw, kw⟩ := F32.mul_20 _ fw
  have rv := F32.round_key_near_abs (20 * (log10f (normalized_value v)).key) (by omega)
    (by omega)
  have rw' := F32.round_key_near_abs (20 * (log10f (normalized_value w)).key) (by omega)
    (by omega)
  unfold gm1_midi_value_to_db
  rw [if_neg (by omega), if_neg (by omega)]
  change F32.lt (F32.mul lit_20_0f (log10f (normalized_value v)))
    (F32.mul lit_20_0f (log10f (normalized_value w))) = true
  rw [F32.lt_iff, kv, kw]
  exact ⟨nv, nw, by omega⟩

/-- Accuracy of a `log10f` value from two comparisons of integer powers:
`-(p1 / q1) ≤ log10 x ≤ -(p2 / q2)` for `x = k / 2 ^ 149`, and both bounds
within `1/1000` of `y = -j / 2 ^ 149`. -/
theorem log10f_within_of_brackets (x y : F32) (k j p1 q1 p2 q2 : ℕ)
    (hx : x.key = (k : Int)) (hy : y.key = -(j : Int)) (hyn : y.isNaN = false)
    (hk : 0 < k) (hq1 : 0 < q1) (hq2 : 0 < q2)
    (hlo : (2 ^ 149) ^ q1 ≤ k ^ q1 * 10 ^ p1)
    (hhi : k ^ q2 * 10 ^ p2 ≤ (2 ^ 149) ^ q2)
    (h1 : 1000 * p1 * 2 ^ 149 ≤ (1000 * j + 2 ^ 149) * q1)
    (h2 : 1000 * j * q2 ≤ (1000 * p2 + q2) * 2 ^ 149) :
    log10f_within x y := by
  refine ⟨hyn, ?_⟩
  rw [hx, hy]
  have hP : (0 : ℝ) < 2 ^ 149 := by positivity
  have hk' : (0 : ℝ) < (k : ℝ) := by exact_mod_cast hk
  have hq1' : (0 : ℝ) < (q1 : ℝ) := by exact_mod_cast hq1
  have hq2' : (0 : ℝ) < (q2 : ℝ) := by exact_mod_cast hq2
  have hlo' : ((2 : ℝ) ^ 149) ^ q1 ≤ (k : ℝ) ^ q1 * 10 ^ p1 := by exact_mod_cast hlo
  have hhi' : (k : ℝ) ^ q2 * 10 ^ p2 ≤ ((2 : ℝ) ^ 149) ^ q2 := by exact_mod_cast hhi
  have h1' : 1000 * (p1 : ℝ) * 2 ^ 149 ≤ (1000 * (j : ℝ) + 2 ^ 149) * q1 := by
    exact_mod_cast h1
  have h2' : 1000 * (j : ℝ) * q2 ≤ (1000 * (p2 : ℝ) + q2) * 2 ^ 149 := by exact_mod_cast h2
  push_cast
  generalize (2 : ℝ) ^ 149 = P at hP hlo' hhi' h1' h2' ⊢
  have hX : (0 : ℝ) < (k : ℝ) / P := div_pos hk' hP
  have b1 := logb_ge_of_pow _ hX p1 q1 hq1 (by
    rw [div_pow, div_mul_eq_mul_div, le_div_iff₀ (by positivity), one_mul]
    exact hlo')
  have b2 := logb_le_of_pow _ hX p2 q2 hq2 (by
    rw [div_pow, div_mul_eq_mul_div, div_le_iff₀ (by positivity), one_mul]
    exact hhi')
  have c1 : (p1 : ℝ) / q1 ≤ (j : ℝ) / P + 1 / 1000 := by
    rw [div_add_div _ _ hP.ne' (by norm_num), div_le_div_iff₀ hq1' (by positivity)]
    linarith
  have c2 : (j : ℝ) / P ≤ (p2 : ℝ) / q2 + 1 / 1000 := by
    rw [div_add_div _ _ hq2'.ne' (by norm_num), div_le_div_iff₀ hP (by positivity)]
    linarith
  rw [abs_le, neg_div]
  constructor <;> linarith

/-! ## The sample `log10f` -/

theorem log10f_sample_within_32 :
    log10f_within (normalized_value 32) (log10f_sample (normalized_value 32)) :=
  log10f_within_of_brackets _ _ (8454660 * 2 ^ 124) (10043744 * 2 ^ 125) 599 1000 598 1000
    (by decide!) (by decide!) (by decide!) (by decide!) (by decide) (by decide)
    (by decide!) (by decide!) (by decide!) (by decide!)

theorem log10f_sample_within_64 :
    log10f_within (normalized_value 64) (log10f_sample (normalized_value 64)) :=
  log10f_within_of_brackets _ _ (8454660 * 2 ^ 125) (9986596 * 2 ^ 124) 298 1000 297 1000
    (by decide!) (by decide!) (by decide!) (by decide!) (by decide) (by decide)
    (by decide!) (by decide!) (by decide!) (by decide!)

theorem log10f_sample_within_96 :
    log10f_within (normalized_value 96) (log10f_sample (normalized_value 96)) :=
  log10f_within_of_brackets _ _ (12681990 * 2 ^ 125) (16311814 * 2 ^ 122) 122 1000 121 1000
    (by decide!) (by decide!) (by decide!) (by decide!) (by decide) (by decide)
    (by decide!) (by decide!) (by decide!) (by decide!)

theorem log10f_sample_within_127 :
    log10f_within (normalized_value 127) (log10f_sample (normalized_value 127)) :=
  log10f_within_of_brackets _ _ (2 ^ 149) 0 0 1 0 1
    (by decide!) (by decide!) (by decide!) (by decide!) (by decide) (by decide)
    (by decide!) (by decide!) (by decide!) (by decide!)

/-- C22: `gm1_midi_value_to_db` is strictly increasing on 1..127: for
1 ≤ v < w ≤ 127 the value at `v` is below the value at `w`, for every
`log10f` that is accurate to within `1/1000` at the two arguments
`(float)v / 127.0f` and `(float)w / 127.0f`. -/
theorem midi_value_to_db_strictly_increasing (log10f : F32 → F32) (v w : Nat) (hv : 1 ≤ v)
    (hvw : v < w) (hw : w ≤ 127)
    (hlv : log10f_within (normalized_value v) (log10f (normalized_value v)))
    (hlw : log10f_within (normalized_value w) (log10f (normalized_value w))) :
    F32.lt (gm1_midi_value_to_db log10f v) (gm1_midi_value_to_db log10f w) = true :=
  midi_value_to_db_lt log10f v w hv hvw hw hlv hlw

/-- C22 at the values of the unit test, 32 < 64 < 96 < 127, with the sample
`log10f`. -/
theorem midi_value_to_db_strictly_increasing_witness :
    F32.lt (gm1_midi_value_to_db log10f_sample 32) (gm1_midi_value_to_db log10f_sample 64)
        = true
    ∧ F32.lt (gm1_midi_value_to_db log10f_sample 64) (gm1_midi_value_to_db log10f_sample 96)
        = true
    ∧ F32.lt (gm1_midi_value_to_db log10f_sample 96) (gm1_midi_value_to_db log10f_sample 127)
        = true :=
  ⟨midi_value_to_db_strictly_increasing log10f_sample 32 64 (by decide) (by decide)
      (by decide) log10f_sample_within_32 log10f_sample_within_64,
    midi_value_to_db_strictly_increasing log10f_sample 64 96 (by decide) (by decide)
      (by decide) log10f_sample_within_64 log10f_sample_within_96,
    midi_value_to_db_strictly_increasing log10f_sample 96 127 (by decide) (by decide)
      (by decide) log10f_sample_within_96 log10f_sample_within_127⟩

/-! ## The range of the classifier -/

/-- The classifier returns Unknown outside 1..128. -/
theorem category_invalid_aux (p : Nat) (h : p < 1 ∨ p > 128) :
    gm1_get_instrument_category p = GM1_CATEGORY_UNKNOWN := by
  unfold gm1_get_instrument_category
  rw [if_pos h]

/-- The classifier never returns Percussion, and returns a melodic category
or Unknown. -/
theorem category_range_aux (p : Nat) :
    gm1_get_instrument_category p ≠ GM1_CATEGORY_PERCUSSION
    ∧ (gm1_get_instrument_category p ∈ melodic_categories
        ∨ gm1_get_instrument_category p = GM1_CATEGORY_UNKNOWN) := by
  by_cases h : p < 1 ∨ p > 128
  · rw [category_invalid_aux p h]
    exact ⟨by decide, Or.inr rfl⟩
  · have hv := category_valid_aux p (by omega) (by omega)
    exact ⟨hv.2.2.1, Or.inl hv.2.1⟩

/-- C32: `gm1_get_instrument_category` never returns `GM1_CATEGORY_PERCUSSION`;
its values are exactly the 16 melodic categories and Unknown, each reached
by an 8-bit program number; hence the category on which
`gm1_handle_modulation_wheel` switches is never Percussion, whatever the
channel state, and its no-effect case is entered for Percussive only. -/
theorem category_never_percussion :
    (∀ p : Nat, gm1_get_instrument_category p ≠ GM1_CATEGORY_PERCUSSION)
    ∧ (∀ p : Nat, gm1_get_instrument_category p ∈ melodic_categories
        ∨ gm1_get_instrument_category p = GM1_CATEGORY_UNKNOWN)
    ∧ (∀ c : gm1_instrument_category_t, c ∈ melodic_categories ∨ c = GM1_CATEGORY_UNKNOWN →
        ∃ p : Nat, p < 256 ∧ gm1_get_instrument_category p = c)
    ∧ (∀ (s : channel_state) (channel : Nat),
        gm1_get_instrument_category (get_channel_program channel s) ≠ GM1_CATEGORY_PERCUSSION
        ∧ ((gm1_get_instrument_category (get_channel_program channel s)
              = GM1_CATEGORY_PERCUSSION
            ∨ gm1_get_instrument_category (get_channel_program channel s)
              = GM1_CATEGORY_PERCUSSIVE)
          ↔ gm1_get_instrument_category (get_channel_program channel s)
              = GM1_CATEGORY_PERCUSSIVE)) := by
  refine ⟨fun p => (category_range_aux p).1, fun p => (category_range_aux p).2, ?_, ?_⟩
  · intro c hc
    rcases hc with hc | hc
    · have : ∃ i, i < 16 ∧ gm1_get_instrument_category (8 * i + 1) = c := by
        revert c
        decide
      obtain ⟨i, hi, hci⟩ := this
      exact ⟨8 * i + 1, by omega, hci⟩
    · exact ⟨0, by decide, by rw [hc]; rfl⟩
  · intro s channel
    have h := (category_range_aux (get_channel_program channel s)).1
    exact ⟨h, ⟨fun hor => hor.resolve_left h, Or.inr⟩⟩

/-! ## Frames of the controller handlers -/

theorem same_except_modulation_refl (c : Nat) (s : channel_state) :
    same_except_modulation c s s :=
  ⟨rfl, rfl, fun _ _ => rfl⟩

theorem same_except_volume_refl (c : Nat) (s : channel_state) : same_except_volume c s s :=
  ⟨rfl, rfl, fun _ _ => rfl⟩

theorem set_vibrato_depth_frame (c : Nat) (d : F32) (s t : channel_state)
    (h : same_except_modulation c s t) :
    same_except_modulation c s (set_vibrato_depth c d t) := by
  obtain ⟨h1, h2, h3⟩ := h
  unfold set_vibrato_depth
  by_cases hc : c < 16
  · simp only [hc, dite_true]
    refine ⟨h1, h2, fun i hi => ?_⟩
    have hne : i ≠ ⟨c, hc⟩ := fun e => hi (by rw [e])
    simp only [Function.update_noteq hne]
    exact h3 i hi
  · simp only [hc, dite_false]
    exact ⟨h1, h2, h3⟩

theorem set_channel_volume_internal_frame (powf : F32 → F32 → F32) (c : Nat) (db : F32)
    (s : channel_state) : same_except_volume c s (set_channel_volume_internal powf c db s) := by
  unfold set_channel_volume_internal
  by_cases hc : c < 16
  · simp only [hc, dite_true]
    refine ⟨rfl, rfl, fun i hi => ?_⟩
    have hne : i ≠ ⟨c, hc⟩ := fun e => hi (by rw [e])
    simp only [Function.update_noteq hne]
  · simp only [hc, dite_false]
    exact ⟨rfl, rfl, fun _ _ => rfl⟩

theorem ite_frame (P : channel_state → Prop) (p : Prop) [Decidable p] (a b : channel_state)
    (ha : P a) (hb : P b) : P (if p then a else b) := by
  split <;> assumption

/-- The modulation-wheel handler changes at most the modulation depth of its
channel. -/
theorem modulation_wheel_frame (c v : Nat) (s : channel_state) :
    same_except_modulation c s (gm1_handle_modulation_wheel c v s) := by
  have r := same_except_modulation_refl c s
  by_cases hc : c < 16
  swap
  · unfold gm1_handle_modulation_wheel
    rw [if_pos (by omega)]
    exact r
  rw [modulation_wheel_valid c v s hc]
  generalize gm1_get_instrument_category (s.channel_programs ⟨c, hc⟩) = category
  dsimp only
  repeat' apply ite_frame (same_except_modulation c s)
  all_goals
    first
    | exact r
    | exact set_vibrato_depth_frame c _ s s r

/-- The volume handler changes at most the volume of its channel. -/
theorem volume_controller_frame (log10f : F32 → F32) (powf : F32 → F32 → F32) (c v : Nat)
    (s : channel_state) :
    same_except_volume c s (gm1_handle_volume_controller log10f powf c v s) := by
  unfold gm1_handle_volume_controller
  split_ifs
  · exact same_except_volume_refl c s
  · exact set_channel_volume_internal_frame powf c _ s

/-- C33: `gm1_handle_modulation_wheel(c, v)` leaves all channel programs, all
channel volumes and the modulation depths of the channels other than `c`
unchanged; `gm1_handle_volume_controller(c, v)` leaves all channel programs,
all modulation depths and the volumes of the channels other than `c`
unchanged; so neither handler, the only functions of the module that write
to the state, ever changes a channel's program. -/
theorem controller_handlers_frame (log10f : F32 → F32) (powf : F32 → F32 → F32)
    (s : channel_state) (c v : Nat) :
    ((gm1_handle_modulation_wheel c v s).channel_programs = s.channel_programs
      ∧ (gm1_handle_modulation_wheel c v s).channel_volumes = s.channel_volumes
      ∧ ∀ i : Fin 16, i.val ≠ c →
          (gm1_handle_modulation_wheel c v s).channel_modulation i = s.channel_modulation i)
    ∧ ((gm1_handle_volume_controller log10f powf c v s).channel_programs = s.channel_programs
      ∧ (gm1_handle_volume_controller log10f powf c v s).channel_modulation
          = s.channel_modulation
      ∧ ∀ i : Fin 16, i.val ≠ c →
          (gm1_handle_volume_controller log10f powf c v s).channel_volumes i
            = s.channel_volumes i) :=
  ⟨modulation_wheel_frame c v s, volume_controller_frame log10f powf c v s⟩

/-! ## Symmetry of the score -/

theorem F32.fabsf_ofMagnitude (s : Bool) (m : Nat) :
    F32.fabsf (F32.ofMagnitude s m) = F32.ofMagnitude false m := by
  unfold F32.ofMagnitude F32.fabsf
  split_ifs <;> rfl

theorem F32.fabsf_neg (x : F32) : F32.fabsf (F32.neg x) = F32.fabsf x := rfl

theorem F32.fabsf_eq_of_isInf {x y : F32} (hx : x.isInf = true) (hy : y.isInf = true) :
    F32.fabsf x = F32.fabsf y := by
  simp only [F32.isInf, Bool.and_eq_true, beq_iff_eq] at hx hy
  exact F32.eq_of_fields rfl (hx.1.trans hy.1.symm) (hx.2.trans hy.2.symm)

/-- The absolute difference of two floats does not depend on their order
(when it is a NaN, it is the one NaN of the embedding in both orders). -/
theorem F32.fabsf_sub_comm (x y : F32) :
    F32.fabsf (F32.sub x y) = F32.fabsf (F32.sub y x) := by
  have hk : y.key + (F32.neg x).key = - (x.key + (F32.neg y).key) := by
    rw [F32.key_neg, F32.key_neg]
    ring
  have hnat : (-(x.key + (F32.neg y).key)).natAbs = (x.key + (F32.neg y).key).natAbs :=
    Int.natAbs_neg _
  unfold F32.sub F32.add
  rw [hk, hnat]
  simp only [F32.isNaN_neg, F32.isInf_neg]
  generalize x.key + (F32.neg y).key = d
  by_cases hn : (x.isNaN || y.isNaN) = true
  · have hn' : (y.isNaN || x.isNaN) = true := by rw [Bool.or_comm]; exact hn
    rw [if_pos hn, if_pos hn']
  · have hn' : ¬ (y.isNaN || x.isNaN) = true := by rw [Bool.or_comm]; exact hn
    rw [if_neg hn, if_neg hn']
    by_cases hxi : x.isInf = true
    · rw [if_pos hxi]
      by_cases hyi : y.isInf = true
      · rw [if_pos hyi]
        have e1 : (y.isInf && (x.sign != (F32.neg y).sign)) = (x.isInf && (y.sign != (F32.neg x).sign)) := by
          rw [hxi, hyi]
          unfold F32.neg
          cases x.sign <;> cases y.sign <;> rfl
        by_cases hc : (y.isInf && (x.sign != (F32.neg y).sign)) = true
        · rw [if_pos hc, if_pos (e1 ▸ hc)]
        · rw [if_neg hc, if_neg (e1 ▸ hc)]
          exact F32.fabsf_eq_of_isInf hxi hyi
      · have e1 : ¬ (y.isInf && (x.sign != (F32.neg y).sign)) = true := by
          simp only [Bool.and_eq_true, not_and]
          exact fun h => absurd h hyi
        rw [if_neg e1, if_neg hyi, if_pos hxi]
        rfl
    · rw [if_neg hxi]
      by_cases hyi : y.isInf = true
      · have e1 : ¬ (x.isInf && (y.sign != (F32.neg x).sign)) = true := by
          simp only [Bool.and_eq_true, not_and]
          exact fun h => absurd h hxi
        rw [if_pos hyi, if_pos hyi, if_neg e1]
        rfl
      · rw [if_neg hyi, if_neg hyi, if_neg hxi]
        by_cases hd : d = 0
        · rw [if_pos hd, if_pos (by omega), F32.fabsf_ofMagnitude, F32.fabsf_ofMagnitude]
        · rw [if_neg hd, if_neg (by omega), F32.fabsf_ofMagnitude, F32.fabsf_ofMagnitude]

theorem weighted_sum_comm (x y : gm1_quality_metrics_t) : weighted_sum x y = weighted_sum y x := by
  have hv : (y.velocity_sensitive = x.velocity_sensitive)
      ↔ (x.velocity_sensitive = y.velocity_sensitive) := eq_comm
  have hc : (y.controller_response = x.controller_response)
      ↔ (x.controller_response = y.controller_response) := eq_comm
  unfold weighted_sum recognition_subscore tuning_subscore
  rw [F32.fabsf_sub_comm y.recognition_score x.recognition_score,
    F32.fabsf_sub_comm y.frequency_accuracy x.frequency_accuracy]
  simp only [hv, hc]

/-- In the embedding the score does not depend on the order of its
arguments.  For a NaN score this says no more than that both orders give a
NaN, since every NaN result is the one NaN `F32.invalid`. -/
theorem score_comm (a b : Option gm1_quality_metrics_t) :
    gm1_calculate_consistency_score a b = gm1_calculate_consistency_score b a := by
  cases a with
  | none =>
    rw [score_eq_zero none b (Or.inl rfl), score_eq_zero b none (Or.inr (Or.inl rfl))]
  | some x =>
    cases b with
    | none =>
      rw [score_eq_zero (some x) none (Or.inr (Or.inl rfl)),
        score_eq_zero none (some x) (Or.inl rfl)]
    | some y =>
      by_cases hprog : x.program = y.program
      · rw [score_eq_weighted_sum x y hprog, score_eq_weighted_sum y x hprog.symm]
        exact weighted_sum_comm x y
      · rw [score_eq_zero (some x) (some y) (Or.inr (Or.inr ⟨x, y, rfl, rfl, hprog⟩)),
          score_eq_zero (some y) (some x)
            (Or.inr (Or.inr ⟨y, x, rfl, rfl, fun h => hprog h.symm⟩))]

/-- Equal floats compare equal under `==` unless they are NaN. -/
theorem F32.eq_of_eq {x y : F32} (h : x = y) (hx : x.isNaN = false) : F32.eq x y = true := by
  subst h
  simp [F32.eq, hx]

/-- C34, as stated, fails on NaN recognition scores: two metrics for the same
program whose recognition scores are NaNs (payloads 1 and 2) score NaN in
both orders, and the two scores do not compare equal under `==`. -/
theorem score_symmetric_nan_counterexample :
    nan_payload1_metrics.program = nan_payload2_metrics.program
    ∧ (gm1_calculate_consistency_score (some nan_payload1_metrics)
        (some nan_payload2_metrics)).isNaN = true
    ∧ (gm1_calculate_consistency_score (some nan_payload2_metrics)
        (some nan_payload1_metrics)).isNaN = true
    ∧ ¬ (F32.eq
          (gm1_calculate_consistency_score (some nan_payload1_metrics)
            (some nan_payload2_metrics))
          (gm1_calculate_consistency_score (some nan_payload2_metrics)
            (some nan_payload1_metrics)) = true) := by
  decide!

/-- C34 (amended to scores that are not NaN): for all metrics arguments,
absent or present, the scores of `(a, b)` and of `(b, a)` are both NaN or the
same value; and when the score of `(a, b)` is not NaN, the two scores compare
equal under `==` and are the same float. -/
theorem consistency_score_symmetric (a b : Option gm1_quality_metrics_t) :
    F32.same_value (gm1_calculate_consistency_score a b) (gm1_calculate_consistency_score b a)
    ∧ ((gm1_calculate_consistency_score a b).isNaN = false →
        F32.eq (gm1_calculate_consistency_score a b) (gm1_calculate_consistency_score b a)
            = true
          ∧ gm1_calculate_consistency_score a b = gm1_calculate_consistency_score b a) :=
  ⟨F32.same_value_of_eq (score_comm a b),
    fun h => ⟨F32.eq_of_eq (score_comm a b) h, score_comm a b⟩⟩

/-- C34 at the two similar devices of the unit test: the score is not NaN and
the scores of both orders compare equal. -/
theorem consistency_score_symmetric_witness :
    (gm1_calculate_consistency_score (some (device1 1)) (some device2_similar)).isNaN = false
    ∧ F32.eq (gm1_calculate_consistency_score (some (device1 1)) (some device2_similar))
        (gm1_calculate_consistency_score (some device2_similar) (some (device1 1))) = true :=
  ⟨by decide!,
    ((consistency_score_symmetric (some (device1 1)) (some device2_similar)).2
      (by decide!)).1⟩

/-! ## A tuning difference alone -/

/-- Dividing a value of at least `20.0` by `20.0f` gives at least `1.0`. -/
theorem F32.div_20_ge_one (z : F32) (hzn : z.isNaN = false) (hs : z.sign = false)
    (hz : lit_20_0f.key ≤ z.key) :
    (F32.div z lit_20_0f).isNaN = false ∧ (F32.div z lit_20_0f).sign = false
    ∧ 2 ^ 149 ≤ (F32.div z lit_20_0f).key := by
  have h20f : lit_20_0f.isFinite = true := by decide
  have h20s : lit_20_0f.sign = false := by decide
  have h20m : lit_20_0f.magnitude ≠ 0 := by decide
  have h20k : lit_20_0f.key = (lit_20_0f.magnitude : Int) := F32.key_of_sign_false h20s
  have hsign := F32.sign_div z lit_20_0f hs h20s
  rcases F32.isFinite_or_isInf hzn with hf | hi
  · obtain ⟨hn, hk⟩ := F32.div_finite_pos z lit_20_0f hf h20f h20s h20m
    refine ⟨hn, hsign, ?_⟩
    rw [hk]
    have hpos : 0 < lit_20_0f.magnitude := Nat.pos_of_ne_zero h20m
    have hmono := F32.round_key_mono (lit_1_0f.key * lit_20_0f.magnitude) (z.key * 2 ^ 149)
      lit_20_0f.magnitude hpos (by
        rw [F32.key_one, ← h20k, Int.mul_comm]
        exact Int.mul_le_mul_of_nonneg_right hz (by positivity))
    rw [F32.round_key_exact lit_1_0f _ hpos (by decide), F32.key_one] at hmono
    exact hmono
  · have h20i : lit_20_0f.isInf = false := by decide
    have hq : F32.div z lit_20_0f = F32.ofMagnitude false (2 ^ 277) := by
      unfold F32.div
      simp only [hzn, hi, h20i, hs, h20s, show lit_20_0f.isNaN = false by decide, Bool.or_self,
        Bool.false_eq_true, if_false, if_true, bne_self_eq_false]
    refine ⟨by rw [hq]; exact F32.isNaN_ofMagnitude _ _, hsign, ?_⟩
    rw [hq, F32.key_ofMagnitude _ _ (Or.inl rfl)]
    simp only [Bool.false_eq_true, if_false]
    have := F32.two_pow_lt_inf 149 (by decide)
    exact_mod_cast this.le

/-- Subtracting a value of at least `1.0` from `1.0f` gives a value that is
not positive. -/
theorem F32.one_sub_nonpos (q : F32) (hqn : q.isNaN = false) (hq : 2 ^ 149 ≤ q.key) :
    (F32.sub lit_1_0f q).isNaN = false ∧ (F32.sub lit_1_0f q).key ≤ 0 := by
  have hone : lit_1_0f.isFinite = true := by decide
  rcases F32.isFinite_or_isInf hqn with hf | hi
  · obtain ⟨hn, hk⟩ := F32.sub_finite lit_1_0f q hone hf
    refine ⟨hn, ?_⟩
    rw [hk, F32.key_one]
    have := F32.round_key_mono (2 ^ 149 - q.key) 0 1 (by decide) (by omega)
    rwa [F32.round_key_zero] at this
  · have hni : (F32.neg q).isInf = true := by rw [F32.isInf_neg]; exact hi
    have e : F32.sub lit_1_0f q = F32.neg q := F32.add_of_isInf_right _ _ hone hni
    rw [e]
    refine ⟨by rw [F32.isNaN_neg]; exact hqn, ?_⟩
    rw [F32.key_neg]
    have : (0 : Int) ≤ 2 ^ 149 := by positivity
    omega

/-- A tuning difference of at least `20.0` gives the tuning sub-score `0.0f`. -/
theorem tuning_subscore_zero (a b : gm1_quality_metrics_t)
    (h : F32.ge (F32.fabsf (F32.sub a.frequency_accuracy b.frequency_accuracy)) lit_20_0f
      = true) :
    tuning_subscore a b = lit_0_0f := by
  unfold F32.ge at h
  obtain ⟨_, hzn, hz⟩ := (F32.le_iff _ _).1 h
  obtain ⟨qn, _, qk⟩ := F32.div_20_ge_one _ hzn (F32.sign_fabsf _) hz
  obtain ⟨un, uk⟩ := F32.one_sub_nonpos _ qn qk
  have hsn : (F32.sub lit_1_0f
      (F32.div (F32.fabsf (F32.sub a.frequency_accuracy b.frequency_accuracy)) lit_20_0f)).isSNaN
      = false := F32.isSNaN_add _ _
  unfold tuning_subscore
  rw [F32.fmaxf_zero _ hsn, un]
  have hlt : F32.lt lit_0_0f (F32.sub lit_1_0f
      (F32.div (F32.fabsf (F32.sub a.frequency_accuracy b.frequency_accuracy)) lit_20_0f))
      = false := by
    cases hc : F32.lt lit_0_0f (F32.sub lit_1_0f
      (F32.div (F32.fabsf (F32.sub a.frequency_accuracy b.frequency_accuracy)) lit_20_0f))
    · rfl
    · have := ((F32.lt_iff _ _).1 hc).2.2
      rw [F32.key_zero] at this
      omega
  rw [hlt]
  rfl

/-- Equal finite recognition scores give the recognition sub-score `1.0f`. -/
theorem recognition_subscore_one (a b : gm1_quality_metrics_t)
    (hrs : a.recognition_score = b.recognition_score)
    (hfin : a.recognition_score.isFinite = true) : recognition_subscore a b = lit_1_0f := by
  unfold recognition_subscore
  rw [← hrs]
  exact (congrArg (fun z => F32.sub lit_1_0f (F32.fabsf z)) (F32.sub_self _ hfin)).trans
    (by decide!)

theorem score_key_tuning_floor : score_key (2 ^ 149) true true 0 = lit_0_8f.key := by
  decide!

/-- With equal finite recognition scores and equal flags the weighted sum is
at least `0.8f`, and it is `0.8f` when the tuning sub-score is `0.0f`. -/
theorem weighted_sum_tuning_only (a b : gm1_quality_metrics_t)
    (hrs : a.recognition_score = b.recognition_score)
    (hfin : a.recognition_score.isFinite = true)
    (hcr : a.controller_response = b.controller_response)
    (hvs : a.velocity_sensitive = b.velocity_sensitive) :
    (weighted_sum a b).isNaN = false ∧ lit_0_8f.key ≤ (weighted_sum a b).key
    ∧ (tuning_subscore a b = lit_0_0f → weighted_sum a b = lit_0_8f) := by
  have hr := recognition_subscore_one a b hrs hfin
  have rf : (recognition_subscore a b).isFinite = true := by rw [hr]; decide
  obtain ⟨_, t0, _⟩ := tuning_subscore_range a b
  obtain ⟨wf, wk⟩ := weighted_sum_key a b rf
  refine ⟨F32.isNaN_of_isFinite wf, ?_, fun ht => ?_⟩
  · rw [wk, hr, F32.key_one, decide_eq_true hcr, decide_eq_true hvs, ← score_key_tuning_floor]
    exact score_key_mono _ _ _ _ _ _ _ _ le_rfl (fun h => h) (fun h => h) t0
  · unfold weighted_sum
    rw [if_pos hvs, if_pos hcr, hr, ht]
    decide!

/-- C35, as stated, fails on an infinite recognition score: two identical
metrics with recognition score `+inf` have equal recognition scores and
equal flags, but `inf - inf` is NaN, so the score is NaN: it is not
`>= 0.8` and not consistent. -/
theorem tuning_alone_inf_counterexample :
    (metrics_of F32.pos_inf true lit_0_0f).recognition_score = F32.pos_inf
    ∧ F32.ge F32.pos_inf F32.pos_inf = true
    ∧ (gm1_calculate_consistency_score (some (metrics_of F32.pos_inf true lit_0_0f))
        (some (metrics_of F32.pos_inf true lit_0_0f))).isNaN = true
    ∧ ¬ (F32.ge
          (gm1_calculate_consistency_score (some (metrics_of F32.pos_inf true lit_0_0f))
            (some (metrics_of F32.pos_inf true lit_0_0f))) GM1_MIN_RECOGNITION_SCORE = true
        ∧ gm1_is_consistent
          (gm1_calculate_consistency_score (some (metrics_of F32.pos_inf true lit_0_0f))
            (some (metrics_of F32.pos_inf true lit_0_0f))) = true) := by
  decide!

/-- C35 (amended to finite recognition scores): for present same-program
metrics with equal finite recognition scores, equal controller-response flags
and equal velocity-sensitivity flags, the score is `>= 0.8f` and consistent,
whatever the two tuning deviations are; when the tuning difference is
`>= 20.0f` the score is exactly `0.8f`. -/
theorem tuning_alone_consistent (a b : gm1_quality_metrics_t)
    (hprog : a.program = b.program)
    (hrs : a.recognition_score = b.recognition_score)
    (hfin : a.recognition_score.isFinite = true)
    (hcr : a.controller_response = b.controller_response)
    (hvs : a.velocity_sensitive = b.velocity_sensitive) :
    F32.ge (gm1_calculate_consistency_score (some a) (some b)) lit_0_8f = true
    ∧ gm1_is_consistent (gm1_calculate_consistency_score (some a) (some b)) = true
    ∧ (F32.ge (F32.fabsf (F32.sub a.frequency_accuracy b.frequency_accuracy)) lit_20_0f = true →
        gm1_calculate_consistency_score (some a) (some b) = lit_0_8f) := by
  rw [score_eq_weighted_sum a b hprog]
  obtain ⟨hn, hk, hz⟩ := weighted_sum_tuning_only a b hrs hfin hcr hvs
  have hge : F32.ge (weighted_sum a b) lit_0_8f = true := by
    unfold F32.ge
    rw [F32.le_iff]
    exact ⟨by decide, hn, hk⟩
  exact ⟨hge, hge, fun h => hz (tuning_subscore_zero a b h)⟩

/-- C35 at recognition 0.8 with both flags set: tunings 0.0 against 20.0 and
0.0 against 96.0 both score exactly `0.8f`, and both are consistent. -/
theorem tuning_alone_consistent_witness :
    gm1_calculate_consistency_score (some (metrics_of lit_0_8f true lit_0_0f))
        (some (metrics_of lit_0_8f true lit_20_0f)) = lit_0_8f
    ∧ gm1_calculate_consistency_score (some (metrics_of lit_0_8f true lit_0_0f))
        (some (metrics_of lit_0_8f true lit_96_0f)) = lit_0_8f
    ∧ gm1_is_consistent
        (gm1_calculate_consistency_score (some (metrics_of lit_0_8f true lit_0_0f))
          (some (metrics_of lit_0_8f true lit_96_0f))) = true :=
  ⟨(tuning_alone_consistent (metrics_of lit_0_8f true lit_0_0f)
      (metrics_of lit_0_8f true lit_20_0f) rfl rfl (by decide) rfl rfl).2.2 (by decide!),
    (tuning_alone_consistent (metrics_of lit_0_8f true lit_0_0f)
      (metrics_of lit_0_8f true lit_96_0f) rfl rfl (by decide) rfl rfl).2.2 (by decide!),
    (tuning_alone_consistent (metrics_of lit_0_8f true lit_0_0f)
      (metrics_of lit_0_8f true lit_96_0f) rfl rfl (by decide) rfl rfl).2.1⟩

/-! ## Bounds on the decibel values -/

/-- A lower bound on a base-10 logarithm from a lower bound on the argument. -/
theorem logb_ge_of_ge (X r : ℝ) (hr : 0 < r) (hX : r ≤ X) (p q : ℕ) (hq : 0 < q)
    (h : 1 ≤ r ^ q * 10 ^ p) : -((p : ℝ) / q) ≤ Real.logb 10 X := by
  apply logb_ge_of_pow X (lt_of_lt_of_le hr hX) p q hq
  have : r ^ q ≤ X ^ q := pow_le_pow_left₀ hr.le hX q
  calc (1 : ℝ) ≤ r ^ q * 10 ^ p := h
    _ ≤ X ^ q * 10 ^ p := mul_le_mul_of_nonneg_right this (by positivity)

/-- An upper bound on a base-10 logarithm from an upper bound on the argument. -/
theorem logb_le_of_le (X r : ℝ) (hX0 : 0 < X) (hX : X ≤ r) (p q : ℕ) (hq : 0 < q)
    (h : r ^ q * 10 ^ p ≤ 1) : Real.logb 10 X ≤ -((p : ℝ) / q) := by
  apply logb_le_of_pow X hX0 p q hq
  have : X ^ q ≤ r ^ q := pow_le_pow_left₀ hX0.le hX q
  calc X ^ q * 10 ^ p ≤ r ^ q * 10 ^ p := mul_le_mul_of_nonneg_right this (by positivity)
    _ ≤ 1 := h

/-- An accurate `log10f` value lies within `1/1000` of any bounds of the
logarithm. -/
theorem log10f_within_key (x y : F32) (h : log10f_within x y) (lo hi : ℝ)
    (hlo : lo ≤ Real.logb 10 ((x.key : ℝ) / 2 ^ 149))
    (hhi : Real.logb 10 ((x.key : ℝ) / 2 ^ 149) ≤ hi) :
    (lo - 1 / 1000) * 2 ^ 149 ≤ (y.key : ℝ) ∧ (y.key : ℝ) ≤ (hi + 1 / 1000) * 2 ^ 149 := by
  obtain ⟨_, hacc⟩ := h
  have hP : (0 : ℝ) < 2 ^ 149 := by positivity
  rw [abs_le] at hacc
  constructor
  · rw [← le_div_iff₀ hP]
    linarith [hacc.1]
  · rw [← div_le_iff₀ hP]
    linarith [hacc.2]

/-- The decibel value of `v` in 1..127 for a `log10f` accurate at its
argument: the `log10f` result is finite and the key of the decibel value is
the rounded 20-fold of its key, at most `2 ^ 139` away from it. -/
theorem midi_value_to_db_key (log10f : F32 → F32) (v : Nat) (hv : 1 ≤ v) (hv' : v ≤ 127)
    (h : log10f_within (normalized_value v) (log10f (normalized_value v))) :
    (gm1_midi_value_to_db log10f v).isNaN = false
    ∧ 20 * (log10f (normalized_value v)).key - 2 ^ 139 ≤ (gm1_midi_value_to_db log10f v).key
    ∧ (gm1_midi_value_to_db log10f v).key ≤ 20 * (log10f (normalized_value v)).key + 2 ^ 139
    ∧ (gm1_midi_value_to_db log10f v).key
        = F32.round_key (20 * (log10f (normalized_value v)).key) 1 := by
  obtain ⟨a0, a1, a2, a3⟩ := normalized_value_bounds v (by omega) hv
  have hv1 : (1 : Int) ≤ v := by exact_mod_cast hv
  have hr := log10f_within_range _ _ (by omega) a1 h
  have e277 : (2 : Int) ^ 160 < 2 ^ 277 := by
    exact_mod_cast (Nat.pow_lt_pow_right (by decide) (by decide) : 2 ^ 160 < 2 ^ 277)
  have fy : (log10f (normalized_value v)).isFinite = true :=
    F32.isFinite_of_key_bounds (by omega) (by omega)
  obtain ⟨n, k⟩ := F32.mul_20 _ fy
  have r := F32.round_key_near_abs (20 * (log10f (normalized_value v)).key) (by omega)
    (by omega)
  have e : gm1_midi_value_to_db log10f v
      = F32.mul lit_20_0f (log10f (normalized_value v)) := by
    unfold gm1_midi_value_to_db
    rw [if_neg (by omega)]
    rfl
  rw [e, k]
  exact ⟨n, r.1, r.2, rfl⟩

/-- The base-10 logarithm of the float `(float)v / 127.0f`, for `v` in
1..127, lies in `[-2.2, 0]`. -/
theorem logb_normalized_value (v : Nat) (hv : 1 ≤ v) (hv' : v ≤ 127) :
    -((11 : ℝ) / 5) ≤ Real.logb 10 (((normalized_value v).key : ℝ) / 2 ^ 149)
    ∧ Real.logb 10 (((normalized_value v).key : ℝ) / 2 ^ 149) ≤ 0 := by
  obtain ⟨a0, a1, a2, a3⟩ := normalized_value_bounds v (by omega) hv
  have hv1 : (1 : Int) ≤ v := by exact_mod_cast hv
  have hk : 78 * (2 : Int) ^ 149 ≤ 10000 * (normalized_value v).key := by omega
  have hk' : 78 * (2 : ℝ) ^ 149 ≤ 10000 * ((normalized_value v).key : ℝ) := by
    exact_mod_cast hk
  have hP : (0 : ℝ) < 2 ^ 149 := by positivity
  have hX : (78 : ℝ) / 10000 ≤ ((normalized_value v).key : ℝ) / 2 ^ 149 := by
    rw [div_le_div_iff₀ (by norm_num) hP]
    linarith
  have hlo := logb_ge_of_ge _ (78 / 10000) (by norm_num) hX 11 5 (by decide) (by norm_num)
  push_cast at hlo
  refine ⟨hlo, ?_⟩
  apply Real.logb_nonpos (by norm_num) (le_trans (by norm_num) hX)
  rw [div_le_one hP]
  exact_mod_cast a1

/-- For `v` in 1..127 an accurate `log10f` value is above `-2.201`. -/
theorem log10f_key_lower (log10f : F32 → F32) (v : Nat) (hv : 1 ≤ v) (hv' : v ≤ 127)
    (h : log10f_within (normalized_value v) (log10f (normalized_value v))) :
    -(2201 * 2 ^ 149) ≤ 1000 * (log10f (normalized_value v)).key := by
  obtain ⟨hlo, hhi⟩ := logb_normalized_value v hv hv'
  have := (log10f_within_key _ _ h _ _ hlo hhi).1
  have h2 : -(2201 * (2 : ℝ) ^ 149) ≤ 1000 * ((log10f (normalized_value v)).key : ℝ) := by
    linarith
  exact_mod_cast h2

/-- For `v` in 1..126 an accurate `log10f` value is below `-0.002`. -/
theorem log10f_key_upper (log10f : F32 → F32) (v : Nat) (hv : 1 ≤ v) (hv' : v ≤ 126)
    (h : log10f_within (normalized_value v) (log10f (normalized_value v))) :
    1000 * (log10f (normalized_value v)).key ≤ -(2 * 2 ^ 149) := by
  obtain ⟨a0, a1, a2, a3⟩ := normalized_value_bounds v (by omega) hv
  have hv1 : (v : Int) ≤ 126 := by exact_mod_cast hv'
  have hk : 10078 * (normalized_value v).key ≤ 10000 * 2 ^ 149 := by omega
  have hk' : 10078 * ((normalized_value v).key : ℝ) ≤ 10000 * 2 ^ 149 := by exact_mod_cast hk
  have hP : (0 : ℝ) < 2 ^ 149 := by positivity
  have hpos : (0 : ℝ) < ((normalized_value v).key : ℝ) / 2 ^ 149 :=
    div_pos (by exact_mod_cast a0) hP
  have hgap := logb_gap (((normalized_value v).key : ℝ) / 2 ^ 149) 1 hpos (by
    rw [← mul_div_assoc, div_le_iff₀ hP]
    linarith)
  rw [Real.logb_one] at hgap
  obtain ⟨hlo, _⟩ := logb_normalized_value v hv (by omega)
  have := (log10f_within_key _ _ h _ (-(3 / 1000)) hlo (by linarith)).2
  have h2 : 1000 * ((log10f (normalized_value v)).key : ℝ) ≤ -(2 * (2 : ℝ) ^ 149) := by
    linarith
  exact_mod_cast h2

/-- An accurate `log10f` value at `(float)64 / 127.0f` lies in
`[-0.401, -0.249]`. -/
theorem log10f_key_64 (log10f : F32 → F32)
    (h : log10f_within (normalized_value 64) (log10f (normalized_value 64))) :
    -(401 * 2 ^ 149) ≤ 1000 * (log10f (normalized_value 64)).key
    ∧ 1000 * (log10f (normalized_value 64)).key ≤ -(249 * 2 ^ 149) := by
  obtain ⟨a0, a1, a2, a3⟩ := normalized_value_bounds 64 (by decide) (by decide)
  have hk1 : (2 : Int) ^ 149 ≤ 2 * (normalized_value 64).key := by omega
  have hk2 : 100 * (normalized_value 64).key ≤ 51 * 2 ^ 149 := by omega
  have hk1' : (2 : ℝ) ^ 149 ≤ 2 * ((normalized_value 64).key : ℝ) := by exact_mod_cast hk1
  have hk2' : 100 * ((normalized_value 64).key : ℝ) ≤ 51 * 2 ^ 149 := by exact_mod_cast hk2
  have hP : (0 : ℝ) < 2 ^ 149 := by positivity
  have hX1 : (1 : ℝ) / 2 ≤ ((normalized_value 64).key : ℝ) / 2 ^ 149 := by
    rw [div_le_div_iff₀ (by norm_num) hP]
    linarith
  have hX2 : ((normalized_value 64).key : ℝ) / 2 ^ 149 ≤ 51 / 100 := by
    rw [div_le_div_iff₀ hP (by norm_num)]
    linarith
  have hlo := logb_ge_of_ge _ (1 / 2) (by norm_num) hX1 2 5 (by decide) (by norm_num)
  have hhi := logb_le_of_le _ (51 / 100) (lt_of_lt_of_le (by norm_num) hX1) hX2 1 4
    (by decide) (by norm_num)
  have := log10f_within_key _ _ h _ _ hlo hhi
  push_cast at this
  constructor
  · have h2 : -(401 * (2 : ℝ) ^ 149) ≤ 1000 * ((log10f (normalized_value 64)).key : ℝ) := by
      linarith [this.1]
    exact_mod_cast h2
  · have h2 : 1000 * ((log10f (normalized_value 64)).key : ℝ) ≤ -(249 * (2 : ℝ) ^ 149) := by
      linarith [this.2]
    exact_mod_cast h2

theorem F32.key_neg_60 : lit_neg_60_0f.key = -(60 * 2 ^ 149) := by decide!

theorem F32.key_neg_10 : lit_neg_10_0f.key = -(10 * 2 ^ 149) := by decide!

theorem F32.key_neg_4 : lit_neg_4_0f.key = -(4 * 2 ^ 149) := by decide!

/-- With a `log10f` that returns `+0` at `1`, the decibel value of 127 is
`+0.0`. -/
theorem midi_value_to_db_127 (log10f : F32 → F32) (h1 : log10f lit_1_0f = lit_0_0f) :
    gm1_midi_value_to_db log10f 127 = lit_0_0f := by
  have e : F32.div (F32.of_uint 127) lit_127_0f = lit_1_0f := normalized_value_127
  unfold gm1_midi_value_to_db
  rw [if_neg (by decide), e, h1]
  decide!

/-- Bounds of the decibel value of `v` in 1..127 for a `log10f` accurate at
its argument: above `-60`, and at most `0` for `v` up to 126. -/
theorem midi_value_to_db_bounds (log10f : F32 → F32) (v : Nat) (hv : 1 ≤ v) (hv' : v ≤ 127)
    (h : log10f_within (normalized_value v) (log10f (normalized_value v))) :
    (gm1_midi_value_to_db log10f v).isNaN = false
    ∧ -(60 * 2 ^ 149) < (gm1_midi_value_to_db log10f v).key
    ∧ (v ≤ 126 → (gm1_midi_value_to_db log10f v).key ≤ 0) := by
  obtain ⟨n, k1, k2, _⟩ := midi_value_to_db_key log10f v hv hv' h
  have hlo := log10f_key_lower log10f v hv hv' h
  refine ⟨n, by omega, fun h126 => ?_⟩
  have hhi := log10f_key_upper log10f v hv h126 h
  omega

/-- C31: for a `log10f` accurate to within `1/1000` at `(float)64 / 127.0f`,
`-10.0f < gm1_midi_value_to_db(64) < -4.0f`; and the exact value
`20 * log10(64 / 127)` lies between `-10` and `-4`. -/
theorem midi_value_64_nominal (log10f : F32 → F32)
    (h : log10f_within (normalized_value 64) (log10f (normalized_value 64))) :
    F32.lt lit_neg_10_0f (gm1_midi_value_to_db log10f 64) = true
    ∧ F32.lt (gm1_midi_value_to_db log10f 64) lit_neg_4_0f = true
    ∧ (-10 : ℝ) < 20 * Real.logb 10 (64 / 127)
    ∧ 20 * Real.logb 10 ((64 : ℝ) / 127) < -4 := by
  obtain ⟨n, k1, k2, _⟩ := midi_value_to_db_key log10f 64 (by decide) (by decide) h
  obtain ⟨y1, y2⟩ := log10f_key_64 log10f h
  have r1 := logb_ge_of_ge ((64 : ℝ) / 127) (1 / 2) (by norm_num) (by norm_num) 2 5
    (by decide) (by norm_num)
  have r2 := logb_le_of_le ((64 : ℝ) / 127) (51 / 100) (by norm_num) (by norm_num) 1 4
    (by decide) (by norm_num)
  push_cast at r1 r2
  refine ⟨?_, ?_, by linarith, by linarith⟩
  · rw [F32.lt_iff, F32.key_neg_10]
    exact ⟨by decide, n, by omega⟩
  · rw [F32.lt_iff, F32.key_neg_4]
    exact ⟨n, by decide, by omega⟩

/-- C31 with the sample `log10f`, whose value at 64 is the float `-5.9524751`. -/
theorem midi_value_64_nominal_witness :
    F32.lt lit_neg_10_0f (gm1_midi_value_to_db log10f_sample 64) = true
    ∧ F32.lt (gm1_midi_value_to_db log10f_sample 64) lit_neg_4_0f = true
    ∧ gm1_midi_value_to_db log10f_sample 64 = F32.ofBits 0xC0BE7AAD :=
  ⟨(midi_value_64_nominal log10f_sample log10f_sample_within_64).1,
    (midi_value_64_nominal log10f_sample log10f_sample_within_64).2.1, by decide!⟩

/-- C36: with a `log10f` that returns `+0` at `1`, for every `v` in 0..127
at whose argument `log10f` is accurate to within `1/1000`,
`-60.0f <= gm1_midi_value_to_db(v) <= 0.0f`; and for `0 <= v < w <= 127`
with `log10f` accurate at both arguments (no requirement for `v = 0`),
`gm1_midi_value_to_db(v) < gm1_midi_value_to_db(w)`. -/
theorem midi_value_to_db_bounded_monotone (log10f : F32 → F32)
    (h1 : log10f lit_1_0f = lit_0_0f) :
    (∀ v, v ≤ 127 →
      (1 ≤ v → log10f_within (normalized_value v) (log10f (normalized_value v))) →
      F32.le lit_neg_60_0f (gm1_midi_value_to_db log10f v) = true
      ∧ F32.le (gm1_midi_value_to_db log10f v) lit_0_0f = true)
    ∧ (∀ v w, v < w → w ≤ 127 →
      (1 ≤ v → log10f_within (normalized_value v) (log10f (normalized_value v))) →
      log10f_within (normalized_value w) (log10f (normalized_value w)) →
      F32.lt (gm1_midi_value_to_db log10f v) (gm1_midi_value_to_db log10f w) = true) := by
  constructor
  · intro v hv hacc
    rcases Nat.eq_zero_or_pos v with h0 | hpos
    · subst h0
      have e : gm1_midi_value_to_db log10f 0 = lit_neg_60_0f := rfl
      rw [e]
      exact ⟨by decide, by decide⟩
    · by_cases h127 : v = 127
      · subst h127
        rw [midi_value_to_db_127 log10f h1]
        exact ⟨by decide, by decide⟩
      · obtain ⟨n, lo, hi⟩ := midi_value_to_db_bounds log10f v hpos hv (hacc hpos)
        have hi' := hi (by omega)
        constructor
        · rw [F32.le_iff, F32.key_neg_60]
          exact ⟨by decide, n, by omega⟩
        · rw [F32.le_iff, F32.key_zero]
          exact ⟨n, by decide, hi'⟩
  · intro v w hvw hw hv hwacc
    rcases Nat.eq_zero_or_pos v with h0 | hpos
    · subst h0
      obtain ⟨n, lo, _⟩ := midi_value_to_db_bounds log10f w hvw hw hwacc
      have e : gm1_midi_value_to_db log10f 0 = lit_neg_60_0f := rfl
      rw [e, F32.lt_iff, F32.key_neg_60]
      exact ⟨by decide, n, lo⟩
    · exact midi_value_to_db_lt log10f v w hpos hvw hw (hv hpos) hwacc

/-- C36 with the sample `log10f`: the values at 0, 32, 64, 96 and 127
increase strictly, and the value at 64 lies between `-60.0f` and `0.0f`. -/
theorem midi_value_to_db_bounded_monotone_witness :
    log10f_sample lit_1_0f = lit_0_0f
    ∧ (F32.le lit_neg_60_0f (gm1_midi_value_to_db log10f_sample 64) = true
      ∧ F32.le (gm1_midi_value_to_db log10f_sample 64) lit_0_0f = true)
    ∧ F32.lt (gm1_midi_value_to_db log10f_sample 0) (gm1_midi_value_to_db log10f_sample 32)
        = true
    ∧ F32.lt (gm1_midi_value_to_db log10f_sample 32) (gm1_midi_value_to_db log10f_sample 64)
        = true
    ∧ F32.lt (gm1_midi_value_to_db log10f_sample 96) (gm1_midi_value_to_db log10f_sample 127)
        = true :=
  ⟨by decide,
    (midi_value_to_db_bounded_monotone log10f_sample (by decide)).1 64 (by decide)
      (fun _ => log10f_sample_within_64),
    (midi_value_to_db_bounded_monotone log10f_sample (by decide)).2 0 32 (by decide)
      (by decide) (fun h => absurd h (by decide)) log10f_sample_within_32,
    (midi_value_to_db_bounded_monotone log10f_sample (by decide)).2 32 64 (by decide)
      (by decide) (fun _ => log10f_sample_within_32) log10f_sample_within_64,
    (midi_value_to_db_bounded_monotone log10f_sample (by decide)).2 96 127 (by decide)
      (by decide) (fun _ => log10f_sample_within_96) log10f_sample_within_127⟩

end GM1
